import Mathlib

/-!
Verification of dify-plugin-daemon: install orchestrator and package decoder helper

A shallow embedding of

* `internal/service/install_plugin.go` (`InstallPluginRuntimeToTenant`, its
  `updateTaskStatus` closure and the per-plugin install worker), and
* `pkg/plugin_packager/decoder/helper.go` (`Assets`, `AvailableI18nReadme`),

followed by theorems about them.

Conventions of the embedding.

* Go strings are `String`; byte slices are lists of byte values.
* Go `int` counters are `Nat`: `TotalPlugins` is a slice length and
  `CompletedPlugins` is incremented once per update, so neither can leave the
  range of a machine integer.
* External services (the relational store, the declaration cache, the plugin
  manager, the `on_done` callback) are oracles handed to the functions.  Their
  answers may change from one call to the next, so every oracle also receives
  the position of the call.
* A Go run-time panic (index out of range) is an explicit result.
-/

namespace DifyPluginDaemon

/-! ## Data model -/

/-- The type `models.InstallTaskStatus`. -/
inductive InstallTaskStatus where
  | pending
  | running
  | success
  | failed
  deriving DecidableEq, Repr

/-- The type `plugin_entities.I18nObject`, the four locales the decoder helper reads. -/
structure I18nObject where
  EnUS : String
  ZhHans : String
  JaJp : String
  PtBr : String
  deriving DecidableEq, Repr

/-- The type `plugin_entities.ModelDeclaration`: a parsed model file, known by the name of
its model. -/
structure ModelDeclaration where
  Model : String
  deriving DecidableEq, Repr

/-- The fields of `plugin_entities.ModelProviderDeclaration` read by the decoder helper. -/
structure ModelProviderDeclaration where
  IconSmall : Option I18nObject
  IconLarge : Option I18nObject
  ModelFiles : List String := []
  Models : List ModelDeclaration := []
  deriving DecidableEq, Repr

/-- The field of `plugin_entities.ToolProviderIdentity` read by the decoder helper. -/
structure ToolProviderIdentity where
  Icon : String
  deriving DecidableEq, Repr

/-- The field of `plugin_entities.ToolProviderDeclaration` read by the decoder helper. -/
structure ToolProviderDeclaration where
  Identity : ToolProviderIdentity
  deriving DecidableEq, Repr

/-- The fields of `plugin_entities.PluginDeclaration` read by the installer and by
the decoder helper. -/
structure PluginDeclaration where
  Icon : String
  IconDark : String
  Label : String
  Author : String := ""
  Name : String := ""
  Version : String := ""
  Model : Option ModelProviderDeclaration := none
  Tool : Option ToolProviderDeclaration := none
  deriving DecidableEq, Repr

/-- The type `map[string]any`, the free-form meta of one installation. -/
abbrev MetaMap := List (String × String)

/-- The type `models.InstallTaskPluginStatus`: one slot of an install task. -/
structure InstallTaskPluginStatus where
  PluginUniqueIdentifier : String
  PluginID : String
  Status : InstallTaskStatus
  Icon : String
  IconDark : String
  Labels : String
  Message : String
  deriving DecidableEq, Repr

/-- The type `models.InstallTask`. -/
structure InstallTask where
  ID : String
  Status : InstallTaskStatus
  TenantID : String
  TotalPlugins : Nat
  CompletedPlugins : Nat
  Plugins : List InstallTaskPluginStatus
  deriving DecidableEq, Repr

/-- The type `InstallPluginResponse`. -/
structure InstallPluginResponse where
  AllInstalled : Bool
  TaskID : String
  deriving DecidableEq, Repr

/-- The type `plugin_entities.PluginRuntimeType`, the two values the installer selects. -/
inductive PluginRuntimeType where
  | PLUGIN_RUNTIME_TYPE_SERVERLESS
  | PLUGIN_RUNTIME_TYPE_LOCAL
  deriving DecidableEq, Repr

/-- Modelled from the spec: the constant `app.PLATFORM_LOCAL` is declared outside
the given sources; the platform selector ranges over `local` and `serverless`. -/
def PLATFORM_LOCAL : String := "local"

/-- Modelled from the spec: the constant `app.PLATFORM_SERVERLESS` is declared
outside the given sources; the platform selector ranges over `local` and
`serverless`. -/
def PLATFORM_SERVERLESS : String := "serverless"

/-- The type `app.Config`, the field read by the installer. -/
structure Config where
  Platform : String
  deriving DecidableEq, Repr

/-- Result of `db.GetOne`: a row was found, `db.ErrDatabaseNotFound`, or another
database error. -/
inductive DbLookup where
  | found
  | notFound
  | failed (err : String)
  deriving DecidableEq, Repr

/-- How a call of a Go function ends: a value, a returned `error`, or a run-time
panic. -/
inductive CallResult (α : Type) where
  | ok (value : α)
  | error (err : String)
  | panic (reason : String)
  deriving DecidableEq, Repr

/-- The type `InstallPluginOnDoneHandler`.  The first argument is the position of the
call: the index of the identifier in the request for the synchronous calls, the
index of the event in the stream for the calls of a worker.  `none` is a `nil`
error. -/
abbrev InstallPluginOnDoneHandler :=
  Nat → String → PluginDeclaration → MetaMap → Option String

/-- One recorded call `onDone(identifier, declaration, meta)`. -/
structure OnDoneCall where
  pluginUniqueIdentifier : String
  declaration : PluginDeclaration
  meta : MetaMap
  deriving DecidableEq, Repr

/-- The services `InstallPluginRuntimeToTenant` calls synchronously. -/
structure InstallServices where
  /-- The helper `helper.CombinedGetPluginDeclaration`; the first argument counts the calls
  made before this one by the same install request. -/
  CombinedGetPluginDeclaration :
    Nat → String → PluginRuntimeType → Except String PluginDeclaration
  /-- The lookup `db.GetOne[models.Plugin]` on `plugin_unique_identifier`; the first
  argument is the index of the identifier in the request. -/
  GetOnePlugin : Nat → String → DbLookup
  /-- The insert `db.Create(task)`: the id the store gives to the new row, or an error. -/
  Create : InstallTask → Except String String
  /-- The method `PluginUniqueIdentifier.PluginID()`. -/
  PluginID : String → String

/-- The text `errors.Join(a, b).Error()`. -/
def errorsJoin (a b : String) : String := a ++ "\n" ++ b

/-! ## `updateTaskStatus` and the modifiers of the worker -/

/-- The three shapes of modifier a worker passes to `updateTaskStatus`. -/
inductive Modifier where
  /-- The modifier `plugin.Status = running; plugin.Message = "Installing"`. -/
  | running
  /-- The modifier `task.Status = failed; plugin.Status = failed;
  plugin.Message = message`. -/
  | failed (message : String)
  /-- The modifier `plugin.Status = success; plugin.Message = "Installed";
  task.CompletedPlugins++`
  and the `CompletedPlugins == TotalPlugins` test. -/
  | success
  deriving DecidableEq, Repr

/-- Assignment through the pointer `&task.Plugins[idx]`. -/
def modifySlot (f : InstallTaskPluginStatus → InstallTaskPluginStatus) :
    Nat → List InstallTaskPluginStatus → List InstallTaskPluginStatus
  | _, [] => []
  | 0, p :: ps => f p :: ps
  | n + 1, p :: ps => p :: modifySlot f n ps

/-- The assignments a modifier makes through its `plugin` pointer. -/
def Modifier.onPlugin (m : Modifier) (plugin : InstallTaskPluginStatus) :
    InstallTaskPluginStatus :=
  match m with
  | .running => { plugin with Status := .running, Message := "Installing" }
  | .failed message => { plugin with Status := .failed, Message := message }
  | .success => { plugin with Status := .success, Message := "Installed" }

/-- The assignments a modifier makes through its `task` pointer, to fields other
than the slots. -/
def Modifier.onTask (m : Modifier) (task : InstallTask) : InstallTask :=
  match m with
  | .running => task
  | .failed _ => { task with Status := .failed }
  | .success =>
    let task1 : InstallTask := { task with CompletedPlugins := task.CompletedPlugins + 1 }
    if task1.CompletedPlugins = task1.TotalPlugins then
      { task1 with Status := .success }
    else task1

/-- Runs a modifier on `task` and on the slot `task.Plugins[idx]` that `plugin`
points to. -/
def Modifier.apply (m : Modifier) (task : InstallTask) (idx : Nat) : InstallTask :=
  m.onTask { task with Plugins := modifySlot m.onPlugin idx task.Plugins }

/-- The loop `for i := range task.Plugins` of `updateTaskStatus`: index of the
first slot with the given identifier. -/
def findSlot (pluginUniqueIdentifier : String) :
    List InstallTaskPluginStatus → Option Nat
  | [] => none
  | p :: ps =>
    if p.PluginUniqueIdentifier = pluginUniqueIdentifier then some 0
    else (findSlot pluginUniqueIdentifier ps).map (· + 1)

/-- The loop counting `successes` in `updateTaskStatus`. -/
def countSuccesses : List InstallTaskPluginStatus → Nat
  | [] => 0
  | p :: ps =>
    if p.Status = .success then countSuccesses ps + 1 else countSuccesses ps

/-- Effect of one `updateTaskStatus` transaction. -/
structure UpdateResult where
  /-- the task row after the transaction -/
  stored : Option InstallTask
  /-- whether the transaction, having committed, armed
  `time.AfterFunc(120*time.Second, ...)` to delete the row -/
  deleteScheduled : Bool
  deriving DecidableEq, Repr

/-- The closure `updateTaskStatus` of a worker for `pluginUniqueIdentifier`, run
on the task row `stored` (`none`: the row does not exist).  `commit = false` is a
transaction that fails (an error of `db.GetOne` or of `db.Update`): the row is
left as it was. -/
def updateTaskStatus (pluginUniqueIdentifier : String) (modifier : Modifier)
    (commit : Bool) (stored : Option InstallTask) : UpdateResult :=
  match stored with
  | none => { stored := none, deleteScheduled := false }
  | some task =>
    if commit then
      match findSlot pluginUniqueIdentifier task.Plugins with
      | none => { stored := some task, deleteScheduled := false }
      | some idx =>
        let task1 := modifier.apply task idx
        if countSuccesses task1.Plugins = task1.Plugins.length then
          { stored := some { task1 with Status := .success }, deleteScheduled := true }
        else
          { stored := some task1, deleteScheduled := false }
    else { stored := some task, deleteScheduled := false }

/-! ## `InstallPluginRuntimeToTenant` -/

/-- The closure appended to `tasks` for one enqueued identifier: the variables
it captures.  `i` is the loop variable of the loop that builds the closures. -/
structure InstallWorker where
  config : Config
  pluginUniqueIdentifier : String
  declaration : PluginDeclaration
  i : Nat
  taskID : String
  source : String
  metas : List MetaMap
  deriving DecidableEq, Repr

/-- Local variables of the first loop of `InstallPluginRuntimeToTenant`, with the
`on_done` calls made so far. -/
structure PreflightState where
  task : InstallTask
  pluginsWaitForInstallation : List String
  onDoneCalls : List OnDoneCall
  deriving DecidableEq, Repr

/-- How the first loop ends: it runs to its end, or returns from the function. -/
structure PreflightResult where
  state : PreflightState
  /-- When `some r`: the loop executed `return nil, err` (or panicked) with `r` -/
  aborted : Option (CallResult InstallPluginResponse)
  deriving DecidableEq, Repr

/-- The slot appended for `pluginUniqueIdentifier` by the first loop. -/
def pendingSlot (sv : InstallServices) (pluginUniqueIdentifier : String)
    (pluginDeclaration : PluginDeclaration) : InstallTaskPluginStatus :=
  { PluginUniqueIdentifier := pluginUniqueIdentifier
    PluginID := sv.PluginID pluginUniqueIdentifier
    Status := .pending
    Icon := pluginDeclaration.Icon
    IconDark := pluginDeclaration.IconDark
    Labels := pluginDeclaration.Label
    Message := "" }

/-- The loop `for i, pluginUniqueIdentifier := range plugin_unique_identifiers`,
from index `i` on, `rest` being the identifiers still to visit. -/
def preflightLoop (sv : InstallServices) (runtimeType : PluginRuntimeType)
    (metas : List MetaMap) (onDone : InstallPluginOnDoneHandler) :
    Nat → List String → PreflightState → PreflightResult
  | _, [], st => { state := st, aborted := none }
  | i, pluginUniqueIdentifier :: rest, st =>
    match sv.CombinedGetPluginDeclaration i pluginUniqueIdentifier runtimeType with
    | .error err => { state := st, aborted := some (.error err) }
    | .ok pluginDeclaration =>
      let task1 : InstallTask :=
        { st.task with
          Plugins := st.task.Plugins ++ [pendingSlot sv pluginUniqueIdentifier pluginDeclaration] }
      match sv.GetOnePlugin i pluginUniqueIdentifier with
      | .found =>
        match metas[i]? with
        | none =>
          { state := { st with task := task1 }
            aborted := some (.panic "index out of range") }
        | some meta =>
          let calls := st.onDoneCalls ++ [OnDoneCall.mk pluginUniqueIdentifier pluginDeclaration meta]
          match onDone i pluginUniqueIdentifier pluginDeclaration meta with
          | some err =>
            { state := { st with task := task1, onDoneCalls := calls }
              aborted := some (.error (errorsJoin err "failed on plugin installation")) }
          | none =>
            let task2 : InstallTask :=
              { task1 with
                CompletedPlugins := task1.CompletedPlugins + 1
                Plugins := modifySlot
                  (fun p => { p with Status := .success, Message := "Installed" }) i task1.Plugins }
            preflightLoop sv runtimeType metas onDone (i + 1) rest
              { st with task := task2, onDoneCalls := calls }
      | .failed err => { state := { st with task := task1 }, aborted := some (.error err) }
      | .notFound =>
        preflightLoop sv runtimeType metas onDone (i + 1) rest
          { st with
            task := task1
            pluginsWaitForInstallation := st.pluginsWaitForInstallation ++ [pluginUniqueIdentifier] }

/-- The loop `for i, pluginUniqueIdentifier := range pluginsWaitForInstallation`
that builds the worker closures; `calls` is the number of declaration lookups
made before the loop.  An error of the lookup returns from the function. -/
def buildWorkers (sv : InstallServices) (config : Config)
    (runtimeType : PluginRuntimeType) (source : String) (metas : List MetaMap)
    (taskID : String) (calls : Nat) :
    Nat → List String → List InstallWorker → Except String (List InstallWorker)
  | _, [], tasks => .ok tasks
  | i, pluginUniqueIdentifier :: rest, tasks =>
    match sv.CombinedGetPluginDeclaration (calls + i) pluginUniqueIdentifier runtimeType with
    | .error err => .error err
    | .ok declaration =>
      buildWorkers sv config runtimeType source metas taskID calls (i + 1) rest
        (tasks ++ [InstallWorker.mk config pluginUniqueIdentifier declaration i taskID source metas])

/-- Everything observable of one call of `InstallPluginRuntimeToTenant`. -/
structure InstallOutcome where
  /-- the returned `(*InstallPluginResponse, error)`, or a panic -/
  result : CallResult InstallPluginResponse
  /-- the rows inserted in `install_task` by `db.Create` -/
  createdTasks : List InstallTask
  /-- the calls of `onDone` made before returning, in order -/
  onDoneCalls : List OnDoneCall
  /-- the closures handed to `routine.WithMaxRoutine` -/
  submitted : List InstallWorker
  deriving DecidableEq, Repr

/-- The body of `InstallPluginRuntimeToTenant` after the platform test. -/
def installWithRuntimeType (sv : InstallServices) (config : Config)
    (runtimeType : PluginRuntimeType)
    (tenant_id : String) (plugin_unique_identifiers : List String) (source : String)
    (metas : List MetaMap) (onDone : InstallPluginOnDoneHandler) : InstallOutcome :=
  let task : InstallTask :=
    { ID := ""
      Status := .running
      TenantID := tenant_id
      TotalPlugins := plugin_unique_identifiers.length
      CompletedPlugins := 0
      Plugins := [] }
  let pre := preflightLoop sv runtimeType metas onDone 0 plugin_unique_identifiers
    { task := task, pluginsWaitForInstallation := [], onDoneCalls := [] }
  match pre.aborted with
  | some r =>
    { result := r, createdTasks := [], onDoneCalls := pre.state.onDoneCalls, submitted := [] }
  | none =>
    if pre.state.pluginsWaitForInstallation.length = 0 then
      { result := .ok { AllInstalled := true, TaskID := "" }
        createdTasks := []
        onDoneCalls := pre.state.onDoneCalls
        submitted := [] }
    else
      match sv.Create pre.state.task with
      | .error err =>
        { result := .error err
          createdTasks := []
          onDoneCalls := pre.state.onDoneCalls
          submitted := [] }
      | .ok id =>
        let row : InstallTask := { pre.state.task with ID := id }
        match buildWorkers sv config runtimeType source metas id
            plugin_unique_identifiers.length 0
            pre.state.pluginsWaitForInstallation [] with
        | .error err =>
          { result := .error err
            createdTasks := [row]
            onDoneCalls := pre.state.onDoneCalls
            submitted := [] }
        | .ok tasks =>
          { result := .ok { AllInstalled := false, TaskID := id }
            createdTasks := [row]
            onDoneCalls := pre.state.onDoneCalls
            submitted := tasks }

/-- The platform test at the head of `InstallPluginRuntimeToTenant`. -/
def platformRuntimeType (config : Config) : Except String PluginRuntimeType :=
  if config.Platform = PLATFORM_SERVERLESS then .ok .PLUGIN_RUNTIME_TYPE_SERVERLESS
  else if config.Platform = PLATFORM_LOCAL then .ok .PLUGIN_RUNTIME_TYPE_LOCAL
  else .error ("unsupported platform: " ++ config.Platform)

/-- The function `InstallPluginRuntimeToTenant(config, tenant_id, plugin_unique_identifiers,
source, metas, onDone)`. -/
def InstallPluginRuntimeToTenant (sv : InstallServices) (config : Config)
    (tenant_id : String) (plugin_unique_identifiers : List String) (source : String)
    (metas : List MetaMap) (onDone : InstallPluginOnDoneHandler) : InstallOutcome :=
  match platformRuntimeType config with
  | .error err =>
    { result := .error err, createdTasks := [], onDoneCalls := [], submitted := [] }
  | .ok runtimeType =>
    installWithRuntimeType sv config runtimeType tenant_id plugin_unique_identifiers
      source metas onDone

/-! ## The install worker -/

/-- Modelled from the spec: the event tags of `plugin_manager.PluginInstallResponse`
are declared outside the given sources; a local install stream carries the tags
`info`, `done` and `error`. -/
inductive PluginInstallEvent where
  | PluginInstallEventInfo
  | PluginInstallEventDone
  | PluginInstallEventError
  deriving DecidableEq, Repr

/-- The type `plugin_manager.PluginInstallResponse`. -/
structure PluginInstallResponse where
  Event : PluginInstallEvent
  Data : String
  deriving DecidableEq, Repr

/-- What one `stream.Read()` returns: a message or an error.  A stream is the
list of its reads up to the point where it is closed (`stream.Next()` false). -/
abbrev StreamRead := Except String PluginInstallResponse

/-- The plugin manager calls of a worker. -/
structure ManagerServices where
  /-- The call `manager.GetPackage(identifier)` -/
  GetPackage : String → Except String (List Nat)
  /-- The call `decoder.NewZipPluginDecoder(pkgFile)`: `some err` when decoding fails -/
  NewZipPluginDecoder : List Nat → Option String
  /-- The call `manager.InstallToAWSFromPkg(pkgFile, zipDecoder, source, meta)` -/
  InstallToAWSFromPkg : List Nat → String → MetaMap → Except String (List StreamRead)
  /-- The call `manager.InstallToLocal(identifier, source, meta)` -/
  InstallToLocal : String → String → MetaMap → Except String (List StreamRead)

/-- Trace of one execution of a worker closure. -/
structure WorkerRun where
  /-- modifiers passed to `updateTaskStatus`, in order -/
  updates : List Modifier
  /-- number of `stream.Read()` calls -/
  consumed : Nat
  /-- calls of `onDone` -/
  onDoneCalls : List OnDoneCall
  /-- the `meta` arguments given to the platform installer -/
  installerMetas : List MetaMap
  /-- the goroutine panicked (index out of range) -/
  panicked : Bool
  deriving DecidableEq, Repr

/-- A call of `updateTaskStatus` with the modifier of a failure, then `return`. -/
def WorkerRun.fail (run : WorkerRun) (message : String) : WorkerRun :=
  { run with updates := run.updates ++ [.failed message] }

/-- The loop `for stream.Next()` of a worker and the final update that follows
it; `k` is the index of the next read. -/
def consumeStream (onDone : InstallPluginOnDoneHandler) (w : InstallWorker)
    (meta : MetaMap) : Nat → List StreamRead → WorkerRun → WorkerRun
  | _, [], run => { run with updates := run.updates ++ [.success] }
  | k, read :: rest, run =>
    let run1 : WorkerRun := { run with consumed := run.consumed + 1 }
    match read with
    | .error err => run1.fail err
    | .ok message =>
      if message.Event = .PluginInstallEventError then run1.fail message.Data
      else if message.Event = .PluginInstallEventDone then
        let run2 : WorkerRun :=
          { run1 with
            onDoneCalls := run1.onDoneCalls ++
              [OnDoneCall.mk w.pluginUniqueIdentifier w.declaration meta] }
        match onDone k w.pluginUniqueIdentifier w.declaration meta with
        | some _ => run2.fail "Failed to create plugin, perhaps it's already installed"
        | none => consumeStream onDone w meta (k + 1) rest run2
      else consumeStream onDone w meta (k + 1) rest run1

/-- The part of a worker after the platform installer returned `(stream, err)`. -/
def afterInstall (onDone : InstallPluginOnDoneHandler) (w : InstallWorker)
    (meta : MetaMap) (run : WorkerRun) (r : Except String (List StreamRead)) : WorkerRun :=
  let run1 : WorkerRun := { run with installerMetas := run.installerMetas ++ [meta] }
  match r with
  | .error err => run1.fail err
  | .ok stream => consumeStream onDone w meta 0 stream run1

/-- How the platform selection of a worker ends. -/
inductive InstallStart where
  /-- A call of `updateTaskStatus` with a failure and `return`, no installer having
  been called -/
  | failed (message : String)
  /-- The index `metas[i]` is out of range -/
  | panicked
  /-- the platform installer was called with `meta` and returned `(stream, err)` -/
  | called (meta : MetaMap) (r : Except String (List StreamRead))

/-- The platform selection of a worker, up to the return of the installer. -/
def startInstall (mgr : ManagerServices) (w : InstallWorker) : InstallStart :=
  if w.config.Platform = PLATFORM_SERVERLESS then
    match mgr.GetPackage w.pluginUniqueIdentifier with
    | .error _ => .failed "Failed to read plugin package"
    | .ok pkgFile =>
      match mgr.NewZipPluginDecoder pkgFile with
      | some err => .failed err
      | none =>
        match w.metas[w.i]? with
        | none => .panicked
        | some meta => .called meta (mgr.InstallToAWSFromPkg pkgFile w.source meta)
  else if w.config.Platform = PLATFORM_LOCAL then
    match w.metas[w.i]? with
    | none => .panicked
    | some meta => .called meta (mgr.InstallToLocal w.pluginUniqueIdentifier w.source meta)
  else .failed "Unsupported platform"

/-- The closure a worker executes. -/
def runWorker (mgr : ManagerServices) (onDone : InstallPluginOnDoneHandler)
    (w : InstallWorker) : WorkerRun :=
  let run : WorkerRun :=
    { updates := [.running], consumed := 0, onDoneCalls := [], installerMetas := []
      panicked := false }
  match startInstall mgr w with
  | .failed message => run.fail message
  | .panicked => { run with panicked := true }
  | .called meta r => afterInstall onDone w meta run r

/-! ## Workers updating the stored task -/

/-- A running worker as the store sees it: the identifier it updates and the
updates it has still to make. -/
structure WorkerThread where
  pluginUniqueIdentifier : String
  remaining : List Modifier
  deriving DecidableEq, Repr

/-- The `install_task` row of one install request and the workers updating it. -/
structure TaskStore where
  row : Option InstallTask
  threads : List WorkerThread
  /-- number of deletion timers armed so far -/
  timers : Nat
  deriving DecidableEq, Repr

/-- One scheduling decision: worker `worker` runs its next `updateTaskStatus`,
whose transaction commits or fails.  The row-level write lock makes the
transactions of different workers happen one after the other. -/
structure Tick where
  worker : Nat
  commit : Bool
  deriving DecidableEq, Repr

/-- Replaces the element at an index. -/
def setThread (th : WorkerThread) : Nat → List WorkerThread → List WorkerThread
  | _, [] => []
  | 0, _ :: ts => th :: ts
  | n + 1, t :: ts => t :: setThread th n ts

/-- Executes one scheduling decision. -/
def TaskStore.tick (s : TaskStore) (t : Tick) : TaskStore :=
  match s.threads[t.worker]? with
  | none => s
  | some th =>
    match th.remaining with
    | [] => s
    | modifier :: later =>
      let r := updateTaskStatus th.pluginUniqueIdentifier modifier t.commit s.row
      { row := r.stored
        threads := setThread { th with remaining := later } t.worker s.threads
        timers := if r.deleteScheduled then s.timers + 1 else s.timers }

/-- Executes a schedule. -/
def TaskStore.run (s : TaskStore) (schedule : List Tick) : TaskStore :=
  schedule.foldl TaskStore.tick s

/-- The workers submitted by an install request, each with the updates its
execution makes. -/
def startWorkers (mgr : ManagerServices) (onDone : InstallPluginOnDoneHandler)
    (submitted : List InstallWorker) : List WorkerThread :=
  submitted.map fun w =>
    { pluginUniqueIdentifier := w.pluginUniqueIdentifier
      remaining := (runWorker mgr onDone w).updates }

/-- The store after an install request persisted its task and the submitted
workers made the updates of `schedule`. -/
def storeAfterInstall (sv : InstallServices) (mgr : ManagerServices) (config : Config)
    (tenant_id : String) (plugin_unique_identifiers : List String) (source : String)
    (metas : List MetaMap) (onDone : InstallPluginOnDoneHandler)
    (schedule : List Tick) : TaskStore :=
  let out := InstallPluginRuntimeToTenant sv config tenant_id plugin_unique_identifiers
    source metas onDone
  TaskStore.run
    { row := out.createdTasks.head?
      threads := startWorkers mgr onDone out.submitted
      timers := 0 }
    schedule

/-! ## Package decoder helper (`pkg/plugin_packager/decoder/helper.go`) -/

/-- A byte slice; `string(bytes)` keeps the bytes, so file texts are byte lists too. -/
abbrev Bytes := List Nat

/-- An `error` returned by a decoder: its text, and whether
`errors.Is(err, os.ErrNotExist)` holds for it. -/
structure DecoderError where
  message : String
  notExist : Bool
  deriving DecidableEq, Repr

/-- The error `errors.Join(err, fmt.Errorf(text))`: the joined text; `errors.Is` looks through
the join, and the added error is not `os.ErrNotExist`. -/
def DecoderError.join (err : DecoderError) (text : String) : DecoderError :=
  { message := errorsJoin err.message text, notExist := err.notExist }

/-- The methods of the `PluginDecoder` interface the helper calls. -/
structure PluginDecoder where
  ReadFile : String → Except DecoderError Bytes
  ReadDir : String → Except DecoderError (List String)

/-- A Go `map[string]V`: a list of bindings with one binding per key. -/
abbrev GoMap (V : Type) := List (String × V)

/-- The assignment `m[key] = value`. -/
def GoMap.set {V : Type} : GoMap V → String → V → GoMap V
  | [], key, value => [(key, value)]
  | (k, v) :: rest, key, value =>
    if k = key then (key, value) :: rest else (k, v) :: GoMap.set rest key value

/-- The lookup `m[key]`, `none` when the key is absent. -/
def GoMap.get? {V : Type} : GoMap V → String → Option V
  | [], _ => none
  | (k, v) :: rest, key => if k = key then some v else GoMap.get? rest key

/-- The key set of a map. -/
def GoMap.keys {V : Type} (m : GoMap V) : List String := m.map Prod.fst

/-- The function `strings.HasPrefix(s, pre)`. -/
def HasPrefix (s pre : String) : Bool := pre.data.isPrefixOf s.data

/-- The function `strings.CutPrefix(s, pre)`: `s` without the leading `pre` and `true`, or `s`
and `false` when `s` does not start with `pre`. -/
def CutPrefix (s pre : String) : String × Bool :=
  if HasPrefix s pre then (String.mk (s.data.drop pre.data.length), true) else (s, false)

/-- The loop of `Assets` over the listed files. -/
def assetsLoop (decoder : PluginDecoder) (separator : String) :
    List String → GoMap Bytes → Except DecoderError (GoMap Bytes)
  | [], assets => .ok assets
  | file :: rest, assets =>
    match decoder.ReadFile file with
    | .error err => .error err
    | .ok content =>
      assetsLoop decoder separator rest
        (assets.set (CutPrefix file ("_assets" ++ separator)).1 content)

/-- The method `PluginDecoderHelper.Assets(decoder, separator)`. -/
def PluginDecoderHelper.Assets (decoder : PluginDecoder) (separator : String) :
    Except DecoderError (GoMap Bytes) :=
  match decoder.ReadDir "_assets" with
  | .error err => .error err
  | .ok files => assetsLoop decoder separator files []

/-- The class `[a-z]`. -/
def isLowerLetter (c : Char) : Bool := 'a' ≤ c && c ≤ 'z'

/-- The class `[A-Za-z]`. -/
def isLetter (c : Char) : Bool := ('A' ≤ c && c ≤ 'Z') || ('a' ≤ c && c ≤ 'z')

/-- Removes a leading `pre`, if there is one. -/
def dropLeading : List Char → List Char → Option (List Char)
  | [], s => some s
  | _ :: _, [] => none
  | p :: pre, c :: s => if p = c then dropLeading pre s else none

/-- The call `readmeRegexp.FindStringSubmatch(file)` for
`readmeRegexp = ^README_([a-z]{2}_[A-Za-z]{2,})\.md$`: the text of group 1 when the
whole of `file` matches, `none` when there is no match.  The pattern is anchored
at both ends and the repetition is followed by a dot, which is no letter, so a
match takes the longest run of letters. -/
def readmeRegexpFind (file : String) : Option String :=
  match dropLeading "README_".data file.data with
  | none => none
  | some (a :: b :: c :: rest) =>
    if isLowerLetter a ∧ isLowerLetter b ∧ c = '_' then
      if 2 ≤ (rest.takeWhile isLetter).length ∧ rest.dropWhile isLetter = ".md".data then
        some (String.mk (a :: b :: c :: rest.takeWhile isLetter))
      else none
    else none
  | some _ => none

/-- The call `filepath.Join(dir, name)` for a directory name and a file name that hold no
separator and no dot element, as is every name matched by `readmeRegexp`:
cleaning the path changes nothing, and the two are joined with the separator of
the host, `osSeparator`. -/
def filepathJoin (osSeparator dir name : String) : String := dir ++ osSeparator ++ name

/-- The loop of `AvailableI18nReadme` over the listed files. -/
def readmeLoop (osSeparator : String) (decoder : PluginDecoder) (separator : String) :
    List String → GoMap Bytes → Except DecoderError (GoMap Bytes)
  | [], readmes => .ok readmes
  | file :: rest, readmes =>
    match readmeRegexpFind (CutPrefix file ("readme" ++ separator)).1 with
    | none => readmeLoop osSeparator decoder separator rest readmes
    | some language =>
      match decoder.ReadFile
          (filepathJoin osSeparator "readme" (CutPrefix file ("readme" ++ separator)).1) with
      | .error err =>
        .error (err.join ("failed to read readme file: " ++
          (CutPrefix file ("readme" ++ separator)).1))
      | .ok readme =>
        readmeLoop osSeparator decoder separator rest (readmes.set language readme)

/-- The method `PluginDecoderHelper.AvailableI18nReadme(decoder, separator)` on a host whose
path separator is `osSeparator`. -/
def PluginDecoderHelper.AvailableI18nReadme (osSeparator : String) (decoder : PluginDecoder)
    (separator : String) : Except DecoderError (GoMap Bytes) :=
  match decoder.ReadFile "README.md" with
  | .error err => .error (err.join "en_US readme not found")
  | .ok enUSReadme =>
    match decoder.ReadDir "readme" with
    | .error err =>
      if err.notExist then .ok (GoMap.set [] "en_US" enUSReadme)
      else .error (err.join "an unexpected error occurred while reading readme folder")
    | .ok readmeFiles =>
      readmeLoop osSeparator decoder separator readmeFiles (GoMap.set [] "en_US" enUSReadme)

/-- The locale pattern of the specification, `^[a-z]{2}_[A-Za-z]{2,}$`: two
lower-case letters, an underscore, and two or more letters. -/
def matchesLocalePattern (locale : String) : Bool :=
  match locale.data with
  | a :: b :: c :: region =>
    isLowerLetter a && isLowerLetter b && decide (c = '_') && decide (2 ≤ region.length) &&
      region.all isLetter
  | _ => false

/-- The decoder of `helper_test.go`: every file reads as `test`; `_assets` and
`readme` list the files of the test. -/
def UnixPluginDecoder : PluginDecoder :=
  { ReadFile := fun _ => .ok [116, 101, 115, 116]
    ReadDir := fun dirname =>
      if dirname = "_assets" then .ok ["_assets/test.txt", "_assets/test2.txt"]
      else if dirname = "readme" then .ok ["readme/README_zh_Hans.md"]
      else .ok [] }

/-- The Windows decoder of `helper_test.go`: it lists the assets with a backslash. -/
def WindowsPluginDecoder : PluginDecoder :=
  { UnixPluginDecoder with
    ReadDir := fun _ => .ok ["_assets\\test.txt", "_assets\\test2.txt"] }

/-- A package with a root `README.md` and no `readme` folder. -/
def rootReadmeOnly : PluginDecoder :=
  { ReadFile := fun filename =>
      if filename = "README.md" then .ok [35, 32, 104, 105]
      else .error { message := "open " ++ filename ++ ": file does not exist", notExist := true }
    ReadDir := fun dirname =>
      .error { message := "open " ++ dirname ++ ": file does not exist", notExist := true } }

/-! ## The invariant of a task under the updates of its workers -/

/-- A worker makes a success update, if at all, as its last update. -/
def successLast : List Modifier → Prop
  | [] => True
  | m :: later => (m = .success → later = []) ∧ successLast later

/-- The state of a task and its workers when no two workers share an identifier:
the counters agree with the slots, a task with status success has only success
slots, and the slot of a worker that has updates left is not a success. -/
def TaskStore.Consistent (s : TaskStore) : Prop :=
  (s.threads.map fun th => th.pluginUniqueIdentifier).Nodup ∧
  (∀ th ∈ s.threads, successLast th.remaining) ∧
  ∀ task, s.row = some task →
    task.TotalPlugins = task.Plugins.length ∧
    task.CompletedPlugins = countSuccesses task.Plugins ∧
    (task.Status = .success → countSuccesses task.Plugins = task.Plugins.length) ∧
    ∀ th ∈ s.threads, ∀ idx slot, th.remaining ≠ [] →
      findSlot th.pluginUniqueIdentifier task.Plugins = some idx →
      task.Plugins[idx]? = some slot → slot.Status ≠ .success

/-! ## Concrete services used to evaluate the code -/

/-- A declaration with empty icons and label. -/
def plainDeclaration : PluginDeclaration := { Icon := "", IconDark := "", Label := "" }

/-- A store in which no plugin is installed, every declaration is cached and the
task insert succeeds with id `task-1`. -/
def nothingInstalled : InstallServices :=
  { CombinedGetPluginDeclaration := fun _ _ _ => .ok plainDeclaration
    GetOnePlugin := fun _ _ => .notFound
    Create := fun _ => .ok "task-1"
    PluginID := fun identifier => identifier }

/-- As `nothingInstalled`, with the identifier at position 0 of the request
already installed. -/
def firstInstalled : InstallServices :=
  { nothingInstalled with
    GetOnePlugin := fun i _ => if i = 0 then .found else .notFound }

/-- As `nothingInstalled`, but the declaration cache answers only the first
lookup of a request. -/
def declarationLostAfterPreflight : InstallServices :=
  { nothingInstalled with
    CombinedGetPluginDeclaration := fun calls _ _ =>
      if calls = 0 then .ok plainDeclaration else .error "plugin declaration not found" }

/-- As `nothingInstalled`, but the task insert fails. -/
def createFails : InstallServices :=
  { nothingInstalled with Create := fun _ => .error "database is locked" }

/-- The stream of a successful install: progress, then `done`. -/
def doneStream : List StreamRead :=
  [.ok { Event := .PluginInstallEventInfo, Data := "Installing" },
   .ok { Event := .PluginInstallEventDone, Data := "Installed" }]

/-- A plugin manager whose installs all succeed. -/
def installsSucceed : ManagerServices :=
  { GetPackage := fun _ => .ok []
    NewZipPluginDecoder := fun _ => none
    InstallToAWSFromPkg := fun _ _ _ => .ok doneStream
    InstallToLocal := fun _ _ _ => .ok doneStream }

/-- An `on_done` handler that never fails. -/
def onDoneOk : InstallPluginOnDoneHandler := fun _ _ _ _ => none

/-- The local platform. -/
def localConfig : Config := { Platform := PLATFORM_LOCAL }

/-- Two workers of the same request run one after the other, every transaction
committing. -/
def oneAfterTheOther : List Tick :=
  [{ worker := 0, commit := true }, { worker := 0, commit := true },
   { worker := 1, commit := true }, { worker := 1, commit := true }]

/-- A store in which every plugin of a request is installed already. -/
def allInstalled : InstallServices :=
  { nothingInstalled with GetOnePlugin := fun _ _ => .found }

/-- A stream that reports progress, then an error; the installer wrote more after it. -/
def errorStream : List StreamRead :=
  [.ok { Event := .PluginInstallEventInfo, Data := "Installing" },
   .ok { Event := .PluginInstallEventError, Data := "init environment failed" },
   .ok { Event := .PluginInstallEventDone, Data := "Installed" }]

/-- A plugin manager whose local installs report an error. -/
def installsFail : ManagerServices :=
  { installsSucceed with InstallToLocal := fun _ _ _ => .ok errorStream }

/-- The worker of identifier `p` on the local platform, first of its request. -/
def localWorker : InstallWorker :=
  { config := localConfig, pluginUniqueIdentifier := "p", declaration := plainDeclaration
    i := 0, taskID := "task-1", source := "marketplace", metas := [[]] }

/-- A package whose `readme` folder lists a `README_en_US.md` next to the root
`README.md`; the two files differ. -/
def readmeFolderWithEnUS : PluginDecoder :=
  { ReadFile := fun filename =>
      if filename = "README.md" then .ok [114, 111, 111, 116]
      else if filename = "readme/README_en_US.md" then .ok [111, 116, 104, 101, 114]
      else .error { message := "open " ++ filename ++ ": file does not exist", notExist := true }
    ReadDir := fun dirname =>
      if dirname = "readme" then .ok ["readme/README_en_US.md"] else .ok [] }

/-! ## Identity, size limit and verification of a package
(`decoder/helper.go`, `decoder/zip.go`) -/

/-- Modelled from the spec: the method `PluginDeclaration.Identity()` is declared
outside the given sources; the identity of a manifest is
`<author>/<name>:<version>`. -/
def PluginDeclaration.Identity (manifest : PluginDeclaration) : String :=
  manifest.Author ++ "/" ++ manifest.Name ++ ":" ++ manifest.Version

/-- A Go result `(plugin_entities.PluginUniqueIdentifier, error)`; `err = none` is a
`nil` error. -/
structure IdentifierResult where
  identifier : String
  err : Option String
  deriving DecidableEq, Repr

/-- The methods of a decoder that `UniqueIdentity` calls. -/
structure IdentityDecoder where
  Manifest : Except String PluginDeclaration
  Checksum : Except String String

/-- The method `PluginDecoderHelper.UniqueIdentity(decoder)`.  The constructor
`plugin_entities.NewPluginUniqueIdentifier`, declared outside the given sources,
is a parameter. -/
def PluginDecoderHelper.UniqueIdentity (NewPluginUniqueIdentifier : String → IdentifierResult)
    (decoder : IdentityDecoder) : IdentifierResult :=
  match decoder.Manifest with
  | .error err => { identifier := "", err := some err }
  | .ok manifest =>
    let identity := manifest.Identity
    match decoder.Checksum with
    | .error err => { identifier := "", err := some err }
    | .ok checksum => NewPluginUniqueIdentifier (identity ++ "@" ++ checksum)

/-- A constructor that accepts the identifiers holding an `@` and returns them
unchanged. -/
def acceptWithChecksum (text : String) : IdentifierResult :=
  if '@' ∈ text.data then { identifier := text, err := none }
  else { identifier := "", err := some "plugin_unique_identifier is not valid" }

/-- One entry of a zip archive: its name, the uncompressed size its header
declares (an unsigned 64-bit value) and what reading it gives. -/
structure ZipFile where
  Name : String
  UncompressedSize64 : Nat
  Data : Except String Bytes

/-- A `zip.Reader`: the entries and the archive comment. -/
structure ZipReader where
  File : List ZipFile
  Comment : String

/-- The conversion `int64(u)` of an unsigned 64-bit value. -/
def int64OfUint64 (u : Nat) : Int :=
  if u % 2 ^ 64 < 2 ^ 63 then ((u % 2 ^ 64 : Nat) : Int) else ((u % 2 ^ 64 : Nat) : Int) - 2 ^ 64

/-- The value of a signed 64-bit integer after an operation whose exact result is
`x`. -/
def wrapInt64 (x : Int) : Int := (x + 2 ^ 63) % 2 ^ 64 - 2 ^ 63

/-- The text `strconv.FormatInt(n, 10)`. -/
def FormatInt10 (n : Int) : String :=
  if n < 0 then "-" ++ toString n.natAbs else toString n.natAbs

/-- The loop of `NewZipPluginDecoderWithSizeLimit` over `reader.File`, `totalSize`
being the running total: `true` when it returns the size error. -/
def sizeLimitExceeded (maxSize : Int) : List ZipFile → Int → Bool
  | [], _ => false
  | file :: rest, totalSize =>
    let totalSize1 := wrapInt64 (totalSize + int64OfUint64 file.UncompressedSize64)
    if totalSize1 > maxSize then true else sizeLimitExceeded maxSize rest totalSize1

/-- The text of the size error. -/
def sizeErrorText (maxSize : Int) : String :=
  "plugin package size is too large, please ensure the uncompressed size is less than " ++
    FormatInt10 maxSize ++ " bytes"

/-- The type `ThirdPartySignatureVerificationConfig`. -/
structure ThirdPartySignatureVerificationConfig where
  Enabled : Bool
  PublicKeyPaths : List String
  deriving DecidableEq, Repr

/-- The type `decoder.Verification`, the content of the verification file. -/
structure Verification where
  AuthorizedCategory : String
  deriving DecidableEq, Repr

/-- What the zip decoder reads from outside its own code. -/
structure ZipServices where
  /-- The call `zip.NewReader(bytes.NewReader(binary), len(binary))` -/
  NewReader : Bytes → Except String ZipReader
  /-- The call `decoder.Manifest()` made by `newZipPluginDecoder`: its error, if any -/
  ReadManifest : ZipReader → Option String
  /-- The constant `consts.VERIFICATION_FILE` -/
  VERIFICATION_FILE : String
  /-- The call `parser.UnmarshalJson` on the archive comment: signature and time -/
  UnmarshalSignature : String → Except String (String × Int)
  /-- The call `parser.UnmarshalJsonBytes[Verification]` -/
  UnmarshalVerification : Bytes → Except String Verification
  /-- The call `VerifyPlugin(decoder)`: `true` when it returns no error -/
  VerifyPlugin : Bool
  /-- The call `VerifyPluginWithPublicKeyPaths(decoder, paths)`: `true` when it
  returns no error -/
  VerifyPluginWithPublicKeyPaths : List String → Bool

/-- The fields of `ZipPluginDecoder`, with the `verifiedFlag` of the embedded
`PluginDecoderHelper`. -/
structure ZipPluginDecoder where
  reader : Option ZipReader
  err : Option String
  sig : String
  createTime : Int
  verification : Option Verification
  thirdPartySignatureVerificationConfig : Option ThirdPartySignatureVerificationConfig
  verifiedFlag : Option Bool

/-- The function `newZipPluginDecoder(binary, config)`: the decoder or the error,
and the number of times the manifest was read. -/
def newZipPluginDecoder (zs : ZipServices) (binary : Bytes)
    (thirdPartySignatureVerificationConfig : Option ThirdPartySignatureVerificationConfig) :
    Except String ZipPluginDecoder × Nat :=
  match zs.NewReader binary with
  | .error err => (.error (err.replace "zip" "difypkg"), 0)
  | .ok reader =>
    match zs.ReadManifest reader with
    | some err => (.error err, 1)
    | none =>
      (.ok { reader := some reader, err := none, sig := "", createTime := 0
             verification := none
             thirdPartySignatureVerificationConfig := thirdPartySignatureVerificationConfig
             verifiedFlag := none }, 1)

/-- The `return` statement at which `NewZipPluginDecoderWithSizeLimit` ends. -/
inductive SizeLimitReturn where
  /-- The archive cannot be read -/
  | readerError
  /-- The running total exceeded `maxSize` -/
  | sizeError
  /-- The final `return newZipPluginDecoder(binary, nil)` -/
  | constructed
  deriving DecidableEq, Repr

/-- Everything observable of a call of `NewZipPluginDecoderWithSizeLimit`. -/
structure SizeLimitOutcome where
  result : Except String ZipPluginDecoder
  returnedAt : SizeLimitReturn
  /-- The number of calls of `newZipPluginDecoder` -/
  decodersConstructed : Nat
  /-- The number of times the manifest was read -/
  manifestReads : Nat

/-- The function `NewZipPluginDecoderWithSizeLimit(binary, maxSize)`. -/
def NewZipPluginDecoderWithSizeLimit (zs : ZipServices) (binary : Bytes) (maxSize : Int) :
    SizeLimitOutcome :=
  match zs.NewReader binary with
  | .error err =>
    { result := .error (err.replace "zip" "difypkg"), returnedAt := .readerError
      decodersConstructed := 0, manifestReads := 0 }
  | .ok reader =>
    if sizeLimitExceeded maxSize reader.File 0 then
      { result := .error (sizeErrorText maxSize), returnedAt := .sizeError
        decodersConstructed := 0, manifestReads := 0 }
    else
      { result := (newZipPluginDecoder zs binary none).1, returnedAt := .constructed
        decodersConstructed := 1, manifestReads := (newZipPluginDecoder zs binary none).2 }

/-- The exact sum of the declared uncompressed sizes. -/
def declaredTotal (files : List ZipFile) : Nat :=
  (files.map fun file => file.UncompressedSize64).sum

/-- One signature verification made by `verified`. -/
inductive VerifyCall where
  /-- The call `VerifyPlugin(decoder)`, under the built-in trust root -/
  | builtIn
  /-- The call `VerifyPluginWithPublicKeyPaths(decoder, paths)` -/
  | withPublicKeyPaths (paths : List String)
  deriving DecidableEq, Repr

/-- What a call of `verified` returns and leaves: the value, the `verifiedFlag`
afterwards, and the verifications it made. -/
structure VerifiedResult where
  value : Bool
  verifiedFlag : Option Bool
  calls : List VerifyCall
  deriving DecidableEq, Repr

/-- The method `PluginDecoderHelper.verified(decoder)`.  `zipConfig` is `none` when
`decoder` is not a `*ZipPluginDecoder`, and otherwise holds its
`thirdPartySignatureVerificationConfig` pointer; `verifiedFlag` is the memo of the
helper. -/
def PluginDecoderHelper.verified (zs : ZipServices)
    (zipConfig : Option (Option ThirdPartySignatureVerificationConfig))
    (verifiedFlag : Option Bool) : VerifiedResult :=
  match verifiedFlag with
  | some flag => { value := flag, verifiedFlag := some flag, calls := [] }
  | none =>
    match zipConfig with
    | some (some config) =>
      if config.Enabled ∧ config.PublicKeyPaths.length > 0 then
        { value := zs.VerifyPluginWithPublicKeyPaths config.PublicKeyPaths
          verifiedFlag := some (zs.VerifyPluginWithPublicKeyPaths config.PublicKeyPaths)
          calls := [.withPublicKeyPaths config.PublicKeyPaths] }
      else
        { value := zs.VerifyPlugin, verifiedFlag := some zs.VerifyPlugin, calls := [.builtIn] }
    | some none =>
      { value := zs.VerifyPlugin, verifiedFlag := some zs.VerifyPlugin, calls := [.builtIn] }
    | none =>
      { value := zs.VerifyPlugin, verifiedFlag := some zs.VerifyPlugin, calls := [.builtIn] }

/-- Successive calls of `verified` on one helper, the answers of the verification
functions being free to change from call to call: the results, in order. -/
def verifiedCalls (zipConfig : Option (Option ThirdPartySignatureVerificationConfig)) :
    List ZipServices → Option Bool → List VerifiedResult
  | [], _ => []
  | zs :: later, verifiedFlag =>
    PluginDecoderHelper.verified zs zipConfig verifiedFlag ::
      verifiedCalls zipConfig later
        (PluginDecoderHelper.verified zs zipConfig verifiedFlag).verifiedFlag

/-- The method `ZipPluginDecoder.Verified()`: the value and the decoder afterwards. -/
def ZipPluginDecoder.Verified (zs : ZipServices) (z : ZipPluginDecoder) :
    Bool × ZipPluginDecoder :=
  let r := PluginDecoderHelper.verified zs (some z.thirdPartySignatureVerificationConfig)
    z.verifiedFlag
  (r.value, { z with verifiedFlag := r.verifiedFlag })

/-- The method `reader.Open(filename)` followed by reading the file to its end. -/
def ZipReader.ReadFile (reader : ZipReader) (filename : String) : Except DecoderError Bytes :=
  match reader.File.find? fun file => file.Name = filename with
  | none =>
    .error { message := "open " ++ filename ++ ": file does not exist", notExist := true }
  | some file =>
    match file.Data with
    | .error err => .error { message := err, notExist := false }
    | .ok data => .ok data

/-- The method `ZipPluginDecoder.ReadFile(filename)`. -/
def ZipPluginDecoder.ReadFile (z : ZipPluginDecoder) (filename : String) :
    Except DecoderError Bytes :=
  match z.reader with
  | none =>
    match z.err with
    | none => .ok []
    | some err => .error { message := err, notExist := false }
  | some reader => reader.ReadFile filename

/-- The method `ZipPluginDecoder.decode()`: the error, if any, and the decoder
afterwards. -/
def ZipPluginDecoder.decode (zs : ZipServices) (z : ZipPluginDecoder) :
    Option String × ZipPluginDecoder :=
  match z.reader with
  | none => (z.err, z)
  | some reader =>
    match zs.UnmarshalSignature reader.Comment with
    | .error err => (some err, z)
    | .ok (pluginSig, pluginTime) =>
      match z.ReadFile zs.VERIFICATION_FILE with
      | .error err =>
        if err.notExist then
          (none, { z with sig := pluginSig, createTime := pluginTime, verification := none })
        else (some err.message, z)
      | .ok verificationData =>
        match zs.UnmarshalVerification verificationData with
        | .error err => (some err, z)
        | .ok verification =>
          (none, { z with sig := pluginSig, createTime := pluginTime
                          verification := some verification })

/-- A Go result `(*Verification, error)` and the decoder after the call. -/
structure VerificationResult where
  verification : Option Verification
  err : Option String
  decoder : ZipPluginDecoder

/-- The method `ZipPluginDecoder.Verification()`. -/
def ZipPluginDecoder.Verification (zs : ZipServices) (z : ZipPluginDecoder) :
    VerificationResult :=
  let v := z.Verified zs
  if v.1 = false then
    { verification := none, err := some "plugin is not verified", decoder := v.2 }
  else
    match v.2.verification with
    | some verification => { verification := some verification, err := none, decoder := v.2 }
    | none =>
      match v.2.decode zs with
      | (some err, z2) => { verification := none, err := some err, decoder := z2 }
      | (none, z2) => { verification := none, err := none, decoder := z2 }

/-- The decoders that exist for the archive `reader`: the one the constructor
returns, and those left by calls of `Verified`, `decode` and `Verification`. -/
inductive ZipPluginDecoder.ReachableFrom (zs : ZipServices) (reader : ZipReader) :
    ZipPluginDecoder → Prop where
  | constructed (config : Option ThirdPartySignatureVerificationConfig) :
    ReachableFrom zs reader
      { reader := some reader, err := none, sig := "", createTime := 0, verification := none
        thirdPartySignatureVerificationConfig := config, verifiedFlag := none }
  | afterVerified (z : ZipPluginDecoder) :
    ReachableFrom zs reader z → ReachableFrom zs reader (z.Verified zs).2
  | afterDecode (z : ZipPluginDecoder) :
    ReachableFrom zs reader z → ReachableFrom zs reader (z.decode zs).2
  | afterVerification (z : ZipPluginDecoder) :
    ReachableFrom zs reader z → ReachableFrom zs reader (z.Verification zs).decoder

/-- Services around an archive without entries: the manifest is missing. -/
def emptyArchiveServices : ZipServices :=
  { NewReader := fun _ => .ok { File := [], Comment := "" }
    ReadManifest := fun _ => some "open manifest.yaml: file does not exist"
    VERIFICATION_FILE := ".verification.dify.json"
    UnmarshalSignature := fun _ => .error "unexpected end of JSON input"
    UnmarshalVerification := fun _ => .error "unexpected end of JSON input"
    VerifyPlugin := false
    VerifyPluginWithPublicKeyPaths := fun _ => false }

/-- Services around an archive of two entries that declare 600 and 424 bytes. -/
def twoEntryServices : ZipServices :=
  { emptyArchiveServices with
    NewReader := fun _ =>
      .ok { File := [{ Name := "manifest.yaml", UncompressedSize64 := 600, Data := .ok [] },
                     { Name := "main.py", UncompressedSize64 := 424, Data := .ok [] }]
            Comment := "" }
    ReadManifest := fun _ => none }

/-- Services whose third-party keys accept a signature that the built-in root
rejects. -/
def thirdPartyAccepts : ZipServices :=
  { emptyArchiveServices with
    NewReader := fun _ =>
      .ok { File := [{ Name := "manifest.yaml", UncompressedSize64 := 600, Data := .ok [] }]
            Comment := "\x7b\"signature\":\"sig\",\"time\":1700000000\x7d" }
    ReadManifest := fun _ => none
    UnmarshalSignature := fun _ => .ok ("sig", 1700000000)
    VerifyPlugin := false
    VerifyPluginWithPublicKeyPaths := fun _ => true }

/-- A third-party configuration that is enabled and lists one key. -/
def oneKeyConfig : ThirdPartySignatureVerificationConfig :=
  { Enabled := true, PublicKeyPaths := ["keys/partner.pem"] }

/-- The archive of `thirdPartyAccepts`: a signed comment and no verification file. -/
def signedArchive : ZipReader :=
  { File := [{ Name := "manifest.yaml", UncompressedSize64 := 600, Data := .ok [] }]
    Comment := "\x7b\"signature\":\"sig\",\"time\":1700000000\x7d" }

/-- The decoder the constructor returns for `signedArchive`. -/
def signedDecoder (config : Option ThirdPartySignatureVerificationConfig) : ZipPluginDecoder :=
  { reader := some signedArchive, err := none, sig := "", createTime := 0
    verification := none, thirdPartySignatureVerificationConfig := config
    verifiedFlag := none }

/-! ## The serverless launcher and its install adaptor
(`serverless_connector/launch.go`, `plugin_manager/install_to_serverless.go`) -/

/-- Modelled from the spec: the event tags of `serverless.LaunchFunctionResponse` are
declared outside the given sources; the events are the tagged union
`Info | FunctionUrl | Function | Done | Error`.  A tag outside the union is
`other`. -/
inductive LaunchEvent where
  | Info
  | Done
  | Error
  | FunctionUrl
  | Function
  | other (name : String)
  deriving DecidableEq, Repr

/-- The type `serverless.LaunchFunctionResponse`. -/
structure LaunchFunctionResponse where
  Event : LaunchEvent
  Message : String
  deriving DecidableEq, Repr

/-- A `stream.Stream[LaunchFunctionResponse]`: what was written to it, and whether
it was closed. -/
structure LaunchStream where
  items : List LaunchFunctionResponse
  closed : Bool
  deriving DecidableEq, Repr

/-- What `FetchFunction(manifest, checksum)` returns: a function, the error
`ErrFunctionNotFound`, or another error. -/
inductive FetchFunctionResult where
  | found (FunctionURL FunctionName : String)
  | notFound
  | failed (err : String)
  deriving DecidableEq, Repr

/-- The services `LaunchPlugin` calls. -/
structure LaunchServices where
  /-- The call `cache.Lock(key, 300*time.Second, 300*time.Second)`: its error -/
  Lock : String → Option String
  /-- The call `FetchFunction(manifest, checksum)` -/
  FetchFunction : PluginDeclaration → String → FetchFunctionResult
  /-- The call `SetupFunction(manifest, checksum, package, timeout)`, the upload -/
  SetupFunction : PluginDeclaration → String → Bytes → Int → Except String LaunchStream

/-- One call made by `LaunchPlugin`. -/
inductive LaunchCall where
  | lock (key : String)
  | unlock (key : String)
  | fetchFunction
  | setupFunction
  deriving DecidableEq, Repr

/-- The variable `AWS_LAUNCH_LOCK_PREFIX`. -/
def AWS_LAUNCH_LOCK_PREFIX : String := "aws_launch_lock_"

/-- The returned `(*stream.Stream[LaunchFunctionResponse], error)` of `LaunchPlugin`
and the calls it made, in order. -/
structure LaunchOutcome where
  result : Except String LaunchStream
  calls : List LaunchCall

/-- The tail of `LaunchPlugin`: the upload, and the deferred unlock. -/
def launchBySetup (ls : LaunchServices) (originPackage : Bytes) (manifest : PluginDeclaration)
    (checksum : String) (timeout : Int) (calls : List LaunchCall) : LaunchOutcome :=
  match ls.SetupFunction manifest checksum originPackage timeout with
  | .error err =>
    { result := .error err
      calls := calls ++ [.setupFunction, .unlock (AWS_LAUNCH_LOCK_PREFIX ++ checksum)] }
  | .ok response =>
    { result := .ok response
      calls := calls ++ [.setupFunction, .unlock (AWS_LAUNCH_LOCK_PREFIX ++ checksum)] }

/-- The function `LaunchPlugin(originPackage, decoder, timeout, ignoreIdempotent)`. -/
def LaunchPlugin (ls : LaunchServices) (originPackage : Bytes) (decoder : IdentityDecoder)
    (timeout : Int) (ignoreIdempotent : Bool) : LaunchOutcome :=
  match decoder.Checksum with
  | .error err => { result := .error err, calls := [] }
  | .ok checksum =>
    match ls.Lock (AWS_LAUNCH_LOCK_PREFIX ++ checksum) with
    | some err => { result := .error err, calls := [.lock (AWS_LAUNCH_LOCK_PREFIX ++ checksum)] }
    | none =>
      match decoder.Manifest with
      | .error err =>
        { result := .error err
          calls := [.lock (AWS_LAUNCH_LOCK_PREFIX ++ checksum),
                    .unlock (AWS_LAUNCH_LOCK_PREFIX ++ checksum)] }
      | .ok manifest =>
        if ignoreIdempotent = false then
          match ls.FetchFunction manifest checksum with
          | .failed err =>
            { result := .error err
              calls := [.lock (AWS_LAUNCH_LOCK_PREFIX ++ checksum), .fetchFunction,
                        .unlock (AWS_LAUNCH_LOCK_PREFIX ++ checksum)] }
          | .notFound =>
            launchBySetup ls originPackage manifest checksum timeout
              [.lock (AWS_LAUNCH_LOCK_PREFIX ++ checksum), .fetchFunction]
          | .found FunctionURL FunctionName =>
            { result := .ok
                { items := [{ Event := .FunctionUrl, Message := FunctionURL },
                            { Event := .Function, Message := FunctionName },
                            { Event := .Done, Message := "" }]
                  closed := true }
              calls := [.lock (AWS_LAUNCH_LOCK_PREFIX ++ checksum), .fetchFunction,
                        .unlock (AWS_LAUNCH_LOCK_PREFIX ++ checksum)] }
        else
          launchBySetup ls originPackage manifest checksum timeout
            [.lock (AWS_LAUNCH_LOCK_PREFIX ++ checksum)]

/-- The type `models.ServerlessRuntime`; `Kind` is its field `Type`. -/
structure ServerlessRuntime where
  Checksum : String
  Kind : String
  FunctionURL : String
  FunctionName : String
  PluginUniqueIdentifier : String
  deriving DecidableEq, Repr

/-- The store as the install adaptor sees it.  The first argument of a call is
the number of launch events handled before it. -/
structure AdaptorServices where
  /-- The constant `models.SERVERLESS_RUNTIME_TYPE_SERVERLESS` -/
  SERVERLESS_RUNTIME_TYPE_SERVERLESS : String
  /-- The lookup `db.GetOne[models.ServerlessRuntime]` by checksum and type -/
  GetOneServerlessRuntime : Nat → String → DbLookup
  /-- The insert `db.Create(serverlessModel)`: its error -/
  CreateServerlessRuntime : Nat → ServerlessRuntime → Option String

/-- What one run of the callback given to `response.Async` does: what it writes to
`newResponse`, the rows it creates, and the two buffers afterwards. -/
structure AdaptorStep where
  written : List StreamRead
  created : List ServerlessRuntime
  functionUrl : String
  functionName : String
  deriving Repr

/-- The callback given to `response.Async` in `InstallToAWSFromPkg`, run on the
launch event `r` with the buffers `functionUrl` and `functionName`. -/
def adaptorCallback (db : AdaptorServices) (checksum uniqueIdentity : String) (handled : Nat)
    (functionUrl functionName : String) (r : LaunchFunctionResponse) : AdaptorStep :=
  match r.Event with
  | .Info =>
    { written := [.ok { Event := .PluginInstallEventInfo, Data := "Installing..." }]
      created := [], functionUrl := functionUrl, functionName := functionName }
  | .Done =>
    if functionUrl = "" ∨ functionName = "" then
      { written := [.ok { Event := .PluginInstallEventError
                          Data := "Internal server error, failed to get lambda url or function name" }]
        created := [], functionUrl := functionUrl, functionName := functionName }
    else
      match db.GetOneServerlessRuntime handled checksum with
      | .notFound =>
        match db.CreateServerlessRuntime handled
            { Checksum := checksum, Kind := db.SERVERLESS_RUNTIME_TYPE_SERVERLESS
              FunctionURL := functionUrl, FunctionName := functionName
              PluginUniqueIdentifier := uniqueIdentity } with
        | some _ =>
          { written := [.ok { Event := .PluginInstallEventError
                              Data := "Failed to create serverless runtime" }]
            created := [], functionUrl := functionUrl, functionName := functionName }
        | none =>
          { written := [.ok { Event := .PluginInstallEventDone, Data := "Installed" }]
            created := [{ Checksum := checksum, Kind := db.SERVERLESS_RUNTIME_TYPE_SERVERLESS
                          FunctionURL := functionUrl, FunctionName := functionName
                          PluginUniqueIdentifier := uniqueIdentity }]
            functionUrl := functionUrl, functionName := functionName }
      | .failed _ =>
        { written := [.ok { Event := .PluginInstallEventError
                            Data := "Failed to check if the plugin is already installed" }]
          created := [], functionUrl := functionUrl, functionName := functionName }
      | .found =>
        { written := [.ok { Event := .PluginInstallEventDone, Data := "Installed" }]
          created := [], functionUrl := functionUrl, functionName := functionName }
  | .Error =>
    { written := [.ok { Event := .PluginInstallEventError, Data := "Internal server error" }]
      created := [], functionUrl := functionUrl, functionName := functionName }
  | .FunctionUrl =>
    { written := [], created := [], functionUrl := r.Message, functionName := functionName }
  | .Function =>
    { written := [], created := [], functionUrl := functionUrl, functionName := r.Message }
  | .other name =>
    { written := [.error ("unknown event: " ++ name ++ ", with message: " ++ r.Message)]
      created := [], functionUrl := functionUrl, functionName := functionName }

/-- The goroutine of `InstallToAWSFromPkg` after some launch events: the buffers,
the number of events handled, what was written to `newResponse` and the rows
created. -/
structure AdaptorState where
  functionUrl : String
  functionName : String
  handled : Nat
  written : List StreamRead
  created : List ServerlessRuntime
  deriving Repr

/-- The goroutine handles one more launch event. -/
def AdaptorState.handle (db : AdaptorServices) (checksum uniqueIdentity : String)
    (st : AdaptorState) (r : LaunchFunctionResponse) : AdaptorState :=
  { functionUrl :=
      (adaptorCallback db checksum uniqueIdentity st.handled st.functionUrl st.functionName
        r).functionUrl
    functionName :=
      (adaptorCallback db checksum uniqueIdentity st.handled st.functionUrl st.functionName
        r).functionName
    handled := st.handled + 1
    written := st.written ++
      (adaptorCallback db checksum uniqueIdentity st.handled st.functionUrl st.functionName
        r).written
    created := st.created ++
      (adaptorCallback db checksum uniqueIdentity st.handled st.functionUrl st.functionName
        r).created }

/-- The goroutine after the launch events `events`, from its start. -/
def adaptorRun (db : AdaptorServices) (checksum uniqueIdentity : String)
    (events : List LaunchFunctionResponse) : AdaptorState :=
  events.foldl (AdaptorState.handle db checksum uniqueIdentity)
    { functionUrl := "", functionName := "", handled := 0, written := [], created := [] }

/-- Everything observable of `InstallToAWSFromPkg` once the launch stream is
closed: the returned stream or error, and the rows created. -/
structure AwsInstallOutcome where
  result : Except String (List StreamRead)
  created : List ServerlessRuntime

/-- The method `PluginManager.InstallToAWSFromPkg(originalPackager, decoder, source,
meta)`; `timeout` is `DifyPluginServerlessConnectorLaunchTimeout`. -/
def InstallToAWSFromPkg (NewPluginUniqueIdentifier : String → IdentifierResult)
    (ls : LaunchServices) (db : AdaptorServices) (timeout : Int) (originalPackager : Bytes)
    (decoder : IdentityDecoder) : AwsInstallOutcome :=
  match decoder.Checksum with
  | .error err => { result := .error err, created := [] }
  | .ok checksum =>
    match decoder.Manifest with
    | .error err => { result := .error err, created := [] }
    | .ok _ =>
      match (PluginDecoderHelper.UniqueIdentity NewPluginUniqueIdentifier decoder).err with
      | some err => { result := .error err, created := [] }
      | none =>
        match (LaunchPlugin ls originalPackager decoder timeout false).result with
        | .error err => { result := .error err, created := [] }
        | .ok response =>
          { result := .ok (adaptorRun db checksum
              (PluginDecoderHelper.UniqueIdentity NewPluginUniqueIdentifier decoder).identifier
              response.items).written
            created := (adaptorRun db checksum
              (PluginDecoderHelper.UniqueIdentity NewPluginUniqueIdentifier decoder).identifier
              response.items).created }

/-- A connector that knows the function of every package. -/
def functionExists : LaunchServices :=
  { Lock := fun _ => none
    FetchFunction := fun _ _ => .found "https://fn.example/abc" "fn-abc"
    SetupFunction := fun _ _ _ _ => .error "upload refused" }

/-- A decoder of the package `alice/calc:1.0` with checksum `abc`. -/
def calcDecoder : IdentityDecoder :=
  { Manifest := .ok { plainDeclaration with Author := "alice", Name := "calc", Version := "1.0" }
    Checksum := .ok "abc" }

/-- A store without serverless runtime rows, whose inserts succeed. -/
def noRuntimeRows : AdaptorServices :=
  { SERVERLESS_RUNTIME_TYPE_SERVERLESS := "serverless"
    GetOneServerlessRuntime := fun _ _ => .notFound
    CreateServerlessRuntime := fun _ _ => none }

/-! ## The installation service (`service/install_plugin.go`, `service/manage_plugin.go`) -/

/-- The body of an `entities.Response`: a success with its data, or one of the
errors of package `exception`. -/
inductive ServiceResponse (α : Type) where
  | success (data : α)
  | badRequest (message : String)
  | notFound (message : String)
  | internalServerError (message : String)
  deriving DecidableEq, Repr

/-- Result of a `db.GetOne` whose row is used: the row, `db.ErrDatabaseNotFound`, or
another database error. -/
inductive DbGet (α : Type) where
  | found (row : α)
  | notFound
  | failed (err : String)
  deriving DecidableEq, Repr

/-- The fields of `models.PluginInstallation` read by the service. -/
structure PluginInstallation where
  TenantID : String
  PluginID : String
  PluginUniqueIdentifier : String
  Source : String
  RuntimeType : String
  deriving DecidableEq, Repr

/-- The fields of the response of `curd.UpgradePlugin` read by the service;
the last two are fields of its `DeletedPlugin`. -/
structure UpgradePluginResponse where
  IsOriginalPluginDeleted : Bool
  InstallType : String
  PluginUniqueIdentifier : String
  deriving DecidableEq, Repr

/-- What `UpgradePlugin` calls besides the services of the installer. -/
structure UpgradeServices where
  /-- The services of `InstallPluginRuntimeToTenant` -/
  install : InstallServices
  /-- The lookup `db.GetOne[models.PluginInstallation]` by tenant, unique identifier
  and source -/
  GetOneInstallation : String → String → String → DbGet PluginInstallation
  /-- The conversion `plugin_entities.PluginRuntimeType(installation.RuntimeType)` -/
  RuntimeTypeOf : String → PluginRuntimeType
  /-- The helper `helper.CombinedGetPluginDeclaration` as called by the handler -/
  GetDeclaration : String → PluginRuntimeType → Except String PluginDeclaration
  /-- The call `curd.UpgradePlugin` -/
  UpgradePlugin : String → String → String → PluginDeclaration → PluginDeclaration →
    PluginRuntimeType → String → MetaMap → Except String UpgradePluginResponse
  /-- The text `string(plugin_entities.PLUGIN_RUNTIME_TYPE_LOCAL)` -/
  LOCAL : String
  /-- The call `manager.UninstallFromLocal(identifier)`: its error -/
  UninstallFromLocal : String → Option String

/-- The handler `UpgradePlugin` passes as `onDone`; it captures the installation
found. -/
def upgradeOnDone (us : UpgradeServices) (tenant_id source : String)
    (original_plugin_unique_identifier new_plugin_unique_identifier : String)
    (installation : PluginInstallation) : InstallPluginOnDoneHandler :=
  fun _ _ _ meta =>
    match us.GetDeclaration original_plugin_unique_identifier
        (us.RuntimeTypeOf installation.RuntimeType) with
    | .error err => some err
    | .ok originalDeclaration =>
      match us.GetDeclaration new_plugin_unique_identifier
          (us.RuntimeTypeOf installation.RuntimeType) with
      | .error err => some err
      | .ok newDeclaration =>
        match us.UpgradePlugin tenant_id original_plugin_unique_identifier
            new_plugin_unique_identifier originalDeclaration newDeclaration
            (us.RuntimeTypeOf installation.RuntimeType) source meta with
        | .error err => some err
        | .ok upgradeResponse =>
          if upgradeResponse.IsOriginalPluginDeleted then
            if upgradeResponse.InstallType = us.LOCAL then
              us.UninstallFromLocal upgradeResponse.PluginUniqueIdentifier
            else none
          else none

/-- Everything observable of a call of `UpgradePlugin`: the response (or a panic of
the installer), the number of installation lookups, and the install started, if
any. -/
structure UpgradeOutcome where
  response : CallResult (ServiceResponse InstallPluginResponse)
  installationLookups : Nat
  install : Option InstallOutcome

/-- The function `UpgradePlugin(config, tenant_id, source, meta,
original_plugin_unique_identifier, new_plugin_unique_identifier)`. -/
def UpgradePlugin (us : UpgradeServices) (config : Config) (tenant_id source : String)
    (meta : MetaMap)
    (original_plugin_unique_identifier new_plugin_unique_identifier : String) :
    UpgradeOutcome :=
  if original_plugin_unique_identifier = new_plugin_unique_identifier then
    { response := .ok (.badRequest "original and new plugin unique identifier are the same")
      installationLookups := 0, install := none }
  else if us.install.PluginID original_plugin_unique_identifier ≠
      us.install.PluginID new_plugin_unique_identifier then
    { response := .ok (.badRequest "original and new plugin id are different")
      installationLookups := 0, install := none }
  else
    match us.GetOneInstallation tenant_id original_plugin_unique_identifier source with
    | .notFound =>
      { response := .ok (.notFound "plugin installation not found for this tenant")
        installationLookups := 1, install := none }
    | .failed err =>
      { response := .ok (.internalServerError err), installationLookups := 1, install := none }
    | .found installation =>
      let out := InstallPluginRuntimeToTenant us.install config tenant_id
        [new_plugin_unique_identifier] source [meta]
        (upgradeOnDone us tenant_id source original_plugin_unique_identifier
          new_plugin_unique_identifier installation)
      { response :=
          match out.result with
          | .ok response => .ok (.success response)
          | .error err => .ok (.internalServerError err)
          | .panic reason => .panic reason
        installationLookups := 1
        install := some out }

/-- The query `db.GetAll` with the conditions `Equal("tenant_id", tenant)`,
`InArray("plugin_id", pluginIds)` and `Page(1, 256)` on the rows `table`: the
first 256 rows that satisfy both conditions. -/
def dbGetAllOfTenant {α : Type} (tenantOf pluginIdOf : α → String) (table : List α)
    (tenant : String) (pluginIds : List String) : List α :=
  (table.filter fun row => tenantOf row = tenant ∧ pluginIdOf row ∈ pluginIds).take 256

/-- The type `MissingPluginDependency` of `FetchMissingPluginInstallations`. -/
structure MissingPluginDependency where
  PluginUniqueIdentifier : String
  CurrentIdentifier : String
  deriving DecidableEq, Repr

/-- The inner loop of `FetchMissingPluginInstallations` for one requested
identifier: the value of `found` at its end and the entry it appends, if any. -/
def scanInstalled (pluginID pluginUniqueIdentifier : String) :
    List PluginInstallation → Bool × Option MissingPluginDependency
  | [] => (false, none)
  | installedPlugin :: rest =>
    if installedPlugin.PluginID = pluginID then
      if installedPlugin.PluginUniqueIdentifier ≠ pluginUniqueIdentifier then
        (true, some { PluginUniqueIdentifier := pluginUniqueIdentifier
                      CurrentIdentifier := installedPlugin.PluginUniqueIdentifier })
      else (true, none)
    else scanInstalled pluginID pluginUniqueIdentifier rest

/-- The outer loop of `FetchMissingPluginInstallations`, `result` holding the
entries appended so far. -/
def missingLoop (PluginID : String → String) (installed : List PluginInstallation) :
    List String → List MissingPluginDependency → List MissingPluginDependency
  | [], result => result
  | pluginUniqueIdentifier :: rest, result =>
    match scanInstalled (PluginID pluginUniqueIdentifier) pluginUniqueIdentifier installed with
    | (true, some entry) => missingLoop PluginID installed rest (result ++ [entry])
    | (true, none) => missingLoop PluginID installed rest result
    | (false, _) =>
      missingLoop PluginID installed rest
        (result ++ [{ PluginUniqueIdentifier := pluginUniqueIdentifier, CurrentIdentifier := "" }])

/-- The function `FetchMissingPluginInstallations(tenant_id,
plugin_unique_identifiers)`; `table` is what reading the table
`plugin_installation` gives, its rows or an error, and `PluginID` the method
`PluginUniqueIdentifier.PluginID()`. -/
def FetchMissingPluginInstallations (PluginID : String → String)
    (table : Except String (List PluginInstallation)) (tenant_id : String)
    (plugin_unique_identifiers : List String) :
    ServiceResponse (List MissingPluginDependency) :=
  if plugin_unique_identifiers.length = 0 then .success []
  else
    match table with
    | .error err => .internalServerError err
    | .ok rows =>
      .success (missingLoop PluginID
        (dbGetAllOfTenant PluginInstallation.TenantID PluginInstallation.PluginID rows
          tenant_id (plugin_unique_identifiers.map PluginID))
        plugin_unique_identifiers [])

/-- The fields of `models.ToolInstallation` read by the service. -/
structure ToolInstallation where
  TenantID : String
  PluginID : String
  Provider : String
  deriving DecidableEq, Repr

/-- The type `RequestCheckToolExistence`. -/
structure RequestCheckToolExistence where
  PluginID : String
  ProviderName : String
  deriving DecidableEq, Repr

/-- The inner loop of `CheckToolExistence`: the value of `found` at its end. -/
def providerFound (providerId : RequestCheckToolExistence) : List ToolInstallation → Bool
  | [] => false
  | provider :: rest =>
    if provider.PluginID = providerId.PluginID ∧ provider.Provider = providerId.ProviderName then
      true
    else providerFound providerId rest

/-- The outer loop of `CheckToolExistence`, `existence` holding the answers
appended so far. -/
def existenceLoop (providers : List ToolInstallation) :
    List RequestCheckToolExistence → List Bool → List Bool
  | [], existence => existence
  | providerId :: rest, existence =>
    existenceLoop providers rest (existence ++ [providerFound providerId providers])

/-- The function `CheckToolExistence(tenantId, providerIds)`; `table` is what reading
the table `tool_installation` gives. -/
def CheckToolExistence (table : Except String (List ToolInstallation)) (tenantId : String)
    (providerIds : List RequestCheckToolExistence) : ServiceResponse (List Bool) :=
  match table with
  | .error err => .internalServerError err
  | .ok rows =>
    .success (existenceLoop
      (dbGetAllOfTenant ToolInstallation.TenantID ToolInstallation.PluginID rows tenantId
        (providerIds.map fun id => id.PluginID))
      providerIds [])

/-- A `PluginID()` that reads the identifier up to its colon. -/
def pluginIdBeforeColon (identifier : String) : String :=
  String.mk (identifier.data.takeWhile fun c => c ≠ ':')

/-- A tenant that has two versions of the plugin `alice/calc` installed. -/
def twoVersionsInstalled : List PluginInstallation :=
  [{ TenantID := "T1", PluginID := "alice/calc", PluginUniqueIdentifier := "alice/calc:1.0@abc"
     Source := "marketplace", RuntimeType := "local" },
   { TenantID := "T1", PluginID := "alice/calc", PluginUniqueIdentifier := "alice/calc:1.1@def"
     Source := "github", RuntimeType := "local" }]

/-- Services of an upgrade in which the original plugin is installed. -/
def upgradeServices : UpgradeServices :=
  { install := { nothingInstalled with PluginID := pluginIdBeforeColon }
    GetOneInstallation := fun tenant identifier source =>
      .found { TenantID := tenant, PluginID := "alice/calc"
               PluginUniqueIdentifier := identifier, Source := source, RuntimeType := "local" }
    RuntimeTypeOf := fun _ => .PLUGIN_RUNTIME_TYPE_LOCAL
    GetDeclaration := fun _ _ => .ok plainDeclaration
    UpgradePlugin := fun _ _ _ _ _ _ _ _ =>
      .ok { IsOriginalPluginDeleted := false, InstallType := "", PluginUniqueIdentifier := "" }
    LOCAL := "local"
    UninstallFromLocal := fun _ => none }

/-- The entry `FetchMissingPluginInstallations` appends for one requested identifier,
read off the first fetched row with its plugin id. -/
def reportFor (PluginID : String → String) (installed : List PluginInstallation)
    (pluginUniqueIdentifier : String) : Option MissingPluginDependency :=
  match installed.find? fun row => row.PluginID = PluginID pluginUniqueIdentifier with
  | none => some { PluginUniqueIdentifier := pluginUniqueIdentifier, CurrentIdentifier := "" }
  | some row =>
    if row.PluginUniqueIdentifier ≠ pluginUniqueIdentifier then
      some { PluginUniqueIdentifier := pluginUniqueIdentifier
             CurrentIdentifier := row.PluginUniqueIdentifier }
    else none

/-- An archive whose only entry declares an uncompressed size of `2^63` bytes. -/
def wrappingEntry : ZipReader :=
  { File := [{ Name := "manifest.yaml", UncompressedSize64 := 2 ^ 63, Data := .ok [] }]
    Comment := "" }

/-- Services around the archive `wrappingEntry`. -/
def wrappingEntryServices : ZipServices :=
  { emptyArchiveServices with NewReader := fun _ => .ok wrappingEntry }

/-- An archive of two entries that declare `2^62` bytes each. -/
def wrappingSum : ZipReader :=
  { File := [{ Name := "manifest.yaml", UncompressedSize64 := 2 ^ 62, Data := .ok [] },
             { Name := "main.py", UncompressedSize64 := 2 ^ 62, Data := .ok [] }]
    Comment := "" }

/-- A stream that reports progress and is closed without a `done` event. -/
def infoOnlyStream : List StreamRead :=
  [.ok { Event := .PluginInstallEventInfo, Data := "Installing" }]

/-- A plugin manager whose local installs close their stream without a `done`
event. -/
def installsWithoutDone : ManagerServices :=
  { installsSucceed with InstallToLocal := fun _ _ _ => .ok infoOnlyStream }

/-- Whether a read of an install stream is a `done` event. -/
def isDoneRead : StreamRead → Bool
  | .ok message => message.Event = .PluginInstallEventDone
  | .error _ => false

/-! ## Removing an item from an install task (`service/install_plugin.go`) -/

/-- What `DeletePluginInstallationItemFromTask` calls inside its transaction. -/
structure TaskItemServices where
  /-- The lookup `db.GetOne[models.InstallTask]` by `id` and `tenant_id`, under a write
  lock -/
  GetOneTask : String → String → DbGet InstallTask
  /-- The text of `db.ErrDatabaseNotFound` -/
  ErrDatabaseNotFound : String
  /-- The call `db.Delete(&item, tx)`: its error -/
  Delete : InstallTask → Option String
  /-- The call `db.Update(&item, tx)`: its error -/
  Update : InstallTask → Option String

/-- A write to the table `install_task`. -/
inductive TaskWrite where
  | delete (item : InstallTask)
  | update (item : InstallTask)
  deriving DecidableEq, Repr

/-- The first loop of `DeletePluginInstallationItemFromTask`: `plugins` holds the slots kept
so far. -/
def keepOtherSlots (identifier : String) :
    List InstallTaskPluginStatus → List InstallTaskPluginStatus → List InstallTaskPluginStatus
  | [], plugins => plugins
  | plugin :: rest, plugins =>
    if plugin.PluginUniqueIdentifier ≠ identifier then
      keepOtherSlots identifier rest (plugins ++ [plugin])
    else keepOtherSlots identifier rest plugins

/-- Everything observable of a call of `DeletePluginInstallationItemFromTask`: the
response and the writes of its transaction.  A transaction whose closure returns an
error is rolled back and writes nothing. -/
structure DeleteItemOutcome where
  response : ServiceResponse Bool
  written : List TaskWrite
  deriving DecidableEq, Repr

/-- The function `DeletePluginInstallationItemFromTask(tenant_id, task_id, identifier)`. -/
def DeletePluginInstallationItemFromTask (db : TaskItemServices)
    (tenant_id task_id identifier : String) : DeleteItemOutcome :=
  match db.GetOneTask task_id tenant_id with
  | .notFound => { response := .internalServerError db.ErrDatabaseNotFound, written := [] }
  | .failed err => { response := .internalServerError err, written := [] }
  | .found item =>
    let plugins := keepOtherSlots identifier item.Plugins []
    let successes := countSuccesses plugins
    if plugins.length = successes then
      match db.Delete item with
      | some err => { response := .internalServerError err, written := [] }
      | none => { response := .success true, written := [.delete item] }
    else
      match db.Update { item with Plugins := plugins } with
      | some err => { response := .internalServerError err, written := [] }
      | none => { response := .success true, written := [.update { item with Plugins := plugins }] }

/-- A task of tenant `T1` with an installed slot `p`, a failed slot `q` and a running
slot `r`. -/
def threeSlotTask : InstallTask :=
  { ID := "task-1", Status := .failed, TenantID := "T1", TotalPlugins := 3, CompletedPlugins := 1
    Plugins :=
      [{ PluginUniqueIdentifier := "p", PluginID := "p", Status := .success, Icon := ""
         IconDark := "", Labels := "", Message := "Installed" },
       { PluginUniqueIdentifier := "q", PluginID := "q", Status := .failed, Icon := ""
         IconDark := "", Labels := "", Message := "init environment failed" },
       { PluginUniqueIdentifier := "r", PluginID := "r", Status := .running, Icon := ""
         IconDark := "", Labels := "", Message := "Installing" }] }

/-- A store that holds `threeSlotTask` and whose writes succeed. -/
def storeWithThreeSlotTask : TaskItemServices :=
  { GetOneTask := fun task_id tenant_id =>
      if task_id = "task-1" ∧ tenant_id = "T1" then .found threeSlotTask else .notFound
    ErrDatabaseNotFound := "record not found"
    Delete := fun _ => none
    Update := fun _ => none }

/-! ## The Python environment of a local runtime
(`plugin_manager/local_runtime/environment_python.go`) -/

/-- The fields of `LocalPluginRuntime` read where `InitPythonEnvironment` builds the
arguments of the package installer. -/
structure LocalPluginRuntime where
  HttpProxy : String
  HttpsProxy : String
  pipMirrorUrl : String
  pipPreferBinary : Bool
  pipVerbose : Bool
  pipExtraArgs : String
  deriving DecidableEq, Repr

/-- The pieces of a text between the occurrences of the character `sep`. -/
def splitOnChar (sep : Char) : List Char → List (List Char)
  | [] => [[]]
  | c :: cs =>
    if c = sep then [] :: splitOnChar sep cs
    else
      match splitOnChar sep cs with
      | [] => [[c]]
      | piece :: pieces => (c :: piece) :: pieces

/-- The call `strings.Split(s, sep)` for a separator of one character. -/
def stringsSplit (s : String) (sep : Char) : List String :=
  (splitOnChar sep s.data).map String.mk

/-- The value of `args` in `InitPythonEnvironment` when the command of the package
installer is built. -/
def LocalPluginRuntime.pipInstallArgs (p : LocalPluginRuntime) : List String :=
  let args := ["install", "--disable-pip-version-check"]
  let args :=
    if p.HttpProxy ≠ "" then args ++ ["--proxy", p.HttpProxy]
    else if p.HttpsProxy ≠ "" then args ++ ["--proxy", p.HttpsProxy]
    else args
  let args := if p.pipMirrorUrl ≠ "" then args ++ ["-i", p.pipMirrorUrl] else args
  let args := args ++ ["-r", "requirements.txt"]
  let args := if p.pipPreferBinary then args ++ ["--prefer-binary"] else args
  let args := if p.pipVerbose then args ++ ["-vvv"] else args
  let args := if p.pipExtraArgs ≠ "" then args ++ stringsSplit p.pipExtraArgs ' ' else args
  args

/-- The class `[0-9.a-z]`. -/
def isVersionChar (c : Char) : Bool :=
  ('0' ≤ c && c ≤ '9') || c = '.' || ('a' ≤ c && c ≤ 'z')

/-- The group `([0-9.a-z]+)` at the start of `tail`: the longest run of characters of
the class, which must not be empty. -/
def versionRun (tail : List Char) : Option (List Char) :=
  if tail.takeWhile isVersionChar = [] then none else some (tail.takeWhile isVersionChar)

/-- A match of `(?:dify[_-]plugin)(?:~=|==)([0-9.a-z]+)` that starts at the first
character of `s`: the text of group 1. -/
def sdkPinAt (s : List Char) : Option (List Char) :=
  match dropLeading "dify".data s with
  | none => none
  | some [] => none
  | some (c :: rest) =>
    if c = '_' ∨ c = '-' then
      match dropLeading "plugin".data rest with
      | none => none
      | some afterName =>
        match dropLeading "~=".data afterName with
        | some tail => versionRun tail
        | none =>
          match dropLeading "==".data afterName with
          | some tail => versionRun tail
          | none => none
    else none

/-- The call `re.FindStringSubmatch(requirements)` for
`re = (?:dify[_-]plugin)(?:~=|==)([0-9.a-z]+)`: group 1 of the leftmost match, `none`
when there is no match. -/
def sdkVersionFind : List Char → Option (List Char)
  | [] => none
  | c :: cs =>
    match sdkPinAt (c :: cs) with
    | some version => some version
    | none => sdkVersionFind cs

/-- The method `getPluginSdkVersion(requirements)`. -/
def getPluginSdkVersion (requirements : String) : Except String String :=
  match sdkVersionFind requirements.data with
  | none => .error "failed to find the version of the plugin sdk"
  | some version => .ok (String.mk version)

/-- A runtime behind an HTTPS proxy, with a mirror and two extra arguments. -/
def runtimeBehindProxy : LocalPluginRuntime :=
  { HttpProxy := "", HttpsProxy := "https://proxy:3128"
    pipMirrorUrl := "https://mirror.example/simple", pipPreferBinary := true
    pipVerbose := false, pipExtraArgs := "--no-cache-dir --retries 3" }

/-! ## Asset references and model files of a manifest (`decoder/helper.go`) -/

/-- The methods of a decoder that `CheckAssetsValid` calls. -/
structure AssetsDecoder where
  Manifest : Except String PluginDeclaration
  Assets : Except String (GoMap Bytes)

/-- One test of `CheckAssetsValid`: the error `text` when the reference is not empty
and is no key of `assets`. -/
def checkIcon (assets : GoMap Bytes) (reference text : String) : Option String :=
  if reference ≠ "" then
    match assets.get? reference with
    | none => some text
    | some _ => none
  else none

/-- A test followed by the rest of the function: the error of the test is returned
if there is one, otherwise the rest runs. -/
def andThen (test next : Option String) : Option String :=
  match test with
  | some err => some err
  | none => next

/-- The method `PluginDecoderHelper.CheckAssetsValid(decoder)`: `none` is a `nil` error. -/
def PluginDecoderHelper.CheckAssetsValid (decoder : AssetsDecoder) : Option String :=
  match decoder.Manifest with
  | .error err => some (errorsJoin err "failed to get manifest")
  | .ok declaration =>
    match decoder.Assets with
    | .error err => some (errorsJoin err "failed to get assets")
    | .ok assets =>
      andThen
        (match declaration.Model with
          | some m =>
            andThen
              (match m.IconSmall with
                | some icon =>
                  andThen (checkIcon assets icon.EnUS "model icon small en_US not found")
                    (andThen (checkIcon assets icon.ZhHans "model icon small zh_Hans not found")
                      (andThen (checkIcon assets icon.JaJp "model icon small ja_JP not found")
                        (checkIcon assets icon.PtBr "model icon small pt_BR not found")))
                | none => none)
              (match m.IconLarge with
                | some icon =>
                  andThen (checkIcon assets icon.EnUS "model icon large en_US not found")
                    (andThen (checkIcon assets icon.ZhHans "model icon large zh_Hans not found")
                      (andThen (checkIcon assets icon.JaJp "model icon large ja_JP not found")
                        (checkIcon assets icon.PtBr "model icon large pt_BR not found")))
                | none => none)
          | none => none)
        (andThen
          (match declaration.Tool with
            | some t => checkIcon assets t.Identity.Icon "tool icon not found"
            | none => none)
          (andThen (checkIcon assets declaration.Icon "plugin icon not found")
            (checkIcon assets declaration.IconDark "plugin dark icon not found")))

/-- The four references of an icon and the error texts of `CheckAssetsValid` for them. -/
def I18nObject.iconChecks (icon : I18nObject) (size : String) : List (String × String) :=
  [(icon.EnUS, "model icon " ++ size ++ " en_US not found"),
   (icon.ZhHans, "model icon " ++ size ++ " zh_Hans not found"),
   (icon.JaJp, "model icon " ++ size ++ " ja_JP not found"),
   (icon.PtBr, "model icon " ++ size ++ " pt_BR not found")]

/-- The icon references of a declaration that `CheckAssetsValid` inspects, with the
error text for each, in the order of inspection: the model provider's small and large
icons, the tool provider icon, the plugin icon and the plugin dark icon. -/
def PluginDeclaration.iconChecks (declaration : PluginDeclaration) : List (String × String) :=
  (match declaration.Model with
    | none => []
    | some m =>
      (match m.IconSmall with
        | none => []
        | some icon => icon.iconChecks "small") ++
      (match m.IconLarge with
        | none => []
        | some icon => icon.iconChecks "large")) ++
  (match declaration.Tool with
    | none => []
    | some t => [(t.Identity.Icon, "tool icon not found")]) ++
  [(declaration.Icon, "plugin icon not found"),
   (declaration.IconDark, "plugin dark icon not found")]

/-- A reference that is not empty and is no key of the asset map. -/
def absentReference (assets : GoMap Bytes) (check : String × String) : Bool :=
  check.1 ≠ "" && (assets.get? check.1).isNone

/-- A declaration with a model provider whose small icon names `icon_s_en.svg` for
`en_US` and `icon_s_zh.svg` for `zh_Hans`. -/
def modelProviderDeclaration : PluginDeclaration :=
  { Icon := "icon.svg", IconDark := "", Label := "calc"
    Model := some
      { IconSmall := some { EnUS := "icon_s_en.svg", ZhHans := "icon_s_zh.svg", JaJp := ""
                            PtBr := "" }
        IconLarge := none
        ModelFiles := ["models/llm/*.yaml"] } }

/-- A decoder of `modelProviderDeclaration` whose assets lack `icon_s_zh.svg`. -/
def decoderWithoutZhIcon : AssetsDecoder :=
  { Manifest := .ok modelProviderDeclaration
    Assets := .ok [("icon.svg", [60]), ("icon_s_en.svg", [60])] }

/-- The function `strings.HasSuffix(s, suffix)`. -/
def HasSuffix (s suffix : String) : Bool := suffix.data.isSuffixOf s.data

/-- The library calls of the model walk of `Manifest`. -/
structure ModelWalkServices where
  /-- The call `filepath.Join(dir, filename)` -/
  Join : String → String → String
  /-- The call `filepath.Match(pattern, name)` -/
  Match : String → String → Except String Bool
  /-- The call `parser.UnmarshalYamlBytes[plugin_entities.ModelDeclaration]` -/
  UnmarshalModel : Bytes → Except String ModelDeclaration

/-- The state of the model walk: the models appended to `pluginDec.Models`, the names
passed to `decoder.ReadFile` and the names whose content was passed to the parser. -/
structure ModelWalk where
  Models : List ModelDeclaration
  read : List String
  parsed : List String
  deriving DecidableEq, Repr

/-- The loop `for _, model_pattern := range modelPatterns` of the walk function, for
the file `modelFileName`: the state it leaves and the error it returns, if any. -/
def modelPatternLoop (sv : ModelWalkServices) (decoder : PluginDecoder)
    (modelFileName : String) : List String → ModelWalk → ModelWalk × Option String
  | [], st => (st, none)
  | model_pattern :: rest, st =>
    match sv.Match model_pattern modelFileName with
    | .error err => (st, some err)
    | .ok matched =>
      if matched then
        let st1 : ModelWalk := { st with read := st.read ++ [modelFileName] }
        match decoder.ReadFile modelFileName with
        | .error err => (st1, some err.message)
        | .ok modelFile =>
          let st2 : ModelWalk := { st1 with parsed := st1.parsed ++ [modelFileName] }
          match sv.UnmarshalModel modelFile with
          | .error err => (st2, some err)
          | .ok modelDec =>
            modelPatternLoop sv decoder modelFileName rest
              { st2 with Models := st2.Models ++ [modelDec] }
      else modelPatternLoop sv decoder modelFileName rest st

/-- The function `Manifest` passes to `decoder.Walk` for a model provider with the
patterns `modelPatterns`. -/
def modelWalkFn (sv : ModelWalkServices) (decoder : PluginDecoder)
    (modelPatterns : List String) (filename dir : String) (st : ModelWalk) :
    ModelWalk × Option String :=
  let modelFileName := sv.Join dir filename
  if HasSuffix modelFileName "_position.yaml" then (st, none)
  else modelPatternLoop sv decoder modelFileName modelPatterns st

/-- The method `Walk(fn)` of a decoder whose files are `entries`, each a file name and
its directory: `fn` is called on each entry in order, up to the first error. -/
def Walk (fn : String → String → ModelWalk → ModelWalk × Option String) :
    List (String × String) → ModelWalk → ModelWalk × Option String
  | [], st => (st, none)
  | (filename, dir) :: rest, st =>
    match fn filename dir st with
    | (st1, some err) => (st1, some err)
    | (st1, none) => Walk fn rest st1

/-- The step `read models` of `Manifest` for the model provider `pluginDec`. -/
def readModels (sv : ModelWalkServices) (decoder : PluginDecoder)
    (entries : List (String × String)) (pluginDec : ModelProviderDeclaration) :
    ModelWalk × Option String :=
  Walk (modelWalkFn sv decoder pluginDec.ModelFiles) entries
    { Models := pluginDec.Models, read := [], parsed := [] }

/-- Whether `filepath.Match(pattern, name)` reports a match. -/
def patternMatches (sv : ModelWalkServices) (name pattern : String) : Bool :=
  match sv.Match pattern name with
  | .ok true => true
  | _ => false

/-- The loads of a walk that ends without error: each walked file whose path does not
end in `_position.yaml`, once for every pattern it matches. -/
def expectedLoads (sv : ModelWalkServices) (modelPatterns : List String) :
    List (String × String) → List String
  | [] => []
  | (filename, dir) :: rest =>
    (if HasSuffix (sv.Join dir filename) "_position.yaml" then []
      else (modelPatterns.filter (patternMatches sv (sv.Join dir filename))).map
        fun _ => sv.Join dir filename) ++
    expectedLoads sv modelPatterns rest

/-- Library calls for the examples: paths are joined with `/`, the pattern
`models/llm/*.yaml` matches the names that start with `models/llm/` and end in `.yaml`,
and a model file parses to the model named by its content. -/
def slashServices : ModelWalkServices :=
  { Join := fun dir filename => dir ++ "/" ++ filename
    Match := fun pattern name =>
      if pattern = "models/llm/*.yaml" then
        .ok (HasPrefix name "models/llm/" && HasSuffix name ".yaml")
      else .ok (decide (pattern = name))
    UnmarshalModel := fun content => .ok { Model := String.mk (content.map Char.ofNat) } }

/-- A package with the model file `models/llm/gpt.yaml` and the position file
`models/llm/_position.yaml`. -/
def packageWithPositionFile : PluginDecoder :=
  { ReadFile := fun filename =>
      if filename = "models/llm/gpt.yaml" then .ok [103, 112, 116]
      else if filename = "models/llm/_position.yaml" then .ok [45, 32, 103, 112, 116]
      else .error { message := "open " ++ filename ++ ": file does not exist", notExist := true }
    ReadDir := fun _ => .ok [] }

/-! ## The profile form of the scaffolding command (`cmd/commandline/plugin/profile.go`) -/

/-- The type `languageChoice`. -/
structure languageChoice where
  code : String
  name : String
  selected : Bool
  required : Bool
  deriving DecidableEq, Repr

/-- A text input `ti.Model` of the library `bubbles/textinput`: the fields `newProfile`
sets, the value typed and whether the input has the focus. -/
structure TextInput where
  Placeholder : String
  CharLimit : Nat
  Prompt : String
  value : String
  focus : Bool
  deriving DecidableEq, Repr

/-- The method `Focus()` of a text input. -/
def TextInput.Focus (m : TextInput) : TextInput := { m with focus := true }

/-- The method `Blur()` of a text input. -/
def TextInput.Blur (m : TextInput) : TextInput := { m with focus := false }

/-- The type `profile`. -/
structure profile where
  cursor : Int
  inputs : List TextInput
  enableI18nReadme : Bool
  languageChoices : List languageChoice
  languageSection : Bool
  warning : String
  deriving DecidableEq, Repr

/-- A message `tea.Msg`: a key message, known by the text of `msg.String()`, or a
message of another type. -/
inductive Msg where
  | KeyMsg (key : String)
  | other
  deriving DecidableEq, Repr

/-- Modelled from the spec: the type `subMenuEvent` is declared outside the given
sources; `Update` returns its two constants `SUB_MENU_EVENT_NONE` and
`SUB_MENU_EVENT_NEXT`, the second moving the scaffolding command to its next step. -/
inductive subMenuEvent where
  | SUB_MENU_EVENT_NONE
  | SUB_MENU_EVENT_NEXT
  deriving DecidableEq, Repr

/-- What the profile form calls outside its own code. -/
structure ProfileServices where
  /-- The call `plugin_entities.PluginNameRegex.MatchString` -/
  PluginNameRegex : String → Bool
  /-- The call `plugin_entities.AuthorRegex.MatchString` -/
  AuthorRegex : String → Bool
  /-- The method `Update(msg)` of a text input -/
  inputUpdate : Msg → TextInput → TextInput

/-- The function `newProfile()`. -/
def newProfile : profile :=
  { cursor := 0
    inputs :=
      [{ Placeholder := "Plugin name, a directory will be created with this name"
         CharLimit := 128, Prompt := "Plugin name (press Enter to next step): "
         value := "", focus := true },
       { Placeholder := "Author name", CharLimit := 128
         Prompt := "Author (press Enter to next step): ", value := "", focus := false },
       { Placeholder := "Description", CharLimit := 1024
         Prompt := "Description (press Enter to next step): ", value := "", focus := false },
       { Placeholder := "Repository URL (Optional)", CharLimit := 128
         Prompt := "Repository URL (Optional) (press Enter to next step): ", value := ""
         focus := false }]
    enableI18nReadme := false
    languageChoices :=
      [{ code := "en", name := "English", selected := true, required := true },
       { code := "zh_Hans", name := "简体中文 (Simplified Chinese)", selected := false
         required := false },
       { code := "ja_JP", name := "日本語 (Japanese)", selected := false, required := false },
       { code := "pt_BR", name := "Português (Portuguese - Brazil)", selected := false
         required := false }]
    languageSection := false
    warning := "" }

/-- The method `SelectedLanguages()`. -/
def profile.SelectedLanguages (p : profile) : List String :=
  if !p.enableI18nReadme then ["en"]
  else (p.languageChoices.filter fun choice => choice.selected).map fun choice => choice.code

/-- Sequencing of two calls: an error or a panic of the first ends the function. -/
def CallResult.bind {α β : Type} (r : CallResult α) (f : α → CallResult β) : CallResult β :=
  match r with
  | .ok value => f value
  | .error err => .error err
  | .panic reason => .panic reason

/-- The expression `p.inputs[p.cursor].Value()`; an index out of range panics. -/
def profile.inputValueAtCursor (p : profile) : CallResult String :=
  if p.cursor < 0 then .panic "index out of range"
  else
    match p.inputs[p.cursor.toNat]? with
    | some input => .ok input.value
    | none => .panic "index out of range"

/-- The method `checkRule()`: the profile with its warning set, and the result. -/
def profile.checkRule (sv : ProfileServices) (p : profile) : CallResult (profile × Bool) :=
  let valid : CallResult (profile × Bool) := .ok ({ p with warning := "" }, true)
  let author : CallResult (profile × Bool) :=
    if p.cursor = 1 then
      p.inputValueAtCursor.bind fun value =>
        if !sv.AuthorRegex value then
          .ok ({ p with
            warning := "Author name must be 1-64 characters long, and can only contain " ++
              "lowercase letters, numbers, dashes and underscores" }, false)
        else valid
    else valid
  let name : CallResult (profile × Bool) :=
    if p.cursor = 0 then
      p.inputValueAtCursor.bind fun value =>
        if !sv.PluginNameRegex value then
          .ok ({ p with
            warning := "Plugin name must be 1-128 characters long, and can only contain " ++
              "lowercase letters, numbers, dashes and underscores" }, false)
        else author
    else author
  if p.cursor ≥ 0 ∧ p.cursor ≤ 2 then
    p.inputValueAtCursor.bind fun value =>
      if value = "" then
        .ok ({ p with warning := "Name, author and description cannot be empty" }, false)
      else name
  else name

/-- What `Update` returns: the profile, the event, and whether the command is
`tea.Quit`. -/
structure UpdateReturn where
  menu : profile
  event : subMenuEvent
  quit : Bool
  deriving DecidableEq, Repr

/-- The loop `for i := 0; i < len(p.inputs); i++` of `Update` that gives the focus to
the input under the cursor; `i` is the index of the first input of the list. -/
def focusInputs (cursor : Int) : Nat → List TextInput → List TextInput
  | _, [] => []
  | i, input :: rest =>
    (if (i : Int) = cursor then input.Focus else input.Blur) :: focusInputs cursor (i + 1) rest

/-- The part of `Update` after the `switch`: focus and view of the inputs, and the
final `return`. -/
def finishUpdate (sv : ProfileServices) (msg : Msg) (p : profile) : UpdateReturn :=
  let p1 : profile :=
    if !p.languageSection then { p with inputs := focusInputs p.cursor 0 p.inputs } else p
  let p2 : profile :=
    if !p1.languageSection ∧ p1.cursor ≤ 3 then
      { p1 with inputs := p1.inputs.map (sv.inputUpdate msg) }
    else p1
  { menu := p2, event := .SUB_MENU_EVENT_NONE, quit := false }

/-- The test `if p.cursor <= 3 && !p.checkRule() { return p, SUB_MENU_EVENT_NONE, nil }`
followed by `next`. -/
def guardRule (sv : ProfileServices) (p : profile) (next : profile → CallResult UpdateReturn) :
    CallResult UpdateReturn :=
  if p.cursor ≤ 3 then
    (p.checkRule sv).bind fun checked =>
      if !checked.2 then .ok { menu := checked.1, event := .SUB_MENU_EVENT_NONE, quit := false }
      else next checked.1
  else next p

/-- The toggle of the checkbox: `p.enableI18nReadme = !p.enableI18nReadme`, and the reset
of the selections to the required ones when it becomes disabled. -/
def toggleI18nReadme (p : profile) : profile :=
  let p1 : profile := { p with enableI18nReadme := !p.enableI18nReadme }
  if !p1.enableI18nReadme then
    { p1 with
      languageChoices := p1.languageChoices.map fun choice =>
        { choice with selected := choice.required } }
  else p1

/-- The toggle of `p.languageChoices[p.cursor]` unless it is required; an index out of
range panics. -/
def toggleLanguage (p : profile) : CallResult profile :=
  if p.cursor < 0 then .panic "index out of range"
  else
    match p.languageChoices[p.cursor.toNat]? with
    | none => .panic "index out of range"
    | some choice =>
      if !choice.required then
        .ok { p with
          languageChoices := p.languageChoices.set p.cursor.toNat
            { choice with selected := !choice.selected } }
      else .ok p

/-- The method `Update(msg)`. -/
def profile.Update (sv : ProfileServices) (msg : Msg) (p : profile) : CallResult UpdateReturn :=
  match msg with
  | .other => .ok (finishUpdate sv msg p)
  | .KeyMsg key =>
    if key = "ctrl+c" then .ok { menu := p, event := .SUB_MENU_EVENT_NONE, quit := true }
    else if key = "down" then
      if p.languageSection then
        let p1 : profile := { p with cursor := p.cursor + 1 }
        let p2 : profile :=
          if p1.cursor ≥ p1.languageChoices.length then
            { p1 with cursor := (p1.languageChoices.length : Int) - 1 }
          else p1
        .ok (finishUpdate sv msg p2)
      else
        guardRule sv p fun p =>
          let p1 : profile := { p with cursor := p.cursor + 1 }
          let p2 : profile :=
            if p1.enableI18nReadme ∧ p1.cursor = 5 then
              { p1 with languageSection := true, cursor := 0 }
            else if p1.cursor > 4 then { p1 with cursor := 0 }
            else p1
          .ok (finishUpdate sv msg p2)
    else if key = "up" then
      if p.languageSection then
        let p1 : profile := { p with cursor := p.cursor - 1 }
        let p2 : profile :=
          if p1.cursor < 0 then { p1 with languageSection := false, cursor := 4 } else p1
        .ok (finishUpdate sv msg p2)
      else
        guardRule sv p fun p =>
          let p1 : profile := { p with cursor := p.cursor - 1 }
          let p2 : profile :=
            if p1.cursor < 0 then
              if p1.enableI18nReadme then
                { p1 with languageSection := true
                          cursor := (p1.languageChoices.length : Int) - 1 }
              else { p1 with cursor := 4 }
            else p1
          .ok (finishUpdate sv msg p2)
    else if key = "enter" then
      if p.languageSection then
        .ok { menu := p, event := .SUB_MENU_EVENT_NEXT, quit := false }
      else if p.cursor = 4 then
        .ok { menu := toggleI18nReadme p, event := .SUB_MENU_EVENT_NONE, quit := false }
      else
        guardRule sv p fun p =>
          if p.cursor = 3 then
            p.inputValueAtCursor.bind fun value =>
              if value = "" then
                .ok { menu := { p with cursor := 4 }, event := .SUB_MENU_EVENT_NONE
                      quit := false }
              else
                .ok { menu := { p with cursor := 4 }, event := .SUB_MENU_EVENT_NONE
                      quit := false }
          else .ok (finishUpdate sv msg { p with cursor := p.cursor + 1 })
    else if key = " " ∨ key = "tab" then
      if p.languageSection then
        (toggleLanguage p).bind fun p1 => .ok (finishUpdate sv msg p1)
      else if p.cursor = 4 then .ok (finishUpdate sv msg (toggleI18nReadme p))
      else .ok (finishUpdate sv msg p)
    else .ok (finishUpdate sv msg p)

/-- The method `SetEnableI18nReadme(enable)`. -/
def profile.SetEnableI18nReadme (p : profile) (enable : Bool) : profile :=
  { p with enableI18nReadme := enable }

/-- The inner loop of `SetSelectedLanguages`: selects the first choice with the code
`lang`. -/
def selectFirst (lang : String) : List languageChoice → List languageChoice
  | [] => []
  | choice :: rest =>
    if choice.code = lang then { choice with selected := true } :: rest
    else choice :: selectFirst lang rest

/-- The method `SetSelectedLanguages(languages)`. -/
def profile.SetSelectedLanguages (p : profile) (languages : List String) : profile :=
  let p1 : profile :=
    { p with
      languageChoices := p.languageChoices.map fun choice =>
        if !choice.required then { choice with selected := false } else choice }
  languages.foldl
    (fun p lang => { p with languageChoices := selectFirst lang p.languageChoices }) p1

/-- The profiles reachable from `newProfile()` by `Update` messages alone. -/
inductive profile.Reachable (sv : ProfileServices) : profile → Prop where
  | start : profile.Reachable sv newProfile
  | update (msg : Msg) (p : profile) (r : UpdateReturn) :
      profile.Reachable sv p → p.Update sv msg = .ok r → profile.Reachable sv r.menu

/-- The profiles reachable from `newProfile()` by `Update` messages and calls of
`SetEnableI18nReadme` and `SetSelectedLanguages`. -/
inductive profile.ReachableWithSetters (sv : ProfileServices) : profile → Prop where
  | start : profile.ReachableWithSetters sv newProfile
  | update (msg : Msg) (p : profile) (r : UpdateReturn) :
      profile.ReachableWithSetters sv p → p.Update sv msg = .ok r →
      profile.ReachableWithSetters sv r.menu
  | setEnableI18nReadme (enable : Bool) (p : profile) :
      profile.ReachableWithSetters sv p →
      profile.ReachableWithSetters sv (p.SetEnableI18nReadme enable)
  | setSelectedLanguages (languages : List String) (p : profile) :
      profile.ReachableWithSetters sv p →
      profile.ReachableWithSetters sv (p.SetSelectedLanguages languages)

/-- The messages of `msgs` handled one after the other, from the profile `p`. -/
def runUpdates (sv : ProfileServices) : List Msg → profile → CallResult profile
  | [], p => .ok p
  | msg :: rest, p => (p.Update sv msg).bind fun r => runUpdates sv rest r.menu

/-- The code and the `required` flag of each choice: the part of the choices that no
method changes. -/
def choiceKinds (choices : List languageChoice) : List (String × Bool) :=
  choices.map fun choice => (choice.code, choice.required)

/-- The cursor of a profile is in range, and its inputs and choices are those of the
form: four inputs, the four language choices of `newProfile` with every required one
selected. -/
def profile.InRange (p : profile) : Prop :=
  p.inputs.length = 4 ∧
  choiceKinds p.languageChoices =
    [("en", true), ("zh_Hans", false), ("ja_JP", false), ("pt_BR", false)] ∧
  (∀ choice ∈ p.languageChoices, choice.required = true → choice.selected = true) ∧
  (p.languageSection = false → 0 ≤ p.cursor ∧ p.cursor ≤ 4) ∧
  (p.languageSection = true → 0 ≤ p.cursor ∧ p.cursor < p.languageChoices.length)

/-- The language-selection section is open only with the multilingual README option
enabled. -/
def profile.SectionNeedsI18n (p : profile) : Prop :=
  p.languageSection = true → p.enableI18nReadme = true

/-- Services for the examples: every name is accepted, and a key message of one
character is appended to the input that has the focus. -/
def typingServices : ProfileServices :=
  { PluginNameRegex := fun _ => true
    AuthorRegex := fun _ => true
    inputUpdate := fun msg input =>
      match msg with
      | .KeyMsg key =>
        if input.focus ∧ key.length = 1 then { input with value := input.value ++ key }
        else input
      | .other => input }

/-- The profile after the messages `msgs`, from `newProfile()`; a panic leaves the
profile of `newProfile()`. -/
def profileAfter (sv : ProfileServices) (msgs : List Msg) : profile :=
  match runUpdates sv msgs newProfile with
  | .ok p => p
  | _ => newProfile

/-- Keys that fill the name, the author and the description, move to the checkbox,
enable the multilingual README and move into the language-selection section. -/
def keysToLanguageSection : List Msg :=
  [.KeyMsg "a", .KeyMsg "down", .KeyMsg "b", .KeyMsg "down", .KeyMsg "c", .KeyMsg "down",
   .KeyMsg "down", .KeyMsg "enter", .KeyMsg "down"]

/-! ## Closed forms used in the statements -/

/-- The slot the first loop of `InstallPluginRuntimeToTenant` leaves at position
`i` for `pluginUniqueIdentifier` when the step at that position does not fail. -/
def preflightSlot (sv : InstallServices) (runtimeType : PluginRuntimeType) (i : Nat)
    (pluginUniqueIdentifier : String) : InstallTaskPluginStatus :=
  match sv.CombinedGetPluginDeclaration i pluginUniqueIdentifier runtimeType with
  | .ok pluginDeclaration =>
    if sv.GetOnePlugin i pluginUniqueIdentifier = .found then
      { pendingSlot sv pluginUniqueIdentifier pluginDeclaration with
        Status := .success, Message := "Installed" }
    else pendingSlot sv pluginUniqueIdentifier pluginDeclaration
  | .error _ => pendingSlot sv pluginUniqueIdentifier plainDeclaration

/-- The identifiers of a request whose plugin-row lookup answers not-found, in
request order: the waiting list `pluginsWaitForInstallation`. -/
def waitingIdentifiers (sv : InstallServices) (plugin_unique_identifiers : List String) :
    List String :=
  (plugin_unique_identifiers.enum.filter
    fun x => sv.GetOnePlugin x.1 x.2 = .notFound).map Prod.snd

/-- The number of identifiers of a request whose plugin-row lookup finds a row. -/
def installedCount (sv : InstallServices) (plugin_unique_identifiers : List String) : Nat :=
  (plugin_unique_identifiers.enum.filter fun x => sv.GetOnePlugin x.1 x.2 = .found).length

/-- The task the first loop has built when it ends without failure. -/
def preflightTask (sv : InstallServices) (runtimeType : PluginRuntimeType)
    (tenant_id : String) (plugin_unique_identifiers : List String) : InstallTask :=
  { ID := ""
    Status := .running
    TenantID := tenant_id
    TotalPlugins := plugin_unique_identifiers.length
    CompletedPlugins := installedCount sv plugin_unique_identifiers
    Plugins := plugin_unique_identifiers.enum.map
      fun x => preflightSlot sv runtimeType x.1 x.2 }

/-! # Theorems -/

/-! ## The synchronous part of an install request and the worker -/

/-- Writing through the pointer to the slot just appended changes that slot only. -/
theorem modifySlot_append_singleton (f : InstallTaskPluginStatus → InstallTaskPluginStatus)
    (ps : List InstallTaskPluginStatus) (p : InstallTaskPluginStatus) :
    modifySlot f ps.length (ps ++ [p]) = ps ++ [f p] := by
  induction ps with
  | nil => rfl
  | cons q qs ih => simp [modifySlot, ih]

/-- The first loop, started at index `i` with `i` slots already appended, when no
step fails: it runs to its end, appends one slot per identifier, counts the
installed ones, enqueues the others and calls `on_done` for the installed ones. -/
theorem preflightLoop_succeeds (sv : InstallServices) (rt : PluginRuntimeType)
    (metas : List MetaMap) (onDone : InstallPluginOnDoneHandler) :
    ∀ (rest : List String) (i : Nat) (st : PreflightState),
      st.task.Plugins.length = i →
      (∀ x ∈ rest.enumFrom i, ∃ d,
        sv.CombinedGetPluginDeclaration x.1 x.2 rt = .ok d ∧
        (sv.GetOnePlugin x.1 x.2 = .notFound ∨
          (sv.GetOnePlugin x.1 x.2 = .found ∧
            ∃ m, metas[x.1]? = some m ∧ onDone x.1 x.2 d m = none))) →
      (preflightLoop sv rt metas onDone i rest st).aborted = none ∧
      (preflightLoop sv rt metas onDone i rest st).state.task =
        { st.task with
          Plugins := st.task.Plugins ++
            (rest.enumFrom i).map (fun x => preflightSlot sv rt x.1 x.2)
          CompletedPlugins := st.task.CompletedPlugins +
            ((rest.enumFrom i).filter (fun x => sv.GetOnePlugin x.1 x.2 = .found)).length } ∧
      (preflightLoop sv rt metas onDone i rest st).state.pluginsWaitForInstallation =
        st.pluginsWaitForInstallation ++
          ((rest.enumFrom i).filter (fun x => sv.GetOnePlugin x.1 x.2 = .notFound)).map Prod.snd ∧
      (preflightLoop sv rt metas onDone i rest st).state.onDoneCalls.map
          (fun c => c.pluginUniqueIdentifier) =
        st.onDoneCalls.map (fun c => c.pluginUniqueIdentifier) ++
          ((rest.enumFrom i).filter (fun x => sv.GetOnePlugin x.1 x.2 = .found)).map Prod.snd := by
  intro rest
  induction rest with
  | nil => intro i st _ _; simp [preflightLoop]
  | cons a rest ih =>
    intro i st hlen hok
    obtain ⟨d, hd, hcase⟩ := hok (i, a) (by simp)
    have hrest : ∀ x ∈ rest.enumFrom (i + 1), ∃ d,
        sv.CombinedGetPluginDeclaration x.1 x.2 rt = .ok d ∧
        (sv.GetOnePlugin x.1 x.2 = .notFound ∨
          (sv.GetOnePlugin x.1 x.2 = .found ∧
            ∃ m, metas[x.1]? = some m ∧ onDone x.1 x.2 d m = none)) := by
      intro x hx; exact hok x (by simp [hx])
    simp only at hd hcase
    rcases hcase with hnf | ⟨hf, m, hm, hdone⟩
    · have key := ih (i + 1)
        { st with
          task := { st.task with
            Plugins := st.task.Plugins ++ [pendingSlot sv a d] }
          pluginsWaitForInstallation := st.pluginsWaitForInstallation ++ [a] }
        (by simp [hlen]) hrest
      simp only [preflightLoop, hd, hnf]
      refine ⟨key.1, ?_, ?_, ?_⟩
      · rw [key.2.1]; simp [preflightSlot, hd, hnf]
      · rw [key.2.2.1]; simp [hnf]
      · rw [key.2.2.2]; simp [hnf]
    · have key := ih (i + 1)
        { st with
          task := { st.task with
            CompletedPlugins := st.task.CompletedPlugins + 1
            Plugins := modifySlot
              (fun p => { p with Status := .success, Message := "Installed" }) i
              (st.task.Plugins ++ [pendingSlot sv a d]) }
          onDoneCalls := st.onDoneCalls ++ [OnDoneCall.mk a d m] }
        (by subst hlen; simp [modifySlot_append_singleton]) hrest
      simp only [preflightLoop, hd, hf, hm, hdone]
      refine ⟨key.1, ?_, ?_, ?_⟩
      · rw [key.2.1]; subst hlen
        simp [preflightSlot, hd, hf, modifySlot_append_singleton, Nat.add_assoc, Nat.add_comm 1]
      · rw [key.2.2.1]; simp [hf]
      · rw [key.2.2.2]; simp [hf]

/-- The loop building the workers, when every declaration lookup succeeds: one
worker per waiting identifier, capturing the index of the identifier in the
waiting list. -/
theorem buildWorkers_succeeds (sv : InstallServices) (config : Config)
    (rt : PluginRuntimeType) (source : String) (metas : List MetaMap) (taskID : String)
    (calls : Nat) :
    ∀ (rest : List String) (i : Nat) (tasks : List InstallWorker),
      (∀ x ∈ rest.enumFrom i, ∃ d,
        sv.CombinedGetPluginDeclaration (calls + x.1) x.2 rt = .ok d) →
      ∃ built, buildWorkers sv config rt source metas taskID calls i rest tasks = .ok built ∧
        built.map (fun w => (w.pluginUniqueIdentifier, w.i)) =
          tasks.map (fun w => (w.pluginUniqueIdentifier, w.i)) ++
            (rest.enumFrom i).map (fun x => (x.2, x.1)) ∧
        (∀ w ∈ built, w ∈ tasks ∨
          (w.config = config ∧ w.source = source ∧ w.metas = metas ∧ w.taskID = taskID)) := by
  intro rest
  induction rest with
  | nil => intro i tasks _; exact ⟨tasks, rfl, by simp, fun w hw => Or.inl hw⟩
  | cons a rest ih =>
    intro i tasks hok
    obtain ⟨d, hd⟩ := hok (i, a) (by simp)
    simp only at hd
    obtain ⟨built, hb, hmap, hcap⟩ := ih (i + 1)
      (tasks ++ [InstallWorker.mk config a d i taskID source metas])
      (fun x hx => hok x (by simp [hx]))
    refine ⟨built, ?_, ?_, ?_⟩
    · simp only [buildWorkers, hd]; exact hb
    · rw [hmap]; simp
    · intro w hw
      rcases hcap w hw with h | h
      · rcases List.mem_append.1 h with h | h
        · exact Or.inl h
        · right; simp at h; subst h; simp
      · exact Or.inr h

/-- The first loop of a request, when no step fails, in closed form. -/
theorem preflightLoop_closed_form (sv : InstallServices)
    (rt : PluginRuntimeType) (tenant_id : String) (ids : List String)
    (metas : List MetaMap) (onDone : InstallPluginOnDoneHandler)
    (hsteps : ∀ i id, ids[i]? = some id → ∃ d,
      sv.CombinedGetPluginDeclaration i id rt = .ok d ∧
      (sv.GetOnePlugin i id = .notFound ∨
        (sv.GetOnePlugin i id = .found ∧ ∃ m, metas[i]? = some m ∧ onDone i id d m = none))) :
    (preflightLoop sv rt metas onDone 0 ids
      { task :=
          { ID := "", Status := .running, TenantID := tenant_id, TotalPlugins := ids.length
            CompletedPlugins := 0, Plugins := [] }
        pluginsWaitForInstallation := [], onDoneCalls := [] }).aborted = none ∧
    (preflightLoop sv rt metas onDone 0 ids
      { task :=
          { ID := "", Status := .running, TenantID := tenant_id, TotalPlugins := ids.length
            CompletedPlugins := 0, Plugins := [] }
        pluginsWaitForInstallation := [], onDoneCalls := [] }).state.task =
      preflightTask sv rt tenant_id ids ∧
    (preflightLoop sv rt metas onDone 0 ids
      { task :=
          { ID := "", Status := .running, TenantID := tenant_id, TotalPlugins := ids.length
            CompletedPlugins := 0, Plugins := [] }
        pluginsWaitForInstallation := [], onDoneCalls := [] }).state.pluginsWaitForInstallation =
      waitingIdentifiers sv ids ∧
    (preflightLoop sv rt metas onDone 0 ids
      { task :=
          { ID := "", Status := .running, TenantID := tenant_id, TotalPlugins := ids.length
            CompletedPlugins := 0, Plugins := [] }
        pluginsWaitForInstallation := [], onDoneCalls := [] }).state.onDoneCalls.map
        (fun c => c.pluginUniqueIdentifier) =
      (ids.enum.filter fun x => sv.GetOnePlugin x.1 x.2 = .found).map Prod.snd := by
  have h := preflightLoop_succeeds sv rt metas onDone ids 0
    { task :=
        { ID := "", Status := .running, TenantID := tenant_id, TotalPlugins := ids.length
          CompletedPlugins := 0, Plugins := [] }
      pluginsWaitForInstallation := [], onDoneCalls := [] } rfl
    (fun x hx => hsteps x.1 x.2 (List.mk_mem_enum_iff_getElem?.1 hx))
  refine ⟨h.1, ?_, ?_, ?_⟩
  · rw [h.2.1]; simp [preflightTask, installedCount, List.enum]
  · rw [h.2.2.1]; simp [waitingIdentifiers, List.enum]
  · rw [h.2.2.2]; simp [List.enum]

/-- C3 (install idempotency): on a supported platform, if for every identifier of
the request the declaration lookup succeeds, a plugin row exists, and the call
`onDone(identifier, declaration, metas[i])` made for it returns no error, then
`InstallPluginRuntimeToTenant` returns `all_installed = true` and `task_id = ""`,
inserts no install-task row, submits no worker, and has called `on_done` exactly
once per identifier, in request order. -/
theorem C3_all_installed_returns_without_task (sv : InstallServices) (config : Config)
    (rt : PluginRuntimeType) (tenant_id : String) (ids : List String) (source : String)
    (metas : List MetaMap) (onDone : InstallPluginOnDoneHandler)
    (hplat : platformRuntimeType config = .ok rt)
    (hall : ∀ i id, ids[i]? = some id → ∃ d m,
      sv.CombinedGetPluginDeclaration i id rt = .ok d ∧ sv.GetOnePlugin i id = .found ∧
      metas[i]? = some m ∧ onDone i id d m = none) :
    (InstallPluginRuntimeToTenant sv config tenant_id ids source metas onDone).result =
      .ok { AllInstalled := true, TaskID := "" } ∧
    (InstallPluginRuntimeToTenant sv config tenant_id ids source metas onDone).createdTasks = [] ∧
    (InstallPluginRuntimeToTenant sv config tenant_id ids source metas onDone).submitted = [] ∧
    (InstallPluginRuntimeToTenant sv config tenant_id ids source metas onDone).onDoneCalls.map
      (fun c => c.pluginUniqueIdentifier) = ids := by
  have hfound : ∀ x ∈ ids.enum, sv.GetOnePlugin x.1 x.2 = .found := by
    intro x hx
    obtain ⟨d, m, _, hf, _⟩ := hall x.1 x.2 (List.mk_mem_enum_iff_getElem?.1 hx)
    exact hf
  obtain ⟨h1, _, h3, h4⟩ := preflightLoop_closed_form sv rt tenant_id ids metas onDone
    (fun i id hi => by
      obtain ⟨d, m, hd, hf, hm, ho⟩ := hall i id hi
      exact ⟨d, hd, Or.inr ⟨hf, m, hm, ho⟩⟩)
  have hwait : waitingIdentifiers sv ids = [] := by
    simp only [waitingIdentifiers, List.map_eq_nil_iff, List.filter_eq_nil_iff]
    intro x hx; simp [hfound x hx]
  have hcalls : (ids.enum.filter fun x => sv.GetOnePlugin x.1 x.2 = .found).map Prod.snd = ids := by
    rw [List.filter_eq_self.2 (fun x hx => by simp [hfound x hx]), List.enum_map_snd]
  simp only [InstallPluginRuntimeToTenant, hplat, installWithRuntimeType, h1, h3, hwait,
    List.length_nil, if_true]
  exact ⟨trivial, trivial, trivial, h4.trans hcalls⟩

/-- C4: on a supported platform, if no step of the request fails (every declaration
lookup succeeds, every plugin-row lookup answers found or not-found, `on_done`
returns no error for the installed identifiers, the task insert succeeds with id
`tid`) and at least one identifier is not installed, then exactly one task row is
inserted; its `total_plugins` is the number of identifiers, its slots are one per
identifier in request order, slot `i` being success/"Installed" when identifier
`i` is installed and pending/"" when it is not, `completed_plugins` is the number
of installed identifiers, and the response is `all_installed = false` with the id
of that row. -/
theorem C4_task_persisted_for_waiting_identifiers (sv : InstallServices) (config : Config)
    (rt : PluginRuntimeType) (tenant_id : String) (ids : List String) (source : String)
    (metas : List MetaMap) (onDone : InstallPluginOnDoneHandler) (tid : String)
    (hplat : platformRuntimeType config = .ok rt)
    (hsteps : ∀ i id, ids[i]? = some id → ∃ d,
      sv.CombinedGetPluginDeclaration i id rt = .ok d ∧
      (sv.GetOnePlugin i id = .notFound ∨
        (sv.GetOnePlugin i id = .found ∧ ∃ m, metas[i]? = some m ∧ onDone i id d m = none)))
    (hwaiting : ∃ i id, ids[i]? = some id ∧ sv.GetOnePlugin i id = .notFound)
    (hcreate : sv.Create (preflightTask sv rt tenant_id ids) = .ok tid)
    (hbuild : ∀ j id, (waitingIdentifiers sv ids)[j]? = some id → ∃ d,
      sv.CombinedGetPluginDeclaration (ids.length + j) id rt = .ok d) :
    (InstallPluginRuntimeToTenant sv config tenant_id ids source metas onDone).result =
      .ok { AllInstalled := false, TaskID := tid } ∧
    (InstallPluginRuntimeToTenant sv config tenant_id ids source metas onDone).createdTasks =
      [{ preflightTask sv rt tenant_id ids with ID := tid }] ∧
    (preflightTask sv rt tenant_id ids).TotalPlugins = ids.length ∧
    (preflightTask sv rt tenant_id ids).Plugins.map (fun p => p.PluginUniqueIdentifier) = ids ∧
    (∀ i id, ids[i]? = some id → ∃ slot,
      (preflightTask sv rt tenant_id ids).Plugins[i]? = some slot ∧
      ((sv.GetOnePlugin i id = .found ∧ slot.Status = .success ∧ slot.Message = "Installed") ∨
        (sv.GetOnePlugin i id = .notFound ∧ slot.Status = .pending ∧ slot.Message = ""))) ∧
    (preflightTask sv rt tenant_id ids).CompletedPlugins =
      (ids.enum.filter fun x => sv.GetOnePlugin x.1 x.2 = .found).length := by
  obtain ⟨h1, h2, h3, _⟩ := preflightLoop_closed_form sv rt tenant_id ids metas onDone hsteps
  have hne : (waitingIdentifiers sv ids).length ≠ 0 := by
    obtain ⟨i, id, hi, hnf⟩ := hwaiting
    have hmem : id ∈ waitingIdentifiers sv ids := by
      simp only [waitingIdentifiers, List.mem_map, List.mem_filter]
      exact ⟨(i, id), ⟨List.mk_mem_enum_iff_getElem?.2 hi, by simp [hnf]⟩, rfl⟩
    intro h0
    rw [List.length_eq_zero] at h0
    rw [h0] at hmem
    exact List.not_mem_nil _ hmem
  obtain ⟨built, hb, _, _⟩ := buildWorkers_succeeds sv config rt source metas tid ids.length
    (waitingIdentifiers sv ids) 0 []
    (fun x hx => hbuild x.1 x.2 (List.mk_mem_enum_iff_getElem?.1 hx))
  have hslotId : ∀ i id, (preflightSlot sv rt i id).PluginUniqueIdentifier = id := by
    intro i id
    unfold preflightSlot
    split
    · split <;> rfl
    · rfl
  refine ⟨?_, ?_, rfl, ?_, ?_, rfl⟩
  · simp only [InstallPluginRuntimeToTenant, hplat, installWithRuntimeType, h1, h2, h3, hne,
      hcreate, hb, if_false]
  · simp only [InstallPluginRuntimeToTenant, hplat, installWithRuntimeType, h1, h2, h3, hne,
      hcreate, hb, if_false]
  · simp only [preflightTask, List.map_map]
    conv_rhs => rw [← List.enum_map_snd ids]
    apply List.map_congr_left
    intro x _
    exact hslotId x.1 x.2
  · intro i id hi
    obtain ⟨d, hd, hcase⟩ := hsteps i id hi
    refine ⟨preflightSlot sv rt i id, ?_, ?_⟩
    · simp only [preflightTask, List.getElem?_map]
      have : ids.enum[i]? = some (i, id) := by
        simp [List.enum, List.getElem?_enumFrom, hi]
      rw [this]; rfl
    · rcases hcase with hnf | ⟨hf, _⟩
      · right; simp [preflightSlot, hd, hnf, pendingSlot]
      · left; simp [preflightSlot, hd, hf]

/-- The slot found by `updateTaskStatus` exists and carries the identifier. -/
theorem findSlot_some (id : String) :
    ∀ (ps : List InstallTaskPluginStatus) (idx : Nat), findSlot id ps = some idx →
      ∃ slot, ps[idx]? = some slot ∧ slot.PluginUniqueIdentifier = id := by
  intro ps
  induction ps with
  | nil => intro idx h; simp [findSlot] at h
  | cons p ps ih =>
    intro idx h
    simp only [findSlot] at h
    split at h
    · rename_i hp
      cases h
      exact ⟨p, by simp, hp⟩
    · cases hf : findSlot id ps with
      | none => simp [hf] at h
      | some j =>
        simp [hf] at h
        subst h
        obtain ⟨slot, hs, hid⟩ := ih j hf
        exact ⟨slot, by simpa using hs, hid⟩

/-- Writing to a slot keeps the number of slots. -/
theorem modifySlot_length (f : InstallTaskPluginStatus → InstallTaskPluginStatus) :
    ∀ (idx : Nat) (ps : List InstallTaskPluginStatus), (modifySlot f idx ps).length = ps.length := by
  intro idx ps
  induction ps generalizing idx with
  | nil => cases idx <;> simp [modifySlot]
  | cons p ps ih => cases idx <;> simp [modifySlot, ih]

/-- Reading back the slot written to. -/
theorem modifySlot_getElem?_same (f : InstallTaskPluginStatus → InstallTaskPluginStatus) :
    ∀ (ps : List InstallTaskPluginStatus) (idx : Nat) (slot : InstallTaskPluginStatus),
      ps[idx]? = some slot → (modifySlot f idx ps)[idx]? = some (f slot) := by
  intro ps
  induction ps with
  | nil => intro idx slot h; simp at h
  | cons p ps ih =>
    intro idx slot h
    cases idx with
    | zero => simp at h; subst h; simp [modifySlot]
    | succ n => simp at h; simpa [modifySlot] using ih n slot h

/-- There are at most as many successes as slots. -/
theorem countSuccesses_le : ∀ ps : List InstallTaskPluginStatus, countSuccesses ps ≤ ps.length := by
  intro ps
  induction ps with
  | nil => simp [countSuccesses]
  | cons p ps ih =>
    simp only [countSuccesses, List.length_cons]
    split <;> omega

/-- A slot that is not a success keeps the count below the number of slots. -/
theorem countSuccesses_lt_of_slot :
    ∀ (ps : List InstallTaskPluginStatus) (idx : Nat) (slot : InstallTaskPluginStatus),
      ps[idx]? = some slot → slot.Status ≠ .success → countSuccesses ps < ps.length := by
  intro ps
  induction ps with
  | nil => intro idx slot h; simp at h
  | cons p ps ih =>
    intro idx slot h hs
    cases idx with
    | zero =>
      simp at h; subst h
      have := countSuccesses_le ps
      simp only [countSuccesses, List.length_cons, if_neg hs]
      omega
    | succ n =>
      simp at h
      have := ih n slot h hs
      simp only [countSuccesses, List.length_cons]
      split <;> omega

/-- A committed `updateTaskStatus` with a failure modifier, on a task that has a slot
for the identifier. -/
theorem updateTaskStatus_failed (id m : String) (task : InstallTask) (idx : Nat)
    (hfind : findSlot id task.Plugins = some idx) :
    ∃ task' slot',
      updateTaskStatus id (.failed m) true (some task) =
        { stored := some task', deleteScheduled := false } ∧
      task'.Status = .failed ∧ task'.Plugins[idx]? = some slot' ∧
      slot'.PluginUniqueIdentifier = id ∧ slot'.Status = .failed ∧ slot'.Message = m ∧
      task'.CompletedPlugins = task.CompletedPlugins := by
  obtain ⟨slot, hslot, hid⟩ := findSlot_some id task.Plugins idx hfind
  have hget := modifySlot_getElem?_same (Modifier.failed m).onPlugin task.Plugins idx slot hslot
  have hlt := countSuccesses_lt_of_slot _ idx _ hget (by simp [Modifier.onPlugin])
  refine ⟨(Modifier.failed m).apply task idx, { slot with Status := .failed, Message := m },
    ?_, rfl, hget, hid, rfl, rfl, rfl⟩
  simp only [updateTaskStatus, hfind, if_true]
  rw [if_neg]
  exact Nat.ne_of_lt hlt

/-- The stream loop on reaching an error event: it makes the failure update and
reads nothing more. -/
theorem consumeStream_error_event (onDone : InstallPluginOnDoneHandler) (w : InstallWorker)
    (meta : MetaMap) (m : String) (post : List StreamRead) :
    ∀ (pre : List StreamRead) (k : Nat) (run : WorkerRun),
      (∀ j r, pre[j]? = some r → ∃ message, r = .ok message ∧
        message.Event ≠ .PluginInstallEventError ∧
        (message.Event = .PluginInstallEventDone →
          onDone (k + j) w.pluginUniqueIdentifier w.declaration meta = none)) →
      (consumeStream onDone w meta k
        (pre ++ .ok { Event := .PluginInstallEventError, Data := m } :: post) run).updates =
        run.updates ++ [.failed m] ∧
      (consumeStream onDone w meta k
        (pre ++ .ok { Event := .PluginInstallEventError, Data := m } :: post) run).consumed =
        run.consumed + pre.length + 1 := by
  intro pre
  induction pre with
  | nil => intro k run _; simp [consumeStream, WorkerRun.fail]
  | cons r pre ih =>
    intro k run hpre
    obtain ⟨message, hr, hne, hdone⟩ := hpre 0 r (by simp)
    subst hr
    have htail : ∀ j r, pre[j]? = some r → ∃ message, r = .ok message ∧
        message.Event ≠ .PluginInstallEventError ∧
        (message.Event = .PluginInstallEventDone →
          onDone (k + 1 + j) w.pluginUniqueIdentifier w.declaration meta = none) := by
      intro j r hj
      have := hpre (j + 1) r (by simpa using hj)
      rwa [show k + (j + 1) = k + 1 + j by omega] at this
    by_cases hd : message.Event = .PluginInstallEventDone
    · have ho := hdone hd
      simp only [Nat.add_zero] at ho
      have key := ih (k + 1)
        { run with
          consumed := run.consumed + 1
          onDoneCalls := run.onDoneCalls ++
            [OnDoneCall.mk w.pluginUniqueIdentifier w.declaration meta] } htail
      simp only [List.cons_append, consumeStream, if_neg hne, if_pos hd, ho]
      refine ⟨key.1, key.2.trans ?_⟩
      simp only [List.length_cons]; omega
    · have key := ih (k + 1) { run with consumed := run.consumed + 1 } htail
      simp only [List.cons_append, consumeStream, if_neg hne, if_neg hd]
      refine ⟨key.1, key.2.trans ?_⟩
      simp only [List.length_cons]; omega

/-- C7: a worker whose installer returned a stream, and which reads from it an
error event with data `m` (every earlier read returned a message that is not an
error event, and `on_done` succeeded for every earlier done event).  The worker
makes exactly the updates running and failed-with-`m`, so no success update
follows; it has read the events up to the error event and none after it; and
the failure update, committed on a task holding a slot for the identifier, stores
the task with status failed, that slot failed with message `m`, and
`completed_plugins` unchanged. -/
theorem C7_error_event_fails_slot_and_stops (mgr : ManagerServices)
    (onDone : InstallPluginOnDoneHandler) (w : InstallWorker) (meta : MetaMap)
    (pre : List StreamRead) (m : String) (post : List StreamRead)
    (hstart : startInstall mgr w =
      .called meta (.ok (pre ++ .ok { Event := .PluginInstallEventError, Data := m } :: post)))
    (hpre : ∀ k r, pre[k]? = some r → ∃ message, r = .ok message ∧
      message.Event ≠ .PluginInstallEventError ∧
      (message.Event = .PluginInstallEventDone →
        onDone k w.pluginUniqueIdentifier w.declaration meta = none)) :
    (runWorker mgr onDone w).updates = [.running, .failed m] ∧
    (runWorker mgr onDone w).consumed = pre.length + 1 ∧
    ∀ task idx, findSlot w.pluginUniqueIdentifier task.Plugins = some idx →
      ∃ task' slot',
        updateTaskStatus w.pluginUniqueIdentifier (.failed m) true (some task) =
          { stored := some task', deleteScheduled := false } ∧
        task'.Status = .failed ∧ task'.Plugins[idx]? = some slot' ∧
        slot'.PluginUniqueIdentifier = w.pluginUniqueIdentifier ∧
        slot'.Status = .failed ∧ slot'.Message = m ∧
        task'.CompletedPlugins = task.CompletedPlugins := by
  have key := consumeStream_error_event onDone w meta m post pre 0
    { updates := [.running], consumed := 0, onDoneCalls := [], installerMetas := [] ++ [meta]
      panicked := false }
    (fun j r hj => by simpa using hpre j r hj)
  refine ⟨?_, ?_, fun task idx h => updateTaskStatus_failed _ m task idx h⟩
  · simp only [runWorker, hstart, afterInstall]
    simpa using key.1
  · simp only [runWorker, hstart, afterInstall]
    simpa using key.2

/-- C3 at a request of two installed plugins on the local platform. -/
theorem C3_all_installed_returns_without_task_witness :
    (InstallPluginRuntimeToTenant allInstalled localConfig "tenant" ["p1", "p2"]
      "marketplace" [[], []] onDoneOk).result = .ok { AllInstalled := true, TaskID := "" } ∧
    (InstallPluginRuntimeToTenant allInstalled localConfig "tenant" ["p1", "p2"]
      "marketplace" [[], []] onDoneOk).createdTasks = [] ∧
    (InstallPluginRuntimeToTenant allInstalled localConfig "tenant" ["p1", "p2"]
      "marketplace" [[], []] onDoneOk).submitted = [] ∧
    (InstallPluginRuntimeToTenant allInstalled localConfig "tenant" ["p1", "p2"]
      "marketplace" [[], []] onDoneOk).onDoneCalls.map
      (fun c => c.pluginUniqueIdentifier) = ["p1", "p2"] :=
  C3_all_installed_returns_without_task allInstalled localConfig .PLUGIN_RUNTIME_TYPE_LOCAL
    "tenant" ["p1", "p2"] "marketplace" [[], []] onDoneOk rfl
    (fun i id h =>
      match i, h with
      | 0, _ => ⟨plainDeclaration, [], rfl, rfl, rfl, rfl⟩
      | 1, _ => ⟨plainDeclaration, [], rfl, rfl, rfl, rfl⟩
      | _ + 2, h => by simp at h)

/-- C4 at the request `["p1", "p2"]` with `p1` installed and `p2` not. -/
theorem C4_task_persisted_for_waiting_identifiers_witness :
    (InstallPluginRuntimeToTenant firstInstalled localConfig "tenant" ["p1", "p2"]
      "marketplace" [[], []] onDoneOk).result =
      .ok { AllInstalled := false, TaskID := "task-1" } ∧
    (InstallPluginRuntimeToTenant firstInstalled localConfig "tenant" ["p1", "p2"]
      "marketplace" [[], []] onDoneOk).createdTasks =
      [{ preflightTask firstInstalled .PLUGIN_RUNTIME_TYPE_LOCAL "tenant" ["p1", "p2"] with
         ID := "task-1" }] :=
  have h := C4_task_persisted_for_waiting_identifiers firstInstalled localConfig
    .PLUGIN_RUNTIME_TYPE_LOCAL "tenant" ["p1", "p2"] "marketplace" [[], []] onDoneOk "task-1"
    rfl
    (fun i id h =>
      match i, h with
      | 0, _ => ⟨plainDeclaration, rfl, Or.inr ⟨rfl, [], rfl, rfl⟩⟩
      | 1, _ => ⟨plainDeclaration, rfl, Or.inl rfl⟩
      | _ + 2, h => by simp at h)
    ⟨1, "p2", rfl, rfl⟩ rfl (fun _ _ _ => ⟨plainDeclaration, rfl⟩)
  ⟨h.1, h.2.1⟩

/-- C7 at a local worker whose stream is progress, error, done. -/
theorem C7_error_event_fails_slot_and_stops_witness :
    (runWorker installsFail onDoneOk localWorker).updates =
      [.running, .failed "init environment failed"] ∧
    (runWorker installsFail onDoneOk localWorker).consumed = 2 :=
  have h := C7_error_event_fails_slot_and_stops installsFail onDoneOk localWorker []
    [.ok { Event := .PluginInstallEventInfo, Data := "Installing" }]
    "init environment failed" [.ok { Event := .PluginInstallEventDone, Data := "Installed" }]
    rfl
    (fun k r h =>
      match k, h with
      | 0, h => ⟨{ Event := .PluginInstallEventInfo, Data := "Installing" },
          by simpa using h.symm, by decide, fun _ => rfl⟩
      | _ + 1, h => by simp at h)
  ⟨h.1, h.2.1⟩

/-! ## The task invariant for distinct identifiers -/

/-- No modifier changes the identifier of a slot. -/
theorem Modifier.onPlugin_identifier (m : Modifier) (p : InstallTaskPluginStatus) :
    (m.onPlugin p).PluginUniqueIdentifier = p.PluginUniqueIdentifier := by
  cases m <;> rfl

/-- Writing to a slot without changing its identifier does not move the slot found
for an identifier. -/
theorem findSlot_modifySlot (id : String)
    (f : InstallTaskPluginStatus → InstallTaskPluginStatus)
    (hf : ∀ p, (f p).PluginUniqueIdentifier = p.PluginUniqueIdentifier) :
    ∀ (ps : List InstallTaskPluginStatus) (k : Nat),
      findSlot id (modifySlot f k ps) = findSlot id ps := by
  intro ps
  induction ps with
  | nil => intro k; cases k <;> simp [modifySlot]
  | cons p ps ih =>
    intro k
    cases k with
    | zero => simp [modifySlot, findSlot, hf]
    | succ n => simp [modifySlot, findSlot, ih n]

/-- Writing to a slot leaves the other slots as they were. -/
theorem modifySlot_getElem?_ne (f : InstallTaskPluginStatus → InstallTaskPluginStatus) :
    ∀ (ps : List InstallTaskPluginStatus) (k j : Nat), k ≠ j →
      (modifySlot f k ps)[j]? = ps[j]? := by
  intro ps
  induction ps with
  | nil => intro k j _; cases k <;> simp [modifySlot]
  | cons p ps ih =>
    intro k j hkj
    cases k with
    | zero =>
      cases j with
      | zero => exact absurd rfl hkj
      | succ j => simp [modifySlot]
    | succ n =>
      cases j with
      | zero => simp [modifySlot]
      | succ j => simpa [modifySlot] using ih n j (by omega)

/-- The count of successes after writing to a slot that was not a success. -/
theorem countSuccesses_modifySlot (f : InstallTaskPluginStatus → InstallTaskPluginStatus) :
    ∀ (ps : List InstallTaskPluginStatus) (k : Nat) (slot : InstallTaskPluginStatus),
      ps[k]? = some slot → slot.Status ≠ .success →
      countSuccesses (modifySlot f k ps) =
        countSuccesses ps + (if (f slot).Status = .success then 1 else 0) := by
  intro ps
  induction ps with
  | nil => intro k slot h; simp at h
  | cons p ps ih =>
    intro k slot h hs
    cases k with
    | zero =>
      simp at h; subst h
      simp only [modifySlot, countSuccesses, if_neg hs]
      split <;> simp
    | succ n =>
      simp at h
      have := ih n slot h hs
      simp only [modifySlot, countSuccesses]
      split <;> omega

/-- When the successes are as many as the slots, every slot is a success. -/
theorem countSuccesses_eq_length (ps : List InstallTaskPluginStatus)
    (h : countSuccesses ps = ps.length) : ∀ p ∈ ps, p.Status = .success := by
  induction ps with
  | nil => simp
  | cons p ps ih =>
    have hle := countSuccesses_le ps
    simp only [countSuccesses, List.length_cons] at h
    split at h
    · rename_i hp
      intro q hq
      rcases List.mem_cons.1 hq with hq | hq
      · subst hq; exact hp
      · exact ih (by omega) q hq
    · omega

/-- Reading the workers after one of them advanced. -/
theorem setThread_getElem? (th : WorkerThread) :
    ∀ (ts : List WorkerThread) (k j : Nat) (old : WorkerThread), ts[k]? = some old →
      (setThread th k ts)[j]? = if j = k then some th else ts[j]? := by
  intro ts
  induction ts with
  | nil => intro k j old h; simp at h
  | cons t ts ih =>
    intro k j old h
    cases k with
    | zero => cases j <;> simp [setThread]
    | succ n =>
      simp at h
      cases j with
      | zero => simp [setThread]
      | succ j => simpa [setThread] using ih n j old h

/-- Advancing a worker keeps the identifiers of the workers. -/
theorem setThread_map_identifier (th : WorkerThread) :
    ∀ (ts : List WorkerThread) (k : Nat) (old : WorkerThread), ts[k]? = some old →
      th.pluginUniqueIdentifier = old.pluginUniqueIdentifier →
      (setThread th k ts).map (fun t => t.pluginUniqueIdentifier) =
        ts.map (fun t => t.pluginUniqueIdentifier) := by
  intro ts
  induction ts with
  | nil => intro k old h; simp at h
  | cons t ts ih =>
    intro k old h hid
    cases k with
    | zero => simp at h; subst h; simp [setThread, hid]
    | succ n => simp at h; simp [setThread, ih n old h hid]

/-- A worker of the list after an advance is the advanced one or one at another index. -/
theorem mem_setThread (th : WorkerThread) :
    ∀ (ts : List WorkerThread) (k : Nat) (old x : WorkerThread), ts[k]? = some old →
      x ∈ setThread th k ts → x = th ∨ ∃ j, j ≠ k ∧ ts[j]? = some x := by
  intro ts k old x hk hx
  obtain ⟨j, hj⟩ := List.getElem?_of_mem hx
  rw [setThread_getElem? th ts k j old hk] at hj
  by_cases hjk : j = k
  · simp [hjk] at hj; exact Or.inl hj.symm
  · simp [hjk] at hj; exact Or.inr ⟨j, hjk, hj⟩

/-- Two positions of a list whose images are distinct hold different images. -/
theorem index_eq_of_nodup_map {α β : Type} (f : α → β) (l : List α) (i j : Nat) (a b : α)
    (hnd : (l.map f).Nodup) (hi : l[i]? = some a) (hj : l[j]? = some b) (hab : f a = f b) :
    i = j := by
  have hlt : i < (l.map f).length := by
    have := (List.getElem?_eq_some.1 hi).1
    simpa using this
  apply List.getElem?_inj hlt hnd
  simp [List.getElem?_map, hi, hj, hab]

/-- The slots after a modifier ran. -/
theorem Modifier.apply_Plugins (m : Modifier) (task : InstallTask) (idx : Nat) :
    (m.apply task idx).Plugins = modifySlot m.onPlugin idx task.Plugins := by
  cases m with
  | running => rfl
  | failed _ => rfl
  | success => simp only [Modifier.apply, Modifier.onTask]; split <;> rfl

/-- No modifier changes `TotalPlugins`. -/
theorem Modifier.apply_TotalPlugins (m : Modifier) (task : InstallTask) (idx : Nat) :
    (m.apply task idx).TotalPlugins = task.TotalPlugins := by
  cases m with
  | running => rfl
  | failed _ => rfl
  | success => simp only [Modifier.apply, Modifier.onTask]; split <;> rfl

/-- Only the success modifier increments `CompletedPlugins`. -/
theorem Modifier.apply_CompletedPlugins (m : Modifier) (task : InstallTask) (idx : Nat) :
    (m.apply task idx).CompletedPlugins =
      task.CompletedPlugins + (if m = .success then 1 else 0) := by
  cases m with
  | running => rfl
  | failed _ => simp [Modifier.apply, Modifier.onTask]
  | success => simp only [Modifier.apply, Modifier.onTask]; split <;> simp

/-- The updates left after one update keep the shape. -/
theorem successLast_tail (m : Modifier) (later : List Modifier)
    (h : successLast (m :: later)) : successLast later := h.2

/-- One `updateTaskStatus` of a worker keeps the store consistent. -/
theorem TaskStore.Consistent.tick (s : TaskStore) (t : Tick) (h : s.Consistent) :
    (s.tick t).Consistent := by
  obtain ⟨hnd, hlast, hrow⟩ := h
  cases hth : s.threads[t.worker]? with
  | none => simp only [TaskStore.tick, hth]; exact ⟨hnd, hlast, hrow⟩
  | some th =>
    have hthmem : th ∈ s.threads := List.getElem?_mem hth
    cases hrem : th.remaining with
    | nil => simp only [TaskStore.tick, hth, hrem]; exact ⟨hnd, hlast, hrow⟩
    | cons m later =>
      simp only [TaskStore.tick, hth, hrem]
      have hsl : successLast (m :: later) := hrem ▸ hlast th hthmem
      -- the threads after the step
      have hids : (setThread { th with remaining := later } t.worker s.threads).map
          (fun x => x.pluginUniqueIdentifier) =
          s.threads.map (fun x => x.pluginUniqueIdentifier) :=
        setThread_map_identifier _ s.threads t.worker th hth rfl
      have hmem : ∀ x ∈ setThread { th with remaining := later } t.worker s.threads,
          x = { th with remaining := later } ∨
            (x ∈ s.threads ∧ x.pluginUniqueIdentifier ≠ th.pluginUniqueIdentifier) := by
        intro x hx
        rcases mem_setThread _ s.threads t.worker th x hth hx with hx | ⟨j, hjk, hj⟩
        · exact Or.inl hx
        · refine Or.inr ⟨List.getElem?_mem hj, fun hid => hjk ?_⟩
          exact index_eq_of_nodup_map _ s.threads j t.worker x th hnd hj hth hid
      refine ⟨by rw [hids]; exact hnd, ?_, ?_⟩
      · intro x hx
        rcases hmem x hx with hx | ⟨hx, _⟩
        · subst hx; exact hsl.2
        · exact hlast x hx
      · intro task' hstored
        -- an update that leaves the row as it was
        have hkeep : ∀ task, s.row = some task → task' = task →
            task'.TotalPlugins = task'.Plugins.length ∧
            task'.CompletedPlugins = countSuccesses task'.Plugins ∧
            (task'.Status = .success → countSuccesses task'.Plugins = task'.Plugins.length) ∧
            ∀ x ∈ setThread { th with remaining := later } t.worker s.threads,
              ∀ idx slot, x.remaining ≠ [] →
              findSlot x.pluginUniqueIdentifier task'.Plugins = some idx →
              task'.Plugins[idx]? = some slot → slot.Status ≠ .success := by
          intro task htask heq
          subst heq
          obtain ⟨ha, hb, hc, hd⟩ := hrow task' htask
          refine ⟨ha, hb, hc, ?_⟩
          intro x hx idx slot hne hfind hslot
          rcases hmem x hx with hx | ⟨hx, _⟩
          · subst hx
            exact hd th hthmem idx slot (by simp [hrem]) hfind hslot
          · exact hd x hx idx slot hne hfind hslot
        cases hr : s.row with
        | none => simp [updateTaskStatus, hr] at hstored
        | some task =>
          obtain ⟨ha, hb, hc, hd⟩ := hrow task hr
          by_cases hcommit : t.commit = true
          · cases hfind : findSlot th.pluginUniqueIdentifier task.Plugins with
            | none =>
              simp [updateTaskStatus, hr, hcommit, hfind] at hstored
              exact hkeep task hr hstored.symm
            | some idx =>
              obtain ⟨slot, hslot, hslotid⟩ := findSlot_some _ _ _ hfind
              have hns : slot.Status ≠ .success :=
                hd th hthmem idx slot (by simp [hrem]) hfind hslot
              have hcount := countSuccesses_modifySlot m.onPlugin task.Plugins idx slot hslot hns
              have hlen := modifySlot_length m.onPlugin idx task.Plugins
              have hnotall : countSuccesses task.Plugins ≠ task.Plugins.length :=
                Nat.ne_of_lt (countSuccesses_lt_of_slot _ idx slot hslot hns)
              have hstatus : task.Status ≠ .success := fun hs => hnotall (hc hs)
              -- the slots of the workers after the update
              have hthreads : ∀ x ∈ setThread { th with remaining := later } t.worker s.threads,
                  ∀ idx' slot', x.remaining ≠ [] →
                  findSlot x.pluginUniqueIdentifier (modifySlot m.onPlugin idx task.Plugins) =
                    some idx' →
                  (modifySlot m.onPlugin idx task.Plugins)[idx']? = some slot' →
                  slot'.Status ≠ .success := by
                intro x hx idx' slot' hne hfind' hslot'
                rw [findSlot_modifySlot _ _ m.onPlugin_identifier] at hfind'
                rcases hmem x hx with hx | ⟨hx, hxid⟩
                · subst hx
                  simp only at hfind' hne
                  rw [hfind] at hfind'
                  cases hfind'
                  rw [modifySlot_getElem?_same _ _ _ _ hslot] at hslot'
                  cases hslot'
                  have hm : m ≠ .success := fun hm => hne (hsl.1 hm)
                  cases m <;> simp [Modifier.onPlugin] at hm ⊢
                · obtain ⟨slot0, hslot0, hid0⟩ := findSlot_some _ _ _ hfind'
                  have hidx : idx ≠ idx' := by
                    intro hidx
                    subst hidx
                    rw [hslot] at hslot0
                    cases hslot0
                    exact hxid (hid0.symm.trans hslotid)
                  rw [modifySlot_getElem?_ne _ _ _ _ hidx] at hslot'
                  exact hd x hx idx' slot' hne hfind' hslot'
              simp only [updateTaskStatus, hr, hcommit, hfind, if_true] at hstored
              split at hstored
              · rename_i hall
                simp only [Option.some.injEq] at hstored
                subst hstored
                have hP := Modifier.apply_Plugins m task idx
                have hT := Modifier.apply_TotalPlugins m task idx
                have hC := Modifier.apply_CompletedPlugins m task idx
                refine ⟨?_, ?_, fun _ => ?_, ?_⟩
                · simp only [hT, hP, hlen, ha]
                · simp only [hC, hP, hcount, hb]
                  cases m <;> simp [Modifier.onPlugin]
                · exact hall
                · simp only [hP]; exact hthreads
              · rename_i hall
                simp only [Option.some.injEq] at hstored
                subst hstored
                have hP := Modifier.apply_Plugins m task idx
                have hT := Modifier.apply_TotalPlugins m task idx
                have hC := Modifier.apply_CompletedPlugins m task idx
                refine ⟨?_, ?_, fun hs => ?_, ?_⟩
                · simp only [hT, hP, hlen, ha]
                · simp only [hC, hP, hcount, hb]
                  cases m <;> simp [Modifier.onPlugin]
                · exfalso
                  cases m with
                  | running => exact hstatus (by simpa [Modifier.apply, Modifier.onTask] using hs)
                  | failed msg => simp [Modifier.apply, Modifier.onTask] at hs
                  | success =>
                    apply hall
                    rw [hP, hlen, hcount]
                    simp only [Modifier.onPlugin, if_true]
                    by_cases hfull : task.CompletedPlugins + 1 = task.TotalPlugins
                    · omega
                    · exfalso
                      apply hstatus
                      simpa [Modifier.apply, Modifier.onTask, hfull] using hs
                · simp only [hP]; exact hthreads
          · simp [updateTaskStatus, hr, hcommit] at hstored
            exact hkeep task hr hstored.symm

/-- Every schedule keeps the store consistent. -/
theorem TaskStore.Consistent.run (schedule : List Tick) :
    ∀ s : TaskStore, s.Consistent → (s.run schedule).Consistent := by
  induction schedule with
  | nil => intro s h; exact h
  | cons t rest ih =>
    intro s h
    exact ih (s.tick t) (h.tick s t)

/-- When the first loop runs to its end, none of its steps failed. -/
theorem preflightLoop_steps_of_not_aborted (sv : InstallServices) (rt : PluginRuntimeType)
    (metas : List MetaMap) (onDone : InstallPluginOnDoneHandler) :
    ∀ (rest : List String) (i : Nat) (st : PreflightState),
      (preflightLoop sv rt metas onDone i rest st).aborted = none →
      ∀ x ∈ rest.enumFrom i, ∃ d,
        sv.CombinedGetPluginDeclaration x.1 x.2 rt = .ok d ∧
        (sv.GetOnePlugin x.1 x.2 = .notFound ∨
          (sv.GetOnePlugin x.1 x.2 = .found ∧
            ∃ m, metas[x.1]? = some m ∧ onDone x.1 x.2 d m = none)) := by
  intro rest
  induction rest with
  | nil => intro i st _ x hx; simp at hx
  | cons a rest ih =>
    intro i st h x hx
    simp only [List.enumFrom_cons, List.mem_cons] at hx
    unfold preflightLoop at h
    cases hd : sv.CombinedGetPluginDeclaration i a rt with
    | error err => simp [hd] at h
    | ok d =>
      simp only [hd] at h
      cases hg : sv.GetOnePlugin i a with
      | failed err => simp [hg] at h
      | notFound =>
        simp only [hg] at h
        rcases hx with hx | hx
        · subst hx; exact ⟨d, hd, Or.inl hg⟩
        · exact ih _ _ h x hx
      | found =>
        simp only [hg] at h
        cases hm : metas[i]? with
        | none => simp [hm] at h
        | some m =>
          simp only [hm] at h
          cases ho : onDone i a d m with
          | some err => simp [ho] at h
          | none =>
            simp only [ho] at h
            rcases hx with hx | hx
            · subst hx; exact ⟨d, hd, Or.inr ⟨hg, m, hm, ho⟩⟩
            · exact ih _ _ h x hx

/-- The workers built are those of the waiting identifiers, in order. -/
theorem buildWorkers_ok_identifiers (sv : InstallServices) (config : Config)
    (rt : PluginRuntimeType) (source : String) (metas : List MetaMap) (taskID : String)
    (calls : Nat) :
    ∀ (rest : List String) (i : Nat) (tasks built : List InstallWorker),
      buildWorkers sv config rt source metas taskID calls i rest tasks = .ok built →
      built.map (fun w => w.pluginUniqueIdentifier) =
        tasks.map (fun w => w.pluginUniqueIdentifier) ++ rest := by
  intro rest
  induction rest with
  | nil => intro i tasks built h; simp [buildWorkers] at h; subst h; simp
  | cons a rest ih =>
    intro i tasks built h
    unfold buildWorkers at h
    cases hd : sv.CombinedGetPluginDeclaration (calls + i) a rt with
    | error err => simp [hd] at h
    | ok d =>
      simp only [hd] at h
      rw [ih _ _ _ h]; simp

/-- The stream loop and what follows it make exactly one update. -/
theorem consumeStream_updates (onDone : InstallPluginOnDoneHandler) (w : InstallWorker)
    (meta : MetaMap) :
    ∀ (stream : List StreamRead) (k : Nat) (run : WorkerRun),
      ∃ m, (consumeStream onDone w meta k stream run).updates = run.updates ++ [m] := by
  intro stream
  induction stream with
  | nil => intro k run; exact ⟨.success, rfl⟩
  | cons r rest ih =>
    intro k run
    unfold consumeStream
    cases r with
    | error err => exact ⟨.failed err, rfl⟩
    | ok message =>
      simp only
      split
      · exact ⟨.failed message.Data, rfl⟩
      · split
        · split
          · exact ⟨_, rfl⟩
          · exact ih _ _
        · exact ih _ _

/-- A worker makes the running update, then at most one more. -/
theorem runWorker_updates (mgr : ManagerServices) (onDone : InstallPluginOnDoneHandler)
    (w : InstallWorker) :
    (runWorker mgr onDone w).updates = [.running] ∨
      ∃ m, (runWorker mgr onDone w).updates = [.running, m] := by
  unfold runWorker
  cases startInstall mgr w with
  | failed message => exact Or.inr ⟨.failed message, rfl⟩
  | panicked => exact Or.inl rfl
  | called meta r =>
    cases r with
    | error err => exact Or.inr ⟨.failed err, rfl⟩
    | ok stream =>
      obtain ⟨m, hm⟩ := consumeStream_updates onDone w meta stream 0
        { updates := [.running], consumed := 0, onDoneCalls := [],
          installerMetas := [] ++ [meta], panicked := false }
      exact Or.inr ⟨m, hm⟩

/-- A success update of a worker is its last one. -/
theorem runWorker_successLast (mgr : ManagerServices) (onDone : InstallPluginOnDoneHandler)
    (w : InstallWorker) : successLast (runWorker mgr onDone w).updates := by
  rcases runWorker_updates mgr onDone w with h | ⟨m, h⟩
  · rw [h]; simp [successLast]
  · rw [h]; simp [successLast]

/-- The slot left at a position carries the identifier of that position. -/
theorem preflightSlot_identifier (sv : InstallServices) (rt : PluginRuntimeType) (i : Nat)
    (id : String) : (preflightSlot sv rt i id).PluginUniqueIdentifier = id := by
  unfold preflightSlot
  split
  · split <;> rfl
  · rfl

/-- The first loop leaves as many success slots as it found installed plugins. -/
theorem countSuccesses_preflightSlots (sv : InstallServices) (rt : PluginRuntimeType) :
    ∀ l : List (Nat × String),
      (∀ x ∈ l, ∃ d, sv.CombinedGetPluginDeclaration x.1 x.2 rt = .ok d ∧
        (sv.GetOnePlugin x.1 x.2 = .notFound ∨ sv.GetOnePlugin x.1 x.2 = .found)) →
      countSuccesses (l.map fun x => preflightSlot sv rt x.1 x.2) =
        (l.filter fun x => sv.GetOnePlugin x.1 x.2 = .found).length := by
  intro l
  induction l with
  | nil => intro _; rfl
  | cons x l ih =>
    intro h
    obtain ⟨d, hd, hcase⟩ := h x (by simp)
    have := ih (fun y hy => h y (by simp [hy]))
    rcases hcase with hnf | hf
    · have hs : (preflightSlot sv rt x.1 x.2).Status = .pending := by
        simp [preflightSlot, hd, hnf, pendingSlot]
      simp only [List.map_cons, countSuccesses, hs, List.filter_cons, hnf]
      simpa using this
    · have hs : (preflightSlot sv rt x.1 x.2).Status = .success := by
        simp [preflightSlot, hd, hf]
      simp only [List.map_cons, countSuccesses, hs, List.filter_cons, hf]
      simpa using this

/-- The waiting list is a sublist of the request. -/
theorem waitingIdentifiers_sublist (sv : InstallServices) (ids : List String) :
    List.Sublist (waitingIdentifiers sv ids) ids := by
  have h : List.Sublist
      ((ids.enum.filter fun x => sv.GetOnePlugin x.1 x.2 = .notFound).map Prod.snd)
      (ids.enum.map Prod.snd) := (List.filter_sublist _).map _
  rw [List.enum_map_snd] at h
  exact h

/-- A waiting identifier stands at a position of the request whose plugin-row lookup
answered not-found. -/
theorem mem_waitingIdentifiers (sv : InstallServices) (ids : List String) (id : String)
    (h : id ∈ waitingIdentifiers sv ids) :
    ∃ j, ids[j]? = some id ∧ sv.GetOnePlugin j id = .notFound := by
  simp only [waitingIdentifiers, List.mem_map, List.mem_filter] at h
  obtain ⟨⟨j, id'⟩, ⟨hmem, hnf⟩, hid⟩ := h
  simp only at hid
  subst hid
  exact ⟨j, List.mk_mem_enum_iff_getElem?.1 hmem, by simpa using hnf⟩

/-- What a request leaves behind: either no task row and no worker, or the row of
the task built by a first loop without failure, with the workers of the waiting
identifiers or, when a declaration lookup failed while they were built, none. -/
theorem install_outcome (sv : InstallServices) (config : Config) (tenant_id : String)
    (ids : List String) (source : String) (metas : List MetaMap)
    (onDone : InstallPluginOnDoneHandler) :
    ((InstallPluginRuntimeToTenant sv config tenant_id ids source metas onDone).createdTasks = [] ∧
      (InstallPluginRuntimeToTenant sv config tenant_id ids source metas onDone).submitted = []) ∨
    ∃ rt tid,
      (∀ i id, ids[i]? = some id → ∃ d,
        sv.CombinedGetPluginDeclaration i id rt = .ok d ∧
        (sv.GetOnePlugin i id = .notFound ∨
          (sv.GetOnePlugin i id = .found ∧ ∃ m, metas[i]? = some m ∧ onDone i id d m = none))) ∧
      (InstallPluginRuntimeToTenant sv config tenant_id ids source metas onDone).createdTasks =
        [{ preflightTask sv rt tenant_id ids with ID := tid }] ∧
      ((InstallPluginRuntimeToTenant sv config tenant_id ids source metas onDone).submitted = [] ∨
        (InstallPluginRuntimeToTenant sv config tenant_id ids source metas onDone).submitted.map
          (fun w => w.pluginUniqueIdentifier) = waitingIdentifiers sv ids) := by
  unfold InstallPluginRuntimeToTenant
  cases hplat : platformRuntimeType config with
  | error err => exact Or.inl ⟨rfl, rfl⟩
  | ok rt =>
    simp only
    unfold installWithRuntimeType
    simp only
    cases hab : (preflightLoop sv rt metas onDone 0 ids
      { task :=
          { ID := "", Status := .running, TenantID := tenant_id, TotalPlugins := ids.length
            CompletedPlugins := 0, Plugins := [] }
        pluginsWaitForInstallation := [], onDoneCalls := [] }).aborted with
    | some r => exact Or.inl ⟨rfl, rfl⟩
    | none =>
      have hsteps : ∀ i id, ids[i]? = some id → ∃ d,
          sv.CombinedGetPluginDeclaration i id rt = .ok d ∧
          (sv.GetOnePlugin i id = .notFound ∨
            (sv.GetOnePlugin i id = .found ∧
              ∃ m, metas[i]? = some m ∧ onDone i id d m = none)) := by
        intro i id hi
        exact preflightLoop_steps_of_not_aborted sv rt metas onDone ids 0 _ hab (i, id)
          (List.mk_mem_enum_iff_getElem?.2 hi)
      obtain ⟨_, h2, h3, _⟩ := preflightLoop_closed_form sv rt tenant_id ids metas onDone hsteps
      simp only [h2, h3]
      split
      · exact Or.inl ⟨rfl, rfl⟩
      · cases hc : sv.Create (preflightTask sv rt tenant_id ids) with
        | error err => exact Or.inl ⟨rfl, rfl⟩
        | ok tid =>
          simp only
          cases hb : buildWorkers sv config rt source metas tid ids.length 0
              (waitingIdentifiers sv ids) [] with
          | error err => exact Or.inr ⟨rt, tid, hsteps, rfl, Or.inl rfl⟩
          | ok built =>
            refine Or.inr ⟨rt, tid, hsteps, rfl, Or.inr ?_⟩
            simpa using buildWorkers_ok_identifiers sv config rt source metas tid ids.length
              (waitingIdentifiers sv ids) 0 [] built hb

/-- A request of pairwise distinct identifiers leaves a consistent store. -/
theorem storeAfterInstall_start_consistent (sv : InstallServices) (mgr : ManagerServices)
    (config : Config) (tenant_id : String) (ids : List String) (source : String)
    (metas : List MetaMap) (onDone : InstallPluginOnDoneHandler) (hnodup : ids.Nodup) :
    TaskStore.Consistent
      { row := (InstallPluginRuntimeToTenant sv config tenant_id ids source metas
          onDone).createdTasks.head?
        threads := startWorkers mgr onDone
          (InstallPluginRuntimeToTenant sv config tenant_id ids source metas onDone).submitted
        timers := 0 } := by
  have hlast : ∀ (ws : List InstallWorker), ∀ th ∈ startWorkers mgr onDone ws,
      successLast th.remaining := by
    intro ws th hth
    simp only [startWorkers, List.mem_map] at hth
    obtain ⟨w, _, hw⟩ := hth
    subst hw
    exact runWorker_successLast mgr onDone w
  have hidmap : ∀ (ws : List InstallWorker),
      (startWorkers mgr onDone ws).map (fun th => th.pluginUniqueIdentifier) =
        ws.map (fun w => w.pluginUniqueIdentifier) := by
    intro ws; simp [startWorkers]
  rcases install_outcome sv config tenant_id ids source metas onDone with
    ⟨hc, hs⟩ | ⟨rt, tid, hsteps, hc, hs⟩
  · rw [hc, hs]
    exact ⟨by simp [startWorkers], by simp [startWorkers], by simp⟩
  · rw [hc]
    refine ⟨?_, hlast _, ?_⟩
    · rw [hidmap]
      rcases hs with hs | hs
      · rw [hs]; simp
      · rw [hs]; exact (waitingIdentifiers_sublist sv ids).nodup hnodup
    · intro task htask
      simp only [List.head?_cons, Option.some.injEq] at htask
      subst htask
      refine ⟨by simp [preflightTask], ?_, by simp [preflightTask], ?_⟩
      · simp only [preflightTask, installedCount]
        rw [countSuccesses_preflightSlots]
        intro x hx
        obtain ⟨d, hd, hcase⟩ := hsteps x.1 x.2 (List.mk_mem_enum_iff_getElem?.1 hx)
        exact ⟨d, hd, hcase.imp id (fun h => h.1)⟩
      · intro th hth idx slot _ hfind hslot
        have hthid : th.pluginUniqueIdentifier ∈ waitingIdentifiers sv ids := by
          have : th.pluginUniqueIdentifier ∈
              (startWorkers mgr onDone (InstallPluginRuntimeToTenant sv config tenant_id ids
                source metas onDone).submitted).map (fun th => th.pluginUniqueIdentifier) :=
            List.mem_map_of_mem _ hth
          rw [hidmap] at this
          rcases hs with hs | hs
          · rw [hs] at this; simp at this
          · rwa [hs] at this
        obtain ⟨j, hj, hnf⟩ := mem_waitingIdentifiers sv ids _ hthid
        obtain ⟨slot0, hslot0, hid0⟩ := findSlot_some _ _ _ hfind
        rw [hslot] at hslot0
        cases hslot0
        simp only [preflightTask, List.getElem?_map] at hslot
        cases hen : ids.enum[idx]? with
        | none => simp [hen] at hslot
        | some x =>
          simp only [hen, Option.map_some', Option.some.injEq] at hslot
          have hx : ids[idx]? = some x.2 ∧ x.1 = idx := by
            have := List.getElem?_enumFrom 0 ids idx
            rw [List.enum, this] at hen
            cases hi : ids[idx]? with
            | none => simp [hi] at hen
            | some a => simp [hi] at hen; subst hen; simp
          have hxid : x.2 = th.pluginUniqueIdentifier := by
            rw [← hid0, ← hslot, preflightSlot_identifier]
          have hidx : idx = j := by
            apply List.getElem?_inj (List.getElem?_eq_some.1 hx.1).1 hnodup
            rw [hx.1, hj, hxid]
          subst hslot
          obtain ⟨d, hd, _⟩ := hsteps j _ hj
          rw [hx.2, hidx, hxid]
          simp [preflightSlot, hd, hnf, pendingSlot]

/-- The task aggregate invariant holds for requests of pairwise distinct identifiers:
after any schedule of worker updates, failed transactions included, the stored
task has `completed_plugins` equal to the number of success slots, and status
success only when every slot is a success. -/
theorem distinct_identifiers_keep_task_invariant (sv : InstallServices)
    (mgr : ManagerServices) (config : Config) (tenant_id : String) (ids : List String)
    (source : String) (metas : List MetaMap) (onDone : InstallPluginOnDoneHandler)
    (schedule : List Tick) (task : InstallTask) (hnodup : ids.Nodup)
    (hrow : (storeAfterInstall sv mgr config tenant_id ids source metas onDone schedule).row =
      some task) :
    task.CompletedPlugins = countSuccesses task.Plugins ∧
    (task.Status = .success → ∀ p ∈ task.Plugins, p.Status = .success) := by
  have h := TaskStore.Consistent.run schedule _
    (storeAfterInstall_start_consistent sv mgr config tenant_id ids source metas onDone hnodup)
  obtain ⟨_, hb, hc, _⟩ := h.2.2 task hrow
  exact ⟨hb, fun hs => countSuccesses_eq_length _ (hc hs)⟩

/-- The only error return of `InstallPluginRuntimeToTenant` that leaves a task row is
the failure of a declaration lookup made while the workers are built, after a
successful `db.Create`. -/
theorem error_return_with_task_row (sv : InstallServices) (config : Config)
    (tenant_id : String) (ids : List String) (source : String) (metas : List MetaMap)
    (onDone : InstallPluginOnDoneHandler) (err : String)
    (hres : (InstallPluginRuntimeToTenant sv config tenant_id ids source metas onDone).result =
      .error err)
    (hrow : (InstallPluginRuntimeToTenant sv config tenant_id ids source metas
      onDone).createdTasks ≠ []) :
    ∃ rt tid, platformRuntimeType config = .ok rt ∧
      sv.Create (preflightTask sv rt tenant_id ids) = .ok tid ∧
      buildWorkers sv config rt source metas tid ids.length 0 (waitingIdentifiers sv ids) [] =
        .error err := by
  unfold InstallPluginRuntimeToTenant at hres hrow
  cases hplat : platformRuntimeType config with
  | error e => simp [hplat] at hrow
  | ok rt =>
    simp only [hplat] at hres hrow
    unfold installWithRuntimeType at hres hrow
    simp only at hres hrow
    cases hab : (preflightLoop sv rt metas onDone 0 ids
      { task :=
          { ID := "", Status := .running, TenantID := tenant_id, TotalPlugins := ids.length
            CompletedPlugins := 0, Plugins := [] }
        pluginsWaitForInstallation := [], onDoneCalls := [] }).aborted with
    | some r => simp [hab] at hrow
    | none =>
      have hsteps : ∀ i id, ids[i]? = some id → ∃ d,
          sv.CombinedGetPluginDeclaration i id rt = .ok d ∧
          (sv.GetOnePlugin i id = .notFound ∨
            (sv.GetOnePlugin i id = .found ∧
              ∃ m, metas[i]? = some m ∧ onDone i id d m = none)) := by
        intro i id hi
        exact preflightLoop_steps_of_not_aborted sv rt metas onDone ids 0 _ hab (i, id)
          (List.mk_mem_enum_iff_getElem?.2 hi)
      obtain ⟨_, h2, h3, _⟩ := preflightLoop_closed_form sv rt tenant_id ids metas onDone hsteps
      simp only [hab, h2, h3] at hres hrow
      split at hrow
      · simp at hrow
      · rename_i hne
        simp only [hne, if_false] at hres
        cases hc : sv.Create (preflightTask sv rt tenant_id ids) with
        | error e => simp [hc] at hrow
        | ok tid =>
          simp only [hc] at hres
          cases hb : buildWorkers sv config rt source metas tid ids.length 0
              (waitingIdentifiers sv ids) [] with
          | ok built => simp [hb] at hres
          | error e =>
            simp only [hb, CallResult.error.injEq] at hres
            subst hres
            exact ⟨rt, tid, rfl, hc, hb⟩

/-! ## Evaluations of the code on concrete requests -/

/-- C1: a request naming the same identifier twice (`["p", "p"]`, not installed).
Both workers update the first slot, so after both have finished the stored task
has `completed_plugins = 2` while only one slot has status success. -/
theorem C1_duplicate_identifier_overcounts :
    ((storeAfterInstall nothingInstalled installsSucceed localConfig "tenant"
        ["p", "p"] "marketplace" [[], []] onDoneOk oneAfterTheOther).row.map
      fun task => (task.CompletedPlugins, countSuccesses task.Plugins)) = some (2, 1) := by
  decide

/-- C2: on the same request the stored task has status success while its second
slot is still pending, and no deletion timer was armed. -/
theorem C2_duplicate_identifier_success_with_pending_slot :
    (storeAfterInstall nothingInstalled installsSucceed localConfig "tenant"
        ["p", "p"] "marketplace" [[], []] onDoneOk oneAfterTheOther).timers = 0 ∧
    ((storeAfterInstall nothingInstalled installsSucceed localConfig "tenant"
        ["p", "p"] "marketplace" [[], []] onDoneOk oneAfterTheOther).row.map
      fun task => (task.Status, task.Plugins.map fun p => p.Status)) =
      some (.success, [.success, .pending]) := by
  decide

/-- C5: request `["p1", "p2"]` with metas `[m1, m2]`, `p1` already installed.
The only worker is the one of `p2`; it captured index 0 of the waiting list, and
hands `m1`, not `m2`, to the installer and to `on_done`. -/
theorem C5_worker_takes_meta_of_waiting_index :
    (InstallPluginRuntimeToTenant firstInstalled localConfig "tenant" ["p1", "p2"]
        "marketplace" [[("k", "m1")], [("k", "m2")]] onDoneOk).submitted.map
      (fun w => (w.pluginUniqueIdentifier, (runWorker installsSucceed onDoneOk w).installerMetas,
        (runWorker installsSucceed onDoneOk w).onDoneCalls.map fun c => c.meta)) =
      [("p2", [[("k", "m1")]], [[("k", "m1")]])] := by
  decide

/-- C6: request `["p"]`, not installed, the declaration lookup succeeding in the
first loop and failing when the worker is built.  The function returns the error
after the task row was inserted, and submits no worker. -/
theorem C6_error_return_after_task_row :
    (InstallPluginRuntimeToTenant declarationLostAfterPreflight localConfig "tenant" ["p"]
        "marketplace" [[]] onDoneOk).result = .error "plugin declaration not found" ∧
    (InstallPluginRuntimeToTenant declarationLostAfterPreflight localConfig "tenant" ["p"]
        "marketplace" [[]] onDoneOk).createdTasks.map (fun task => task.ID) = ["task-1"] ∧
    (InstallPluginRuntimeToTenant declarationLostAfterPreflight localConfig "tenant" ["p"]
        "marketplace" [[]] onDoneOk).submitted = [] := by
  decide

/-- When the task insert fails the request returns that error and leaves no row. -/
theorem failed_task_insert_returns_error :
    (InstallPluginRuntimeToTenant createFails localConfig "tenant" ["p"]
        "marketplace" [[]] onDoneOk).result = .error "database is locked" ∧
    (InstallPluginRuntimeToTenant createFails localConfig "tenant" ["p"]
        "marketplace" [[]] onDoneOk).createdTasks = [] := by
  decide

/-! ## The decoder helper -/

/-- Reading a map after an assignment. -/
theorem GoMap.get?_set {V : Type} (m : GoMap V) (key : String) (value : V) (k : String) :
    (m.set key value).get? k = if key = k then some value else m.get? k := by
  induction m with
  | nil => simp [GoMap.set, GoMap.get?]
  | cons kv rest ih =>
    obtain ⟨k0, v0⟩ := kv
    by_cases h0 : k0 = key
    · subst h0
      by_cases hk : k0 = k <;> simp [GoMap.set, GoMap.get?, hk]
    · by_cases hk : k0 = k
      · subst hk
        simp [GoMap.set, GoMap.get?, h0, Ne.symm h0]
      · simp [GoMap.set, GoMap.get?, h0, hk, ih]

/-- A key is in the key set exactly when the lookup finds a value. -/
theorem GoMap.mem_keys_iff {V : Type} (m : GoMap V) (k : String) :
    k ∈ m.keys ↔ ∃ v, m.get? k = some v := by
  induction m with
  | nil => simp [GoMap.keys, GoMap.get?]
  | cons kv rest ih =>
    obtain ⟨k0, v0⟩ := kv
    by_cases hk : k0 = k
    · subst hk; simp [GoMap.keys, GoMap.get?]
    · have ih' : k ∈ List.map Prod.fst rest ↔ ∃ v, GoMap.get? rest k = some v := ih
      simp [GoMap.keys, GoMap.get?, hk, Ne.symm hk, ih']

/-- The key set after an assignment. -/
theorem GoMap.keys_set {V : Type} (m : GoMap V) (key : String) (value : V) (k : String) :
    k ∈ (m.set key value).keys ↔ k = key ∨ k ∈ m.keys := by
  rw [GoMap.mem_keys_iff, GoMap.mem_keys_iff]
  simp only [GoMap.get?_set]
  by_cases h : key = k
  · subst h; simp
  · simp [h, Ne.symm h]

/-- An assignment keeps one binding per key. -/
theorem GoMap.keys_set_nodup {V : Type} (m : GoMap V) (key : String) (value : V)
    (h : m.keys.Nodup) : (m.set key value).keys.Nodup := by
  induction m with
  | nil => simp [GoMap.set, GoMap.keys]
  | cons kv rest ih =>
    obtain ⟨k0, v0⟩ := kv
    have h' : k0 ∉ GoMap.keys rest ∧ (GoMap.keys rest).Nodup := by
      simpa [GoMap.keys] using h
    by_cases h0 : k0 = key
    · subst h0
      simpa [GoMap.set, GoMap.keys] using h
    · have hnot : k0 ∉ (GoMap.set rest key value).keys := by
        rw [GoMap.keys_set]
        intro hc
        rcases hc with hc | hc
        · exact h0 hc
        · exact h'.1 hc
      have := ih h'.2
      simp only [GoMap.set, if_neg h0]
      exact List.nodup_cons.2 ⟨hnot, this⟩

/-- Cutting the leading `pre` off a string that starts with it leaves `key` exactly
when the string is `pre ++ key`. -/
theorem CutPrefix_eq_iff (s pre key : String) (h : HasPrefix s pre = true) :
    (CutPrefix s pre).1 = key ↔ s = pre ++ key := by
  have hp : pre.data ++ s.data.drop pre.data.length = s.data := by
    have : pre.data <+: s.data := by simpa [HasPrefix] using h
    exact List.prefix_iff_eq_append.1 this
  simp only [CutPrefix, h, if_true]
  constructor
  · intro hk
    apply String.ext
    rw [String.data_append, ← hk, hp]
  · intro hs
    apply String.ext
    have : s.data = pre.data ++ key.data := by rw [hs, String.data_append]
    simp [this]

/-- The loop of `Assets` on readable files that carry the `_assets` prefix: it ends
without error, and the map binds `key` to the content of `_assets<sep>key` for the
listed files and keeps the earlier bindings of the other keys. -/
theorem assetsLoop_spec (decoder : PluginDecoder) (separator : String) :
    ∀ (files : List String) (m : GoMap Bytes),
      (∀ f ∈ files, HasPrefix f ("_assets" ++ separator) = true) →
      (∀ f ∈ files, ∃ content, decoder.ReadFile f = .ok content) →
      m.keys.Nodup →
      ∃ out, assetsLoop decoder separator files m = .ok out ∧ out.keys.Nodup ∧
        ∀ key content, out.get? key = some content ↔
          (("_assets" ++ separator ++ key) ∈ files ∧
            decoder.ReadFile ("_assets" ++ separator ++ key) = .ok content) ∨
          (("_assets" ++ separator ++ key) ∉ files ∧ m.get? key = some content) := by
  intro files
  induction files with
  | nil => intro m _ _ hm; exact ⟨m, rfl, hm, by simp⟩
  | cons f rest ih =>
    intro m hpre hread hm
    obtain ⟨c, hc⟩ := hread f (by simp)
    have hf := hpre f (by simp)
    obtain ⟨out, hout, hnd, hspec⟩ := ih (m.set (CutPrefix f ("_assets" ++ separator)).1 c)
      (fun g hg => hpre g (by simp [hg])) (fun g hg => hread g (by simp [hg]))
      (GoMap.keys_set_nodup m _ c hm)
    refine ⟨out, ?_, hnd, ?_⟩
    · simp only [assetsLoop, hc]; exact hout
    · intro key content
      have hiff := CutPrefix_eq_iff f _ key hf
      rw [hspec key content, GoMap.get?_set]
      by_cases hin : ("_assets" ++ separator ++ key) ∈ rest
      · simp [hin]
      · by_cases hfk : f = "_assets" ++ separator ++ key
        · have hcut := hiff.2 hfk
          rw [if_pos hcut, ← hfk, hc]
          simp [hfk ▸ hin]
        · have hcut : ¬ (CutPrefix f ("_assets" ++ separator)).1 = key := fun h => hfk (hiff.1 h)
          rw [if_neg hcut]
          simp [hin, hfk, Ne.symm hfk]

/-- C8 (asset remap): for every separator, so for `/` and for `\`, and every decoder
whose `ReadDir("_assets")` lists names that each start with `"_assets" + sep` and
are each readable, `Assets(decoder, sep)` returns a map, with one binding per key,
whose key set is exactly the listed names with that prefix removed (`key` is a key
exactly when `"_assets" + sep + key` is listed), each key bound to the bytes
`ReadFile` returns for the listed name.  The names need not even be distinct. -/
theorem C8_assets_remap (decoder : PluginDecoder) (separator : String) (files : List String)
    (hdir : decoder.ReadDir "_assets" = .ok files)
    (hpre : ∀ f ∈ files, HasPrefix f ("_assets" ++ separator) = true)
    (hread : ∀ f ∈ files, ∃ content, decoder.ReadFile f = .ok content) :
    ∃ assets, PluginDecoderHelper.Assets decoder separator = .ok assets ∧
      assets.keys.Nodup ∧
      (∀ key, key ∈ assets.keys ↔ ("_assets" ++ separator ++ key) ∈ files) ∧
      (∀ key content, assets.get? key = some content ↔
        ("_assets" ++ separator ++ key) ∈ files ∧
          decoder.ReadFile ("_assets" ++ separator ++ key) = .ok content) := by
  obtain ⟨out, hout, hnd, hspec⟩ := assetsLoop_spec decoder separator files [] hpre hread
    (by simp [GoMap.keys])
  have hval : ∀ key content, out.get? key = some content ↔
      ("_assets" ++ separator ++ key) ∈ files ∧
        decoder.ReadFile ("_assets" ++ separator ++ key) = .ok content := by
    intro key content
    rw [hspec key content]
    simp [GoMap.get?]
  refine ⟨out, ?_, hnd, ?_, hval⟩
  · simp only [PluginDecoderHelper.Assets, hdir]; exact hout
  · intro key
    rw [GoMap.mem_keys_iff]
    constructor
    · rintro ⟨v, hv⟩; exact ((hval key v).1 hv).1
    · intro hin
      obtain ⟨c, hc⟩ := hread _ hin
      exact ⟨c, (hval key c).2 ⟨hin, hc⟩⟩

/-- C8 at the Windows decoder of `helper_test.go`. -/
theorem C8_assets_remap_witness :
    ∃ assets, PluginDecoderHelper.Assets WindowsPluginDecoder "\\" = .ok assets ∧
      assets.keys.Nodup ∧
      (∀ key, key ∈ assets.keys ↔
        ("_assets" ++ "\\" ++ key) ∈ ["_assets\\test.txt", "_assets\\test2.txt"]) ∧
      (∀ key content, assets.get? key = some content ↔
        ("_assets" ++ "\\" ++ key) ∈ ["_assets\\test.txt", "_assets\\test2.txt"] ∧
          WindowsPluginDecoder.ReadFile ("_assets" ++ "\\" ++ key) = .ok content) :=
  C8_assets_remap WindowsPluginDecoder "\\" ["_assets\\test.txt", "_assets\\test2.txt"] rfl
    (by decide) (fun _ _ => ⟨[116, 101, 115, 116], rfl⟩)

/-- The test `TestRemapAssets`: both decoders of the test give the keys `test.txt` and
`test2.txt`, bound to the content `test`. -/
theorem Assets_of_helper_test :
    PluginDecoderHelper.Assets UnixPluginDecoder "/" =
      .ok [("test.txt", [116, 101, 115, 116]), ("test2.txt", [116, 101, 115, 116])] ∧
    PluginDecoderHelper.Assets WindowsPluginDecoder "\\" =
      .ok [("test.txt", [116, 101, 115, 116]), ("test2.txt", [116, 101, 115, 116])] :=
  ⟨rfl, rfl⟩

/-- The function `dropLeading` succeeds exactly on the strings that start with `pre`. -/
theorem dropLeading_eq_some (pre s r : List Char) :
    dropLeading pre s = some r ↔ s = pre ++ r := by
  induction pre generalizing s with
  | nil => simp [dropLeading, eq_comm]
  | cons p pre ih =>
    cases s with
    | nil => simp [dropLeading]
    | cons c s =>
      by_cases hpc : p = c
      · subst hpc; simp [dropLeading, ih]
      · simp [dropLeading, hpc, Ne.symm hpc]

/-- The matcher of `readmeRegexp` against the locale pattern of the specification:
`file` matches with group 1 equal to `locale` exactly when `file` is
`README_<locale>.md` and `locale` has the shape `^[a-z]{2}_[A-Za-z]{2,}$`. -/
theorem readmeRegexpFind_eq_some (file locale : String) :
    readmeRegexpFind file = some locale ↔
      file = "README_" ++ locale ++ ".md" ∧ matchesLocalePattern locale = true := by
  constructor
  · intro h
    unfold readmeRegexpFind at h
    split at h
    · simp at h
    · rename_i a b c rest hdrop
      split at h
      · rename_i hcls
        split at h
        · rename_i hrest
          simp only [Option.some.injEq] at h
          subst h
          have hdata := (dropLeading_eq_some _ _ _).1 hdrop
          have hsplit : rest = rest.takeWhile isLetter ++ ".md".data := by
            conv_lhs => rw [← List.takeWhile_append_dropWhile isLetter rest]
            rw [hrest.2]
          refine ⟨?_, ?_⟩
          · apply String.ext
            rw [hdata]
            conv_lhs => rw [hsplit]
            simp [String.data_append]
          · simp only [matchesLocalePattern]
            simp [hcls.1, hcls.2.1, hcls.2.2, hrest.1]
        · simp at h
      · simp at h
    · simp at h
  · rintro ⟨hfile, hloc⟩
    unfold matchesLocalePattern at hloc
    split at hloc
    · rename_i a b c region hdata
      simp only [Bool.and_eq_true, decide_eq_true_eq, List.all_eq_true] at hloc
      obtain ⟨⟨⟨⟨ha, hb⟩, hc⟩, hlen⟩, hall⟩ := hloc
      have hdrop : dropLeading "README_".data file.data =
          some (a :: b :: c :: (region ++ ".md".data)) := by
        rw [dropLeading_eq_some, hfile]
        simp [String.data_append, hdata]
      have htake : (region ++ ".md".data).takeWhile isLetter = region := by
        rw [List.takeWhile_append_of_pos hall]
        simp [List.takeWhile, isLetter]
      have hdropw : (region ++ ".md".data).dropWhile isLetter = ".md".data := by
        rw [List.dropWhile_append_of_pos hall]
        simp [List.dropWhile, isLetter]
      unfold readmeRegexpFind
      rw [hdrop]
      simp only [ha, hb, hc, and_self, if_true, htake, hdropw, hlen]
      simp
      apply String.ext
      simp [hdata, hc]
    · simp at hloc

/-- The loop of `AvailableI18nReadme` when every listed file is readable: it ends
without error and adds one key per locale matched. -/
theorem readmeLoop_succeeds (osSeparator : String) (decoder : PluginDecoder)
    (separator : String) :
    ∀ (files : List String) (m : GoMap Bytes),
      (∀ f ∈ files, ∃ content, decoder.ReadFile
        (filepathJoin osSeparator "readme" (CutPrefix f ("readme" ++ separator)).1) =
          .ok content) →
      m.keys.Nodup →
      ∃ out, readmeLoop osSeparator decoder separator files m = .ok out ∧ out.keys.Nodup ∧
        ∀ key, key ∈ out.keys ↔ key ∈ m.keys ∨
          ∃ f ∈ files, readmeRegexpFind (CutPrefix f ("readme" ++ separator)).1 = some key := by
  intro files
  induction files with
  | nil => intro m _ hm; exact ⟨m, rfl, hm, by simp⟩
  | cons f rest ih =>
    intro m hread hm
    obtain ⟨c, hc⟩ := hread f (by simp)
    cases hfind : readmeRegexpFind (CutPrefix f ("readme" ++ separator)).1 with
    | none =>
      obtain ⟨out, hout, hnd, hspec⟩ := ih m (fun g hg => hread g (by simp [hg])) hm
      refine ⟨out, ?_, hnd, ?_⟩
      · simp only [readmeLoop, hfind]; exact hout
      · intro key; rw [hspec key]; simp [hfind]
    | some language =>
      obtain ⟨out, hout, hnd, hspec⟩ := ih (m.set language c)
        (fun g hg => hread g (by simp [hg])) (GoMap.keys_set_nodup m _ c hm)
      refine ⟨out, ?_, hnd, ?_⟩
      · simp only [readmeLoop, hfind, hc]; exact hout
      · intro key
        rw [hspec key, GoMap.keys_set]
        simp only [List.mem_cons, exists_eq_or_imp, hfind, Option.some.injEq]
        constructor
        · rintro ((h | h) | h)
          · exact Or.inr (Or.inl h.symm)
          · exact Or.inl h
          · exact Or.inr (Or.inr h)
        · rintro (h | h | h)
          · exact Or.inl (Or.inr h)
          · exact Or.inl (Or.inl h.symm)
          · exact Or.inr h

/-- The loop of `AvailableI18nReadme` returns an error exactly when a listed file with
a matching name cannot be read. -/
theorem readmeLoop_error_iff (osSeparator : String) (decoder : PluginDecoder)
    (separator : String) :
    ∀ (files : List String) (m : GoMap Bytes),
      (∃ err, readmeLoop osSeparator decoder separator files m = .error err) ↔
        ∃ f ∈ files, ∃ language err,
          readmeRegexpFind (CutPrefix f ("readme" ++ separator)).1 = some language ∧
          decoder.ReadFile
            (filepathJoin osSeparator "readme" (CutPrefix f ("readme" ++ separator)).1) =
              .error err := by
  intro files
  induction files with
  | nil => intro m; simp [readmeLoop]
  | cons f rest ih =>
    intro m
    cases hfind : readmeRegexpFind (CutPrefix f ("readme" ++ separator)).1 with
    | none =>
      simp only [readmeLoop, hfind, List.mem_cons, exists_eq_or_imp]
      rw [ih m]
      simp
    | some language =>
      cases hc : decoder.ReadFile
          (filepathJoin osSeparator "readme" (CutPrefix f ("readme" ++ separator)).1) with
      | error err =>
        simp only [readmeLoop, hfind, hc, List.mem_cons, exists_eq_or_imp]
        simp
      | ok content =>
        simp only [readmeLoop, hfind, hc, List.mem_cons, exists_eq_or_imp]
        rw [ih (m.set language content)]
        simp

/-- C9 (i18n readme discovery): for every decoder whose root `README.md` is readable,
whose `ReadDir("readme")` succeeds and whose listed files are all readable (at the
path the helper reads them from, `readme` joined with the name trimmed of
`"readme" + separator`), `AvailableI18nReadme` returns a map whose key set is exactly
`en_US` together with every locale `L` such that some listed name, trimmed of
`"readme" + separator`, is `README_L.md` with `L` of the shape
`^[a-z]{2}_[A-Za-z]{2,}$`; names of any other shape add no key. -/
theorem C9_i18n_readme_keys (osSeparator : String) (decoder : PluginDecoder)
    (separator : String) (text : Bytes) (files : List String)
    (hroot : decoder.ReadFile "README.md" = .ok text)
    (hdir : decoder.ReadDir "readme" = .ok files)
    (hread : ∀ f ∈ files, ∃ content, decoder.ReadFile
      (filepathJoin osSeparator "readme" (CutPrefix f ("readme" ++ separator)).1) =
        .ok content) :
    ∃ readmes,
      PluginDecoderHelper.AvailableI18nReadme osSeparator decoder separator = .ok readmes ∧
      readmes.keys.Nodup ∧
      ∀ key, key ∈ readmes.keys ↔
        key = "en_US" ∨
        ∃ f ∈ files, (CutPrefix f ("readme" ++ separator)).1 = "README_" ++ key ++ ".md" ∧
          matchesLocalePattern key = true := by
  obtain ⟨out, hout, hnd, hspec⟩ := readmeLoop_succeeds osSeparator decoder separator files
    (GoMap.set [] "en_US" text) hread (by simp [GoMap.set, GoMap.keys])
  refine ⟨out, ?_, hnd, ?_⟩
  · simp only [PluginDecoderHelper.AvailableI18nReadme, hroot, hdir]; exact hout
  · intro key
    rw [hspec key]
    simp only [readmeRegexpFind_eq_some]
    simp [GoMap.set, GoMap.keys]

/-- C9 at the decoder of `helper_test.go`, which lists `readme/README_zh_Hans.md`. -/
theorem C9_i18n_readme_keys_witness :
    ∃ readmes,
      PluginDecoderHelper.AvailableI18nReadme "/" UnixPluginDecoder "/" = .ok readmes ∧
      readmes.keys.Nodup ∧
      ∀ key, key ∈ readmes.keys ↔
        key = "en_US" ∨
        ∃ f ∈ ["readme/README_zh_Hans.md"],
          (CutPrefix f ("readme" ++ "/")).1 = "README_" ++ key ++ ".md" ∧
          matchesLocalePattern key = true :=
  C9_i18n_readme_keys "/" UnixPluginDecoder "/" [116, 101, 115, 116]
    ["readme/README_zh_Hans.md"] rfl rfl (fun _ _ => ⟨[116, 101, 115, 116], rfl⟩)

/-- The test `TestAvailableI18nReadme`: exactly the keys `en_US` and `zh_Hans`. -/
theorem AvailableI18nReadme_of_helper_test :
    PluginDecoderHelper.AvailableI18nReadme "/" UnixPluginDecoder "/" =
      .ok [("en_US", [116, 101, 115, 116]), ("zh_Hans", [116, 101, 115, 116])] :=
  rfl

/-- C10: `AvailableI18nReadme` returns an error if and only if the root `README.md`
cannot be read, or listing `readme` fails with an error that is not not-exist, or the
listing succeeds and a listed file whose trimmed name is `README_L.md`, `L` a locale,
cannot be read; and when `README.md` is readable and listing `readme` fails with a
not-exist error, the result is, without error, the map binding only `en_US`, to the
text of `README.md`. -/
theorem C10_i18n_readme_error_iff (osSeparator : String) (decoder : PluginDecoder)
    (separator : String) :
    ((∃ err, PluginDecoderHelper.AvailableI18nReadme osSeparator decoder separator =
        .error err) ↔
      (∃ err, decoder.ReadFile "README.md" = .error err) ∨
      (∃ err, decoder.ReadDir "readme" = .error err ∧ err.notExist = false) ∨
      (∃ files, decoder.ReadDir "readme" = .ok files ∧
        ∃ f ∈ files, ∃ locale err,
          (CutPrefix f ("readme" ++ separator)).1 = "README_" ++ locale ++ ".md" ∧
          matchesLocalePattern locale = true ∧
          decoder.ReadFile
            (filepathJoin osSeparator "readme" (CutPrefix f ("readme" ++ separator)).1) =
              .error err)) ∧
    (∀ text err, decoder.ReadFile "README.md" = .ok text →
      decoder.ReadDir "readme" = .error err → err.notExist = true →
      PluginDecoderHelper.AvailableI18nReadme osSeparator decoder separator =
        .ok [("en_US", text)]) := by
  constructor
  · cases hroot : decoder.ReadFile "README.md" with
    | error err => simp [PluginDecoderHelper.AvailableI18nReadme, hroot]
    | ok text =>
      cases hdir : decoder.ReadDir "readme" with
      | error err =>
        cases hne : err.notExist <;>
          simp [PluginDecoderHelper.AvailableI18nReadme, hroot, hdir, hne]
      | ok files =>
        simp only [PluginDecoderHelper.AvailableI18nReadme, hroot, hdir]
        rw [readmeLoop_error_iff]
        simp only [readmeRegexpFind_eq_some]
        simp
        constructor
        · rintro ⟨f, hf, ⟨locale, h1, h2⟩, err, herr⟩
          exact ⟨f, hf, locale, h1, h2, err, herr⟩
        · rintro ⟨f, hf, locale, h1, h2, err, herr⟩
          exact ⟨f, hf, ⟨locale, h1, h2⟩, err, herr⟩
  · intro text err hroot hdir hne
    simp [PluginDecoderHelper.AvailableI18nReadme, hroot, hdir, hne, GoMap.set]

/-- C10 at a package without a `readme` folder. -/
theorem C10_i18n_readme_error_iff_witness :
    PluginDecoderHelper.AvailableI18nReadme "/" rootReadmeOnly "/" =
      .ok [("en_US", [35, 32, 104, 105])] :=
  (C10_i18n_readme_error_iff "/" rootReadmeOnly "/").2 [35, 32, 104, 105]
    { message := "open readme: file does not exist", notExist := true } rfl rfl rfl

/-! ## The locale `en_US` -/

/-- C11: a package whose root `README.md` reads `root` and whose `readme` folder lists
`README_en_US.md`, reading `other`.  The listed name matches `readmeRegexp` with
locale `en_US`, so the loop assigns `readmes["en_US"]` again: the value under
`en_US` is the content of `readme/README_en_US.md`, not that of the root file. -/
theorem C11_listed_en_US_readme_replaces_root :
    readmeFolderWithEnUS.ReadFile "README.md" = .ok [114, 111, 111, 116] ∧
    PluginDecoderHelper.AvailableI18nReadme "/" readmeFolderWithEnUS "/" =
      .ok [("en_US", [111, 116, 104, 101, 114])] :=
  ⟨rfl, rfl⟩

/-- The loop of `AvailableI18nReadme` leaves the binding of a locale that no listed
name matches. -/
theorem readmeLoop_keeps_unmatched_key (osSeparator : String) (decoder : PluginDecoder)
    (separator key : String) :
    ∀ (files : List String) (m out : GoMap Bytes),
      (∀ f ∈ files, readmeRegexpFind (CutPrefix f ("readme" ++ separator)).1 ≠ some key) →
      readmeLoop osSeparator decoder separator files m = .ok out →
      out.get? key = m.get? key := by
  intro files
  induction files with
  | nil => intro m out _ h; simp [readmeLoop] at h; rw [h]
  | cons f rest ih =>
    intro m out hno h
    have hf := hno f (by simp)
    have hrest : ∀ g ∈ rest,
        readmeRegexpFind (CutPrefix g ("readme" ++ separator)).1 ≠ some key :=
      fun g hg => hno g (by simp [hg])
    unfold readmeLoop at h
    cases hfind : readmeRegexpFind (CutPrefix f ("readme" ++ separator)).1 with
    | none =>
      simp only [hfind] at h
      exact ih m out hrest h
    | some language =>
      simp only [hfind] at h
      cases hc : decoder.ReadFile
          (filepathJoin osSeparator "readme" (CutPrefix f ("readme" ++ separator)).1) with
      | error err => simp [hc] at h
      | ok content =>
        simp only [hc] at h
        rw [ih _ out hrest h, GoMap.get?_set]
        have hne : language ≠ key := by
          intro hk; apply hf; rw [hfind, hk]
        simp [hne]

/-- When no listed name, trimmed of `"readme" + separator`, is `README_en_US.md`, the
value under `en_US` is the content of the root `README.md`. -/
theorem en_US_is_root_readme_without_listed_en_US (osSeparator : String)
    (decoder : PluginDecoder) (separator : String) (readmes : GoMap Bytes)
    (hok : PluginDecoderHelper.AvailableI18nReadme osSeparator decoder separator = .ok readmes)
    (hno : ∀ files, decoder.ReadDir "readme" = .ok files → ∀ f ∈ files,
      (CutPrefix f ("readme" ++ separator)).1 ≠ "README_en_US.md") :
    ∃ text, decoder.ReadFile "README.md" = .ok text ∧ readmes.get? "en_US" = some text := by
  unfold PluginDecoderHelper.AvailableI18nReadme at hok
  cases hroot : decoder.ReadFile "README.md" with
  | error err => simp [hroot] at hok
  | ok text =>
    refine ⟨text, rfl, ?_⟩
    simp only [hroot] at hok
    cases hdir : decoder.ReadDir "readme" with
    | error err =>
      simp only [hdir] at hok
      split at hok
      · simp only [Except.ok.injEq] at hok
        subst hok
        simp [GoMap.set, GoMap.get?]
      · simp at hok
    | ok files =>
      simp only [hdir] at hok
      rw [readmeLoop_keeps_unmatched_key osSeparator decoder separator "en_US" files _ readmes
        ?_ hok]
      · simp [GoMap.set, GoMap.get?]
      · intro f hf hfind
        rw [readmeRegexpFind_eq_some] at hfind
        exact hno files hdir f hf (by simpa using hfind.1)

/-! ## Identity, size limit and verification of a package -/

/-- C12: for every decoder whose `Manifest()` and `Checksum()` succeed, `UniqueIdentity`
builds its identifier from exactly the string `<author>/<name>:<version>@<checksum>`,
the identity of the manifest, an `@` and the value `Checksum()` returns; when the
constructor returns the string it accepts, a successful result reads exactly so.
If `Manifest()` fails, or `Manifest()` succeeds and `Checksum()` fails,
`UniqueIdentity` returns that error and the empty identifier. -/
theorem C12_unique_identity (NewPluginUniqueIdentifier : String → IdentifierResult)
    (decoder : IdentityDecoder) :
    (∀ manifest checksum, decoder.Manifest = .ok manifest → decoder.Checksum = .ok checksum →
      PluginDecoderHelper.UniqueIdentity NewPluginUniqueIdentifier decoder =
        NewPluginUniqueIdentifier
          (manifest.Author ++ "/" ++ manifest.Name ++ ":" ++ manifest.Version ++ "@" ++
            checksum) ∧
      ((∀ text, (NewPluginUniqueIdentifier text).err = none →
          (NewPluginUniqueIdentifier text).identifier = text) →
        (PluginDecoderHelper.UniqueIdentity NewPluginUniqueIdentifier decoder).err = none →
        (PluginDecoderHelper.UniqueIdentity NewPluginUniqueIdentifier decoder).identifier =
          manifest.Author ++ "/" ++ manifest.Name ++ ":" ++ manifest.Version ++ "@" ++
            checksum)) ∧
    (∀ err, decoder.Manifest = .error err →
      PluginDecoderHelper.UniqueIdentity NewPluginUniqueIdentifier decoder =
        { identifier := "", err := some err }) ∧
    (∀ manifest err, decoder.Manifest = .ok manifest → decoder.Checksum = .error err →
      PluginDecoderHelper.UniqueIdentity NewPluginUniqueIdentifier decoder =
        { identifier := "", err := some err }) := by
  refine ⟨?_, ?_, ?_⟩
  · intro manifest checksum hm hc
    have h : PluginDecoderHelper.UniqueIdentity NewPluginUniqueIdentifier decoder =
        NewPluginUniqueIdentifier
          (manifest.Author ++ "/" ++ manifest.Name ++ ":" ++ manifest.Version ++ "@" ++
            checksum) := by
      simp [PluginDecoderHelper.UniqueIdentity, hm, hc, PluginDeclaration.Identity]
    refine ⟨h, ?_⟩
    intro hnew hok
    rw [h] at hok ⊢
    exact hnew _ hok
  · intro err hm
    simp [PluginDecoderHelper.UniqueIdentity, hm]
  · intro manifest err hm hc
    simp [PluginDecoderHelper.UniqueIdentity, hm, hc]

/-- C12 at the manifest of `alice/calc:1.0` with checksum `abc`. -/
theorem C12_unique_identity_witness :
    PluginDecoderHelper.UniqueIdentity acceptWithChecksum
      { Manifest := .ok { plainDeclaration with
          Author := "alice", Name := "calc", Version := "1.0" }
        Checksum := .ok "abc" } =
      { identifier := "alice/calc:1.0@abc", err := none } :=
  ((C12_unique_identity acceptWithChecksum
      { Manifest := .ok { plainDeclaration with
          Author := "alice", Name := "calc", Version := "1.0" }
        Checksum := .ok "abc" }).1
    { plainDeclaration with Author := "alice", Name := "calc", Version := "1.0" } "abc"
    rfl rfl).1.trans (by decide)

/-- Converting a size below `2^63` to `int64` keeps its value. -/
theorem int64OfUint64_of_lt (u : Nat) (h : u < 2 ^ 63) : int64OfUint64 u = (u : Int) := by
  have h64 : u % 2 ^ 64 = u := Nat.mod_eq_of_lt (by omega)
  simp only [int64OfUint64, h64]
  rw [if_pos h]

/-- A total within the non-negative range of `int64` does not wrap. -/
theorem wrapInt64_of_range (x : Int) (h0 : 0 ≤ x) (h1 : x < 2 ^ 63) : wrapInt64 x = x := by
  unfold wrapInt64
  have : (x + 2 ^ 63) % 2 ^ 64 = x + 2 ^ 63 := Int.emod_eq_of_lt (by omega) (by omega)
  omega

/-- The size loop, on sizes and a total that stay below `2^63`: it returns the size
error exactly when there is an entry and the exact total exceeds the limit. -/
theorem sizeLimitExceeded_iff (maxSize : Int) :
    ∀ (files : List ZipFile) (totalSize : Int), 0 ≤ totalSize →
      (∀ f ∈ files, f.UncompressedSize64 < 2 ^ 63) →
      totalSize + (declaredTotal files : Int) < 2 ^ 63 →
      (sizeLimitExceeded maxSize files totalSize = true ↔
        files ≠ [] ∧ maxSize < totalSize + (declaredTotal files : Int)) := by
  intro files
  induction files with
  | nil => intro totalSize _ _ _; simp [sizeLimitExceeded]
  | cons f rest ih =>
    intro totalSize h0 hsize hsum
    have hf := hsize f (by simp)
    have hdecl : (declaredTotal (f :: rest) : Int) =
        (f.UncompressedSize64 : Int) + (declaredTotal rest : Int) := by
      simp [declaredTotal]
    rw [hdecl] at hsum ⊢
    have hrest0 : (0 : Int) ≤ (declaredTotal rest : Int) := Int.natCast_nonneg _
    have hf0 : (0 : Int) ≤ (f.UncompressedSize64 : Int) := Int.natCast_nonneg _
    have hstep : wrapInt64 (totalSize + int64OfUint64 f.UncompressedSize64) =
        totalSize + (f.UncompressedSize64 : Int) := by
      rw [int64OfUint64_of_lt _ hf]
      exact wrapInt64_of_range _ (by omega) (by omega)
    simp only [sizeLimitExceeded, hstep]
    by_cases hgt : totalSize + (f.UncompressedSize64 : Int) > maxSize
    · simp only [hgt, if_true, true_iff]
      exact ⟨by simp, by omega⟩
    · simp only [hgt, if_false]
      rw [ih (totalSize + (f.UncompressedSize64 : Int)) (by omega)
        (fun g hg => hsize g (by simp [hg])) (by omega)]
      constructor
      · rintro ⟨_, h⟩; exact ⟨by simp, by omega⟩
      · rintro ⟨_, h⟩
        refine ⟨?_, by omega⟩
        intro hnil
        subst hnil
        simp [declaredTotal] at h
        omega

/-- C13, as stated, fails on an archive without entries and the limit `-1`: the sum of
the declared sizes, 0, is greater than the limit, but the loop body never runs, no
size error is returned and the decoder constructor is called. -/
theorem C13_empty_archive_passes_negative_limit :
    emptyArchiveServices.NewReader [] = .ok { File := [], Comment := "" } ∧
    (-1 : Int) < (declaredTotal ([] : List ZipFile) : Int) ∧
    (NewZipPluginDecoderWithSizeLimit emptyArchiveServices [] (-1)).returnedAt =
      .constructed ∧
    (NewZipPluginDecoderWithSizeLimit emptyArchiveServices [] (-1)).decodersConstructed = 1 :=
  ⟨rfl, by decide, rfl, rfl⟩

/-- C13, amended: for every readable archive whose entries declare sizes below `2^63`
with a sum below `2^63`, and every limit `maxSize` that is non-negative or comes with
an archive of at least one entry, `NewZipPluginDecoderWithSizeLimit` returns the size
error if and only if the sum of the declared sizes is strictly greater than `maxSize`;
the text of that error holds the decimal rendering of `maxSize`, and on that error
no decoder is constructed and no manifest is read. -/
theorem C13_size_limit (zs : ZipServices) (binary : Bytes) (maxSize : Int)
    (reader : ZipReader) (hread : zs.NewReader binary = .ok reader)
    (hsizes : ∀ f ∈ reader.File, f.UncompressedSize64 < 2 ^ 63)
    (hsum : declaredTotal reader.File < 2 ^ 63)
    (hlimit : 0 ≤ maxSize ∨ reader.File ≠ []) :
    ((NewZipPluginDecoderWithSizeLimit zs binary maxSize).returnedAt = .sizeError ↔
      maxSize < (declaredTotal reader.File : Int)) ∧
    ((NewZipPluginDecoderWithSizeLimit zs binary maxSize).returnedAt = .sizeError →
      (NewZipPluginDecoderWithSizeLimit zs binary maxSize).result =
        .error ("plugin package size is too large, please ensure the uncompressed size is " ++
          "less than " ++ FormatInt10 maxSize ++ " bytes") ∧
      (NewZipPluginDecoderWithSizeLimit zs binary maxSize).decodersConstructed = 0 ∧
      (NewZipPluginDecoderWithSizeLimit zs binary maxSize).manifestReads = 0) := by
  have hiff := sizeLimitExceeded_iff maxSize reader.File 0 (le_refl _) hsizes
    (by have : ((declaredTotal reader.File : Nat) : Int) < 2 ^ 63 := by exact_mod_cast hsum
        omega)
  simp only [Int.zero_add] at hiff
  have hdec0 : (0 : Int) ≤ (declaredTotal reader.File : Int) := Int.natCast_nonneg _
  by_cases hex : sizeLimitExceeded maxSize reader.File 0 = true
  · have h := hiff.1 hex
    simp only [NewZipPluginDecoderWithSizeLimit, hread, hex, if_true, true_and, true_iff,
      forall_const]
    exact ⟨h.2, by simp [sizeErrorText, String.append_assoc]⟩
  · have hnot : ¬ maxSize < (declaredTotal reader.File : Int) := by
      intro hlt
      apply hex
      refine hiff.2 ⟨?_, hlt⟩
      rcases hlimit with h | h
      · intro hnil
        rw [hnil] at hlt
        simp [declaredTotal] at hlt
        omega
      · exact h
    simp [NewZipPluginDecoderWithSizeLimit, hread, hex, hnot]

/-- C13 at an archive declaring 600 + 424 bytes and the limit 1023. -/
theorem C13_size_limit_witness :
    (NewZipPluginDecoderWithSizeLimit twoEntryServices [] 1023).returnedAt = .sizeError :=
  (C13_size_limit twoEntryServices [] 1023 _ rfl (by decide) (by decide)
    (Or.inl (by decide))).1.2 (by decide)

/-- A total equal to the limit passes the size check; one byte less of limit gives the
size error with the limit in its text. -/
theorem size_equal_to_limit_passes :
    (NewZipPluginDecoderWithSizeLimit twoEntryServices [] 1024).returnedAt = .constructed ∧
    (NewZipPluginDecoderWithSizeLimit twoEntryServices [] 1023).result =
      .error ("plugin package size is too large, please ensure the uncompressed size is " ++
        "less than 1023 bytes") :=
  ⟨rfl, rfl⟩

/-- With the memo set, every call of `verified` returns it and verifies nothing. -/
theorem verifiedCalls_memoized (zipConfig : Option (Option ThirdPartySignatureVerificationConfig))
    (flag : Bool) :
    ∀ (later : List ZipServices), ∀ r ∈ verifiedCalls zipConfig later (some flag),
      r = { value := flag, verifiedFlag := some flag, calls := [] } := by
  intro later
  induction later with
  | nil => intro r hr; simp [verifiedCalls] at hr
  | cons zs later ih =>
    intro r hr
    simp only [verifiedCalls, PluginDecoderHelper.verified, List.mem_cons] at hr
    rcases hr with hr | hr
    · exact hr
    · exact ih r hr

/-- C14 (verification policy): on its first evaluation, `verified(decoder)` for a zip
decoder whose third-party configuration is present, enabled and lists at least one
key path is `VerifyPluginWithPublicKeyPaths` being without error for those paths,
and that is the only verification made; in every other case (no configuration,
disabled, empty key list, not a zip decoder) it is `VerifyPlugin` being without
error, and that is the only verification made.  The result is memoized, and every
later call returns it without verifying, whatever the verifications would answer
then. -/
theorem C14_verification_policy (zs : ZipServices)
    (zipConfig : Option (Option ThirdPartySignatureVerificationConfig)) :
    (∀ config, zipConfig = some (some config) → config.Enabled = true →
      config.PublicKeyPaths ≠ [] →
      (PluginDecoderHelper.verified zs zipConfig none).value =
        zs.VerifyPluginWithPublicKeyPaths config.PublicKeyPaths ∧
      (PluginDecoderHelper.verified zs zipConfig none).calls =
        [.withPublicKeyPaths config.PublicKeyPaths]) ∧
    ((∀ config, zipConfig = some (some config) →
        config.Enabled = false ∨ config.PublicKeyPaths = []) →
      (PluginDecoderHelper.verified zs zipConfig none).value = zs.VerifyPlugin ∧
      (PluginDecoderHelper.verified zs zipConfig none).calls = [.builtIn]) ∧
    (PluginDecoderHelper.verified zs zipConfig none).verifiedFlag =
      some (PluginDecoderHelper.verified zs zipConfig none).value ∧
    (∀ (later : List ZipServices),
      ∀ r ∈ verifiedCalls zipConfig later
          (PluginDecoderHelper.verified zs zipConfig none).verifiedFlag,
        r.value = (PluginDecoderHelper.verified zs zipConfig none).value ∧ r.calls = []) := by
  have hflag : (PluginDecoderHelper.verified zs zipConfig none).verifiedFlag =
      some (PluginDecoderHelper.verified zs zipConfig none).value := by
    unfold PluginDecoderHelper.verified
    rcases zipConfig with _ | _ | config
    · rfl
    · rfl
    · simp only; split <;> rfl
  refine ⟨?_, ?_, hflag, ?_⟩
  · intro config hcfg hen hpaths
    subst hcfg
    have hlen : config.PublicKeyPaths.length > 0 := List.length_pos.2 hpaths
    simp [PluginDecoderHelper.verified, hen, hlen]
  · intro hother
    rcases zipConfig with _ | _ | config
    · exact ⟨rfl, rfl⟩
    · exact ⟨rfl, rfl⟩
    · have hnot : ¬ (config.Enabled = true ∧ config.PublicKeyPaths.length > 0) := by
        rintro ⟨hen, hlen⟩
        rcases hother config rfl with h | h
        · simp [h] at hen
        · simp [h] at hlen
      simp only [PluginDecoderHelper.verified, if_neg hnot, and_self]
  · intro later r hr
    rw [hflag] at hr
    have := verifiedCalls_memoized zipConfig _ later r hr
    subst this
    exact ⟨rfl, rfl⟩

/-- C14 at a decoder with one third-party key that accepts the signature. -/
theorem C14_verification_policy_witness :
    (PluginDecoderHelper.verified thirdPartyAccepts (some (some oneKeyConfig)) none).value =
      true ∧
    (PluginDecoderHelper.verified thirdPartyAccepts (some (some oneKeyConfig)) none).calls =
      [.withPublicKeyPaths ["keys/partner.pem"]] :=
  (C14_verification_policy thirdPartyAccepts (some (some oneKeyConfig))).1 oneKeyConfig rfl rfl
    (by decide)

/-- Reading a name that no entry carries gives a not-exist error. -/
theorem ZipReader.ReadFile_absent (reader : ZipReader) (filename : String)
    (h : ∀ f ∈ reader.File, f.Name ≠ filename) :
    reader.ReadFile filename =
      .error { message := "open " ++ filename ++ ": file does not exist", notExist := true } := by
  have hfind : (reader.File.find? fun file => file.Name = filename) = none := by
    rw [List.find?_eq_none]
    intro f hf
    simpa using h f hf
  simp [ZipReader.ReadFile, hfind]

/-- The method `decode` on an archive with a well-formed comment and no verification
file: no error, and the verification is `nil`. -/
theorem ZipPluginDecoder.decode_without_verification_file (zs : ZipServices)
    (reader : ZipReader) (z : ZipPluginDecoder) (pluginSig : String) (pluginTime : Int)
    (hreader : z.reader = some reader)
    (hsig : zs.UnmarshalSignature reader.Comment = .ok (pluginSig, pluginTime))
    (hfile : ∀ f ∈ reader.File, f.Name ≠ zs.VERIFICATION_FILE) :
    z.decode zs =
      (none, { z with sig := pluginSig, createTime := pluginTime, verification := none }) := by
  simp [ZipPluginDecoder.decode, hreader, hsig, ZipPluginDecoder.ReadFile,
    ZipReader.ReadFile_absent reader _ hfile]

/-- The method `Verified` changes only the memo. -/
theorem ZipPluginDecoder.Verified_fields (zs : ZipServices) (z : ZipPluginDecoder) :
    (z.Verified zs).2.reader = z.reader ∧ (z.Verified zs).2.verification = z.verification :=
  ⟨rfl, rfl⟩

/-- The method `decode` keeps the reader. -/
theorem ZipPluginDecoder.decode_reader (zs : ZipServices) (z : ZipPluginDecoder) :
    (z.decode zs).2.reader = z.reader := by
  unfold ZipPluginDecoder.decode
  split
  · rfl
  · split
    · rfl
    · split
      · split <;> rfl
      · split <;> rfl

/-- On an archive without verification file `decode` leaves the verification `nil`. -/
theorem ZipPluginDecoder.decode_verification_none (zs : ZipServices) (reader : ZipReader)
    (z : ZipPluginDecoder) (hreader : z.reader = some reader)
    (hfile : ∀ f ∈ reader.File, f.Name ≠ zs.VERIFICATION_FILE)
    (hnone : z.verification = none) : (z.decode zs).2.verification = none := by
  unfold ZipPluginDecoder.decode
  simp only [hreader, ZipPluginDecoder.ReadFile, ZipReader.ReadFile_absent reader _ hfile]
  split
  · exact hnone
  · simp

/-- The decoder after `Verification` is the one after `Verified`, or after `Verified`
and `decode`. -/
theorem ZipPluginDecoder.Verification_decoder (zs : ZipServices) (z : ZipPluginDecoder) :
    (z.Verification zs).decoder = (z.Verified zs).2 ∨
      (z.Verification zs).decoder = ((z.Verified zs).2.decode zs).2 := by
  unfold ZipPluginDecoder.Verification
  simp only
  split
  · exact Or.inl rfl
  · split
    · exact Or.inl rfl
    · split
      · rename_i h; right; rw [h]
      · rename_i h; right; rw [h]

/-- Every decoder of an archive without verification file holds that archive and a
`nil` verification. -/
theorem ZipPluginDecoder.ReachableFrom.fields (zs : ZipServices) (reader : ZipReader)
    (hfile : ∀ f ∈ reader.File, f.Name ≠ zs.VERIFICATION_FILE) (z : ZipPluginDecoder)
    (h : ZipPluginDecoder.ReachableFrom zs reader z) :
    z.reader = some reader ∧ z.verification = none := by
  induction h with
  | constructed config => exact ⟨rfl, rfl⟩
  | afterVerified z _ ih => exact ih
  | afterDecode z _ ih =>
    exact ⟨(ZipPluginDecoder.decode_reader zs z).trans ih.1,
      ZipPluginDecoder.decode_verification_none zs reader z ih.1 hfile ih.2⟩
  | afterVerification z _ ih =>
    rcases ZipPluginDecoder.Verification_decoder zs z with h | h
    · rw [h]; exact ih
    · rw [h]
      exact ⟨(ZipPluginDecoder.decode_reader zs _).trans ih.1,
        ZipPluginDecoder.decode_verification_none zs reader _ ih.1 hfile ih.2⟩

/-- C15: for every zip decoder, `Verification()` returns the error
`plugin is not verified` and no verification whenever `Verified()` is false; and for
every decoder of an archive whose comment unmarshals to a signature and a time and
which holds no verification file, when `Verified()` is true `Verification()` returns
a `nil` verification and no error. -/
theorem C15_verification_of_zip_decoder (zs : ZipServices) :
    (∀ z : ZipPluginDecoder, (z.Verified zs).1 = false →
      (z.Verification zs).verification = none ∧
      (z.Verification zs).err = some "plugin is not verified") ∧
    (∀ (reader : ZipReader) (z : ZipPluginDecoder) (pluginSig : String) (pluginTime : Int),
      ZipPluginDecoder.ReachableFrom zs reader z →
      (z.Verified zs).1 = true →
      zs.UnmarshalSignature reader.Comment = .ok (pluginSig, pluginTime) →
      (∀ f ∈ reader.File, f.Name ≠ zs.VERIFICATION_FILE) →
      (z.Verification zs).verification = none ∧ (z.Verification zs).err = none) := by
  constructor
  · intro z hv
    simp [ZipPluginDecoder.Verification, hv]
  · intro reader z pluginSig pluginTime hreach hv hsig hfile
    obtain ⟨hreader, hnone⟩ := ZipPluginDecoder.ReachableFrom.fields zs reader hfile z hreach
    have hdec := ZipPluginDecoder.decode_without_verification_file zs reader (z.Verified zs).2
      pluginSig pluginTime hreader hsig hfile
    have hnone' : (z.Verified zs).2.verification = none := hnone
    simp [ZipPluginDecoder.Verification, hv, hnone', hdec]

/-- C15 at a freshly constructed decoder of a signed archive, verified under a
third-party key, and at the same archive when nothing verifies it. -/
theorem C15_verification_of_zip_decoder_witness :
    ((ZipPluginDecoder.Verification thirdPartyAccepts
        (signedDecoder (some oneKeyConfig))).verification = none ∧
      (ZipPluginDecoder.Verification thirdPartyAccepts
        (signedDecoder (some oneKeyConfig))).err = none) ∧
    (ZipPluginDecoder.Verification thirdPartyAccepts (signedDecoder none)).err =
      some "plugin is not verified" :=
  ⟨(C15_verification_of_zip_decoder thirdPartyAccepts).2 signedArchive
      (signedDecoder (some oneKeyConfig)) "sig" 1700000000
      (.constructed (some oneKeyConfig)) rfl rfl (by decide),
    ((C15_verification_of_zip_decoder thirdPartyAccepts).1 (signedDecoder none) rfl).2⟩

/-! ## The serverless launcher and its install adaptor -/

/-- The calls made by the upload path. -/
theorem launchBySetup_calls (ls : LaunchServices) (originPackage : Bytes)
    (manifest : PluginDeclaration) (checksum : String) (timeout : Int)
    (calls : List LaunchCall) :
    (launchBySetup ls originPackage manifest checksum timeout calls).calls =
      calls ++ [.setupFunction, .unlock (AWS_LAUNCH_LOCK_PREFIX ++ checksum)] := by
  unfold launchBySetup
  split <;> rfl

/-- C16 (serverless idempotency): for every package, when `ignoreIdempotent` is false
and `FetchFunction`, reached with the checksum, the lock and the manifest obtained,
finds a function, `LaunchPlugin` returns a closed stream holding exactly the events
`FunctionUrl` with the URL found, `Function` with the name found and `Done`, in this
order, and `SetupFunction` is not called; when `FetchFunction` fails with an error
other than not-found, `LaunchPlugin` returns that error and `SetupFunction` is not
called; when `ignoreIdempotent` is true, `FetchFunction` is never called. -/
theorem C16_serverless_idempotency (ls : LaunchServices) (originPackage : Bytes)
    (decoder : IdentityDecoder) (timeout : Int) :
    (∀ checksum manifest FunctionURL FunctionName,
      decoder.Checksum = .ok checksum →
      ls.Lock (AWS_LAUNCH_LOCK_PREFIX ++ checksum) = none →
      decoder.Manifest = .ok manifest →
      ls.FetchFunction manifest checksum = .found FunctionURL FunctionName →
      (LaunchPlugin ls originPackage decoder timeout false).result =
        .ok { items := [{ Event := .FunctionUrl, Message := FunctionURL },
                        { Event := .Function, Message := FunctionName },
                        { Event := .Done, Message := "" }]
              closed := true } ∧
      LaunchCall.setupFunction ∉ (LaunchPlugin ls originPackage decoder timeout false).calls) ∧
    (∀ checksum manifest err,
      decoder.Checksum = .ok checksum →
      ls.Lock (AWS_LAUNCH_LOCK_PREFIX ++ checksum) = none →
      decoder.Manifest = .ok manifest →
      ls.FetchFunction manifest checksum = .failed err →
      (LaunchPlugin ls originPackage decoder timeout false).result = .error err ∧
      LaunchCall.setupFunction ∉ (LaunchPlugin ls originPackage decoder timeout false).calls) ∧
    LaunchCall.fetchFunction ∉ (LaunchPlugin ls originPackage decoder timeout true).calls := by
  refine ⟨?_, ?_, ?_⟩
  · intro checksum manifest FunctionURL FunctionName hc hl hm hf
    simp [LaunchPlugin, hc, hl, hm, hf]
  · intro checksum manifest err hc hl hm hf
    simp [LaunchPlugin, hc, hl, hm, hf]
  · unfold LaunchPlugin
    split
    · simp
    · split
      · simp
      · split
        · simp
        · simp [launchBySetup_calls]

/-- C16 at a connector that knows the function of the package. -/
theorem C16_serverless_idempotency_witness :
    (LaunchPlugin functionExists [] calcDecoder 240 false).result =
      .ok { items := [{ Event := .FunctionUrl, Message := "https://fn.example/abc" },
                      { Event := .Function, Message := "fn-abc" },
                      { Event := .Done, Message := "" }]
            closed := true } ∧
    LaunchCall.setupFunction ∉ (LaunchPlugin functionExists [] calcDecoder 240 false).calls :=
  (C16_serverless_idempotency functionExists [] calcDecoder 240).1 "abc"
    { plainDeclaration with Author := "alice", Name := "calc", Version := "1.0" }
    "https://fn.example/abc" "fn-abc" rfl rfl rfl rfl

/-- Only a `FunctionUrl` event changes the buffered URL. -/
theorem adaptorCallback_functionUrl (db : AdaptorServices) (checksum uniqueIdentity : String)
    (handled : Nat) (functionUrl functionName : String) (r : LaunchFunctionResponse) :
    (adaptorCallback db checksum uniqueIdentity handled functionUrl functionName r).functionUrl =
      if r.Event = .FunctionUrl then r.Message else functionUrl := by
  unfold adaptorCallback
  cases hE : r.Event with
  | Done =>
    simp only [reduceCtorEq, if_false]
    split
    · rfl
    · split
      · split <;> rfl
      · rfl
      · rfl
  | _ => simp

/-- Only a `Function` event changes the buffered name. -/
theorem adaptorCallback_functionName (db : AdaptorServices) (checksum uniqueIdentity : String)
    (handled : Nat) (functionUrl functionName : String) (r : LaunchFunctionResponse) :
    (adaptorCallback db checksum uniqueIdentity handled functionUrl functionName
        r).functionName =
      if r.Event = .Function then r.Message else functionName := by
  unfold adaptorCallback
  cases hE : r.Event with
  | Done =>
    simp only [reduceCtorEq, if_false]
    split
    · rfl
    · split
      · split <;> rfl
      · rfl
      · rfl
  | _ => simp

/-- The callback writes a done event only on a `Done` event with both buffers
non-empty. -/
theorem adaptorCallback_done_written (db : AdaptorServices) (checksum uniqueIdentity : String)
    (handled : Nat) (functionUrl functionName : String) (r : LaunchFunctionResponse)
    (data : String)
    (h : .ok { Event := .PluginInstallEventDone, Data := data } ∈
      (adaptorCallback db checksum uniqueIdentity handled functionUrl functionName r).written) :
    r.Event = .Done ∧ data = "Installed" ∧ functionUrl ≠ "" ∧ functionName ≠ "" := by
  unfold adaptorCallback at h
  cases hE : r.Event with
  | Done =>
    simp only [hE] at h
    split at h
    · simp at h
    · rename_i hbuf
      have hu : functionUrl ≠ "" := fun hc => hbuf (Or.inl hc)
      have hn : functionName ≠ "" := fun hc => hbuf (Or.inr hc)
      split at h
      · split at h
        · simp at h
        · simp at h; exact ⟨rfl, h, hu, hn⟩
      · simp at h
      · simp at h; exact ⟨rfl, h, hu, hn⟩
  | Info => simp [hE] at h
  | Error => simp [hE] at h
  | FunctionUrl => simp [hE] at h
  | Function => simp [hE] at h
  | other name => simp [hE] at h

/-- The goroutine after one more event. -/
theorem adaptorRun_append (db : AdaptorServices) (checksum uniqueIdentity : String)
    (events : List LaunchFunctionResponse) (r : LaunchFunctionResponse) :
    adaptorRun db checksum uniqueIdentity (events ++ [r]) =
      (adaptorRun db checksum uniqueIdentity events).handle db checksum uniqueIdentity r := by
  simp [adaptorRun, List.foldl_append]

/-- A non-empty buffered URL comes from a `FunctionUrl` event with a non-empty
message. -/
theorem adaptorRun_functionUrl (db : AdaptorServices) (checksum uniqueIdentity : String)
    (events : List LaunchFunctionResponse)
    (h : (adaptorRun db checksum uniqueIdentity events).functionUrl ≠ "") :
    ∃ (i : Nat) (message : String), message ≠ "" ∧
      events[i]? = some (LaunchFunctionResponse.mk .FunctionUrl message) := by
  induction events using List.reverseRecOn with
  | nil => exact absurd rfl h
  | append_singleton events r ih =>
    rw [adaptorRun_append] at h
    simp only [AdaptorState.handle, adaptorCallback_functionUrl] at h
    by_cases hE : r.Event = .FunctionUrl
    · rw [if_pos hE] at h
      refine ⟨events.length, r.Message, h, ?_⟩
      simp [← hE]
    · rw [if_neg hE] at h
      obtain ⟨i, message, hm, hi⟩ := ih h
      refine ⟨i, message, hm, ?_⟩
      rw [List.getElem?_append_left (List.getElem?_eq_some.1 hi).1]
      exact hi

/-- A non-empty buffered name comes from a `Function` event with a non-empty
message. -/
theorem adaptorRun_functionName (db : AdaptorServices) (checksum uniqueIdentity : String)
    (events : List LaunchFunctionResponse)
    (h : (adaptorRun db checksum uniqueIdentity events).functionName ≠ "") :
    ∃ (i : Nat) (message : String), message ≠ "" ∧
      events[i]? = some (LaunchFunctionResponse.mk .Function message) := by
  induction events using List.reverseRecOn with
  | nil => exact absurd rfl h
  | append_singleton events r ih =>
    rw [adaptorRun_append] at h
    simp only [AdaptorState.handle, adaptorCallback_functionName] at h
    by_cases hE : r.Event = .Function
    · rw [if_pos hE] at h
      refine ⟨events.length, r.Message, h, ?_⟩
      simp [← hE]
    · rw [if_neg hE] at h
      obtain ⟨i, message, hm, hi⟩ := ih h
      refine ⟨i, message, hm, ?_⟩
      rw [List.getElem?_append_left (List.getElem?_eq_some.1 hi).1]
      exact hi

/-- An element of a prefix of a list stands at the same index of the list. -/
theorem getElem?_of_take {α : Type} (l : List α) (k i : Nat) (a : α)
    (h : (l.take k)[i]? = some a) : i < k ∧ l[i]? = some a := by
  have hlt : i < (l.take k).length := (List.getElem?_eq_some.1 h).1
  have hik : i < k := by
    have := List.length_take_le k l
    omega
  refine ⟨hik, ?_⟩
  rw [List.getElem?_take] at h
  simpa [hik] using h

/-- C17: in the install adaptor of `InstallToAWSFromPkg`, for every sequence of launch
events and every event `r` of it, at index `k`: what the adaptor writes while
handling `r` is what the callback writes from the buffers left by the events before
`r`; if that holds a done event, its data is `Installed`, `r` is a `Done` event, and a
`FunctionUrl` event and a `Function` event with non-empty messages precede `r`; and if
`r` is a `Done` event arriving while the buffered URL or the buffered name is empty,
the adaptor writes exactly the error event `Internal server error, failed to get
lambda url or function name` and creates no serverless runtime row. -/
theorem C17_install_adaptor_done_guard (db : AdaptorServices) (checksum uniqueIdentity : String)
    (events : List LaunchFunctionResponse) (k : Nat) (r : LaunchFunctionResponse)
    (hk : events[k]? = some r) :
    (adaptorRun db checksum uniqueIdentity (events.take (k + 1))).written =
      (adaptorRun db checksum uniqueIdentity (events.take k)).written ++
        (adaptorCallback db checksum uniqueIdentity
          (adaptorRun db checksum uniqueIdentity (events.take k)).handled
          (adaptorRun db checksum uniqueIdentity (events.take k)).functionUrl
          (adaptorRun db checksum uniqueIdentity (events.take k)).functionName r).written ∧
    (∀ data, .ok { Event := .PluginInstallEventDone, Data := data } ∈
        (adaptorCallback db checksum uniqueIdentity
          (adaptorRun db checksum uniqueIdentity (events.take k)).handled
          (adaptorRun db checksum uniqueIdentity (events.take k)).functionUrl
          (adaptorRun db checksum uniqueIdentity (events.take k)).functionName r).written →
      data = "Installed" ∧ r.Event = .Done ∧
      (∃ (i : Nat) (message : String), i < k ∧ message ≠ "" ∧
        events[i]? = some (LaunchFunctionResponse.mk .FunctionUrl message)) ∧
      (∃ (j : Nat) (message : String), j < k ∧ message ≠ "" ∧
        events[j]? = some (LaunchFunctionResponse.mk .Function message))) ∧
    (r.Event = .Done →
      (adaptorRun db checksum uniqueIdentity (events.take k)).functionUrl = "" ∨
        (adaptorRun db checksum uniqueIdentity (events.take k)).functionName = "" →
      (adaptorCallback db checksum uniqueIdentity
          (adaptorRun db checksum uniqueIdentity (events.take k)).handled
          (adaptorRun db checksum uniqueIdentity (events.take k)).functionUrl
          (adaptorRun db checksum uniqueIdentity (events.take k)).functionName r).written =
        [.ok { Event := .PluginInstallEventError
               Data := "Internal server error, failed to get lambda url or function name" }] ∧
      (adaptorRun db checksum uniqueIdentity (events.take (k + 1))).created =
        (adaptorRun db checksum uniqueIdentity (events.take k)).created) := by
  have htake : events.take (k + 1) = events.take k ++ [r] := by
    rw [List.take_succ, hk]; rfl
  refine ⟨?_, ?_, ?_⟩
  · rw [htake, adaptorRun_append]; rfl
  · intro data hdata
    obtain ⟨hE, hd, hu, hn⟩ := adaptorCallback_done_written _ _ _ _ _ _ _ _ hdata
    obtain ⟨i, message, hm, hi⟩ := adaptorRun_functionUrl db checksum uniqueIdentity _ hu
    obtain ⟨j, message', hm', hj⟩ := adaptorRun_functionName db checksum uniqueIdentity _ hn
    obtain ⟨hik, hi'⟩ := getElem?_of_take events k i _ hi
    obtain ⟨hjk, hj'⟩ := getElem?_of_take events k j _ hj
    exact ⟨hd, hE, ⟨i, message, hik, hm, hi'⟩, ⟨j, message', hjk, hm', hj'⟩⟩
  · intro hE hbuf
    have hcb : adaptorCallback db checksum uniqueIdentity
          (adaptorRun db checksum uniqueIdentity (events.take k)).handled
          (adaptorRun db checksum uniqueIdentity (events.take k)).functionUrl
          (adaptorRun db checksum uniqueIdentity (events.take k)).functionName r =
        { written := [.ok { Event := .PluginInstallEventError
                            Data := "Internal server error, failed to get lambda url or function name" }]
          created := []
          functionUrl := (adaptorRun db checksum uniqueIdentity (events.take k)).functionUrl
          functionName := (adaptorRun db checksum uniqueIdentity (events.take k)).functionName } := by
      simp only [adaptorCallback, hE, if_pos hbuf]
    refine ⟨by rw [hcb], ?_⟩
    rw [htake, adaptorRun_append]
    simp only [AdaptorState.handle, hcb, List.append_nil]

/-- C17 at a `Done` event that arrives first. -/
theorem C17_install_adaptor_done_guard_witness :
    (adaptorRun noRuntimeRows "abc" "alice/calc:1.0@abc"
      ([{ Event := .Done, Message := "" }, { Event := .FunctionUrl, Message := "u" }].take
        1)).created = [] ∧
    (adaptorRun noRuntimeRows "abc" "alice/calc:1.0@abc"
      ([{ Event := .Done, Message := "" }, { Event := .FunctionUrl, Message := "u" }].take
        1)).written =
      [.ok { Event := .PluginInstallEventError
             Data := "Internal server error, failed to get lambda url or function name" }] :=
  have h := C17_install_adaptor_done_guard noRuntimeRows "abc" "alice/calc:1.0@abc"
    [{ Event := .Done, Message := "" }, { Event := .FunctionUrl, Message := "u" }] 0
    { Event := .Done, Message := "" } rfl
  ⟨h.2.2 rfl (Or.inl rfl) |>.2, h.1.trans (by rw [(h.2.2 rfl (Or.inl rfl)).1]; rfl)⟩

/-- The adaptor goes on after the guard: `Done, FunctionUrl, Function, Done` writes the
error event and then the done event. -/
theorem out_of_order_launch_events :
    (adaptorRun noRuntimeRows "abc" "alice/calc:1.0@abc"
      [{ Event := .Done, Message := "" }, { Event := .FunctionUrl, Message := "u" },
       { Event := .Function, Message := "n" }, { Event := .Done, Message := "" }]).written =
      [.ok { Event := .PluginInstallEventError
             Data := "Internal server error, failed to get lambda url or function name" },
       .ok { Event := .PluginInstallEventDone, Data := "Installed" }] :=
  rfl

/-! ## The installation service -/

/-- C18: for every pair of identifiers, `UpgradePlugin` returns a bad-request error,
makes no installation lookup and starts no install when the two identifiers are equal
or their plugin ids differ; when the identifiers differ and their plugin ids are
equal it makes the installation lookup; and a lookup is made only in that case. -/
theorem C18_upgrade_same_plugin_guard (us : UpgradeServices) (config : Config)
    (tenant_id source : String) (meta : MetaMap)
    (original_plugin_unique_identifier new_plugin_unique_identifier : String) :
    (original_plugin_unique_identifier = new_plugin_unique_identifier ∨
        us.install.PluginID original_plugin_unique_identifier ≠
          us.install.PluginID new_plugin_unique_identifier →
      (∃ message, (UpgradePlugin us config tenant_id source meta
          original_plugin_unique_identifier new_plugin_unique_identifier).response =
        .ok (.badRequest message)) ∧
      (UpgradePlugin us config tenant_id source meta
          original_plugin_unique_identifier new_plugin_unique_identifier).installationLookups = 0 ∧
      (UpgradePlugin us config tenant_id source meta
          original_plugin_unique_identifier new_plugin_unique_identifier).install = none) ∧
    (original_plugin_unique_identifier ≠ new_plugin_unique_identifier →
      us.install.PluginID original_plugin_unique_identifier =
        us.install.PluginID new_plugin_unique_identifier →
      (UpgradePlugin us config tenant_id source meta
          original_plugin_unique_identifier new_plugin_unique_identifier).installationLookups = 1) ∧
    ((UpgradePlugin us config tenant_id source meta
          original_plugin_unique_identifier new_plugin_unique_identifier).installationLookups ≠ 0 →
      original_plugin_unique_identifier ≠ new_plugin_unique_identifier ∧
      us.install.PluginID original_plugin_unique_identifier =
        us.install.PluginID new_plugin_unique_identifier) := by
  by_cases heq : original_plugin_unique_identifier = new_plugin_unique_identifier
  · simp [UpgradePlugin, heq]
  · by_cases hid : us.install.PluginID original_plugin_unique_identifier =
        us.install.PluginID new_plugin_unique_identifier
    · refine ⟨fun h => ?_, fun _ _ => ?_, fun _ => ⟨heq, hid⟩⟩
      · rcases h with h | h
        · exact absurd h heq
        · exact absurd hid h
      · simp only [UpgradePlugin, if_neg heq, hid, ne_eq, not_true_eq_false, if_false]
        split <;> rfl
    · simp [UpgradePlugin, heq, hid]

/-- C18 at two versions of one plugin, and the response for two different plugins. -/
theorem C18_upgrade_same_plugin_guard_witness :
    (UpgradePlugin upgradeServices localConfig "T1" "marketplace" []
        "alice/calc:1.0@abc" "bob/calc:1.0@abc").response =
      .ok (.badRequest "original and new plugin id are different") ∧
    (UpgradePlugin upgradeServices localConfig "T1" "marketplace" []
        "alice/calc:1.0@abc" "alice/calc:1.1@def").installationLookups = 1 :=
  ⟨rfl, (C18_upgrade_same_plugin_guard upgradeServices localConfig "T1" "marketplace" []
    "alice/calc:1.0@abc" "alice/calc:1.1@def").2.1 (by decide) (by decide)⟩

/-- The bad-request text of `UpgradePlugin` for equal identifiers. -/
theorem upgrade_of_equal_identifiers (us : UpgradeServices) (config : Config)
    (tenant_id source : String) (meta : MetaMap) (identifier : String) :
    (UpgradePlugin us config tenant_id source meta identifier identifier).response =
      .ok (.badRequest "original and new plugin unique identifier are the same") := by
  simp [UpgradePlugin]

/-- An upgrade between two versions of an installed plugin starts an install task. -/
theorem upgrade_of_installed_plugin :
    (UpgradePlugin upgradeServices localConfig "T1" "marketplace" []
        "alice/calc:1.0@abc" "alice/calc:1.1@def").response =
      .ok (.success { AllInstalled := false, TaskID := "task-1" }) :=
  rfl

/-- The inner loop of `FetchMissingPluginInstallations` reads the first row with the
plugin id. -/
theorem scanInstalled_eq (pluginID pluginUniqueIdentifier : String)
    (installed : List PluginInstallation) :
    scanInstalled pluginID pluginUniqueIdentifier installed =
      match installed.find? fun row => row.PluginID = pluginID with
      | none => (false, none)
      | some row =>
        (true, if row.PluginUniqueIdentifier ≠ pluginUniqueIdentifier then
          some { PluginUniqueIdentifier := pluginUniqueIdentifier
                 CurrentIdentifier := row.PluginUniqueIdentifier }
        else none) := by
  induction installed with
  | nil => rfl
  | cons row rest ih =>
    by_cases h : row.PluginID = pluginID
    · by_cases h2 : row.PluginUniqueIdentifier = pluginUniqueIdentifier <;>
        simp [scanInstalled, List.find?_cons, h, h2]
    · simp [scanInstalled, List.find?_cons, h, ih]

/-- The outer loop of `FetchMissingPluginInstallations` appends `reportFor` of each
requested identifier, in request order. -/
theorem missingLoop_eq (PluginID : String → String) (installed : List PluginInstallation)
    (ids : List String) (result : List MissingPluginDependency) :
    missingLoop PluginID installed ids result =
      result ++ ids.filterMap (reportFor PluginID installed) := by
  induction ids generalizing result with
  | nil => simp [missingLoop]
  | cons id rest ih =>
    simp only [missingLoop, scanInstalled_eq, List.filterMap_cons, reportFor]
    cases hfind : installed.find? fun row => row.PluginID = PluginID id with
    | none => simp [ih]
    | some row =>
      by_cases h2 : row.PluginUniqueIdentifier = id <;> simp [ih, h2]

/-- Closed form of `FetchMissingPluginInstallations` when the query succeeds. -/
theorem FetchMissingPluginInstallations_eq (PluginID : String → String)
    (rows : List PluginInstallation) (tenant_id : String) (ids : List String) :
    FetchMissingPluginInstallations PluginID (.ok rows) tenant_id ids =
      .success (ids.filterMap (reportFor PluginID
        (dbGetAllOfTenant PluginInstallation.TenantID PluginInstallation.PluginID rows
          tenant_id (ids.map PluginID)))) := by
  unfold FetchMissingPluginInstallations
  split
  · rename_i h
    rw [List.length_eq_zero.mp h]; rfl
  · simp [missingLoop_eq]

/-- A tenant with at most 256 rows has all its matching rows on the first page. -/
theorem dbGetAllOfTenant_of_page {α : Type} (tenantOf pluginIdOf : α → String)
    (table : List α) (tenant : String) (pluginIds : List String)
    (hpage : (table.filter fun row => tenantOf row = tenant).length ≤ 256) :
    dbGetAllOfTenant tenantOf pluginIdOf table tenant pluginIds =
      table.filter fun row => tenantOf row = tenant ∧ pluginIdOf row ∈ pluginIds := by
  unfold dbGetAllOfTenant
  apply List.take_of_length_le
  refine le_trans ?_ hpage
  have : (table.filter fun row => decide (tenantOf row = tenant ∧ pluginIdOf row ∈ pluginIds)) =
      (table.filter fun row => decide (tenantOf row = tenant)).filter
        fun row => decide (pluginIdOf row ∈ pluginIds) := by
    rw [List.filter_filter]
    congr 1
    funext row
    simp [Bool.and_comm]
  rw [this]
  exact List.length_filter_le _ _

/-- The rows fetched are rows of the table that satisfy both conditions. -/
theorem mem_dbGetAllOfTenant {α : Type} (tenantOf pluginIdOf : α → String)
    (table : List α) (tenant : String) (pluginIds : List String) (row : α)
    (h : row ∈ dbGetAllOfTenant tenantOf pluginIdOf table tenant pluginIds) :
    row ∈ table ∧ tenantOf row = tenant ∧ pluginIdOf row ∈ pluginIds := by
  have h2 := List.mem_of_mem_take h
  simpa using h2

/-- An entry appended for an identifier carries that identifier. -/
theorem reportFor_identifier (PluginID : String → String) (installed : List PluginInstallation)
    (id : String) (entry : MissingPluginDependency)
    (h : reportFor PluginID installed id = some entry) : entry.PluginUniqueIdentifier = id := by
  unfold reportFor at h
  split at h
  · cases h; rfl
  · split at h
    · cases h; rfl
    · cases h

/-- The keys of the entries kept by `filterMap` form a sublist of the input. -/
theorem filterMap_keys_sublist {α β : Type} (f : α → Option β) (g : β → α)
    (hf : ∀ x y, f x = some y → g y = x) (xs : List α) :
    ((xs.filterMap f).map g).Sublist xs := by
  induction xs with
  | nil => simp
  | cons x rest ih =>
    rw [List.filterMap_cons]
    cases hx : f x with
    | none => exact List.Sublist.cons x ih
    | some y =>
      simp only [List.map_cons]
      rw [hf x y hx]
      exact List.Sublist.cons₂ x ih

/-- C19 fails in the code: for a tenant that has `alice/calc:1.0@abc` and
`alice/calc:1.1@def` installed, `FetchMissingPluginInstallations` reports the requested
`alice/calc:1.1@def` with current identifier `alice/calc:1.0@abc`, although the tenant
has an installation with exactly that unique identifier. -/
theorem C19_installed_identifier_reported_missing :
    FetchMissingPluginInstallations pluginIdBeforeColon (.ok twoVersionsInstalled) "T1"
        ["alice/calc:1.1@def"] =
      .success [{ PluginUniqueIdentifier := "alice/calc:1.1@def"
                  CurrentIdentifier := "alice/calc:1.0@abc" }] ∧
    (∃ row ∈ twoVersionsInstalled, row.TenantID = "T1" ∧
      row.PluginUniqueIdentifier = "alice/calc:1.1@def" ∧
      row.PluginID = pluginIdBeforeColon "alice/calc:1.1@def") ∧
    twoVersionsInstalled.length ≤ 256 := by
  refine ⟨by decide, ⟨twoVersionsInstalled.get ⟨1, by decide⟩, by decide, by decide, by decide, by decide⟩,
    by decide⟩

/-- What `FetchMissingPluginInstallations` reports for a tenant with at most 256 rows:
the reported identifiers are a sublist of the request; an identifier whose plugin id
no row has is reported with an empty current identifier; one whose plugin id is
installed only under other unique identifiers is reported with an installed one; and
when the tenant has one unique identifier per plugin id, an identifier it has
installed is not reported. -/
theorem FetchMissingPluginInstallations_reports (PluginID : String → String)
    (rows : List PluginInstallation) (tenant_id : String) (ids : List String)
    (hpage : (rows.filter fun row => row.TenantID = tenant_id).length ≤ 256) :
    ∃ result, FetchMissingPluginInstallations PluginID (.ok rows) tenant_id ids = .success result ∧
      (result.map fun entry => entry.PluginUniqueIdentifier).Sublist ids ∧
      ∀ id ∈ ids,
        ((∀ row ∈ rows, row.TenantID = tenant_id → row.PluginID ≠ PluginID id) →
          { PluginUniqueIdentifier := id, CurrentIdentifier := "" } ∈ result ∧
          ∀ entry ∈ result, entry.PluginUniqueIdentifier = id → entry.CurrentIdentifier = "") ∧
        ((∃ row ∈ rows, row.TenantID = tenant_id ∧ row.PluginID = PluginID id) →
          (∀ row ∈ rows, row.TenantID = tenant_id → row.PluginID = PluginID id →
            row.PluginUniqueIdentifier ≠ id) →
          ∃ row ∈ rows, row.TenantID = tenant_id ∧ row.PluginID = PluginID id ∧
            { PluginUniqueIdentifier := id
              CurrentIdentifier := row.PluginUniqueIdentifier } ∈ result) ∧
        ((∀ row ∈ rows, ∀ other ∈ rows, row.TenantID = tenant_id → other.TenantID = tenant_id →
            row.PluginID = other.PluginID →
            row.PluginUniqueIdentifier = other.PluginUniqueIdentifier) →
          (∃ row ∈ rows, row.TenantID = tenant_id ∧ row.PluginID = PluginID id ∧
            row.PluginUniqueIdentifier = id) →
          ∀ entry ∈ result, entry.PluginUniqueIdentifier ≠ id) := by
  refine ⟨_, FetchMissingPluginInstallations_eq PluginID rows tenant_id ids, ?_, ?_⟩
  · exact filterMap_keys_sublist _ _ (reportFor_identifier PluginID _) ids
  · intro id hid
    rw [dbGetAllOfTenant_of_page _ _ _ _ _ hpage]
    have hmem : ∀ row : PluginInstallation,
        row ∈ rows.filter (fun row => row.TenantID = tenant_id ∧
          row.PluginID ∈ ids.map PluginID) ↔
        row ∈ rows ∧ row.TenantID = tenant_id ∧ row.PluginID ∈ ids.map PluginID := by
      intro row; simp
    refine ⟨?_, ?_, ?_⟩
    · intro hnone
      have hfind : (rows.filter (fun row => row.TenantID = tenant_id ∧
          row.PluginID ∈ ids.map PluginID)).find? (fun row => row.PluginID = PluginID id) =
          none := by
        rw [List.find?_eq_none]
        intro row hrow
        have := (hmem row).mp hrow
        simpa using hnone row this.1 this.2.1
      refine ⟨?_, ?_⟩
      · rw [List.mem_filterMap]
        exact ⟨id, hid, by simp only [reportFor, hfind]⟩
      · intro entry hentry hkey
        rw [List.mem_filterMap] at hentry
        obtain ⟨id2, _, hrep⟩ := hentry
        have hk := reportFor_identifier _ _ _ _ hrep
        have hid2 : id2 = id := hk.symm.trans hkey
        subst hid2
        simp only [reportFor, hfind] at hrep
        cases hrep; rfl
    · intro hsome hdiff
      obtain ⟨row, hrow, htenant, hpid⟩ := hsome
      have hin : row ∈ rows.filter (fun row => row.TenantID = tenant_id ∧
          row.PluginID ∈ ids.map PluginID) :=
        (hmem row).mpr ⟨hrow, htenant, by rw [hpid]; exact List.mem_map_of_mem _ hid⟩
      cases hfind : (rows.filter (fun row => row.TenantID = tenant_id ∧
          row.PluginID ∈ ids.map PluginID)).find? (fun row => row.PluginID = PluginID id) with
      | none =>
        rw [List.find?_eq_none] at hfind
        exact absurd (by simpa using hpid) (hfind row hin)
      | some first =>
        have hfirst := (hmem first).mp (List.mem_of_find?_eq_some hfind)
        have hfp : first.PluginID = PluginID id := by simpa using List.find?_some hfind
        refine ⟨first, hfirst.1, hfirst.2.1, hfp, ?_⟩
        rw [List.mem_filterMap]
        refine ⟨id, hid, ?_⟩
        simp only [reportFor, hfind, if_pos (hdiff first hfirst.1 hfirst.2.1 hfp)]
    · intro hone hsome entry hentry hkey
      obtain ⟨row, hrow, htenant, hpid, hpui⟩ := hsome
      have hin : row ∈ rows.filter (fun row => row.TenantID = tenant_id ∧
          row.PluginID ∈ ids.map PluginID) :=
        (hmem row).mpr ⟨hrow, htenant, by rw [hpid]; exact List.mem_map_of_mem _ hid⟩
      rw [List.mem_filterMap] at hentry
      obtain ⟨id2, _, hrep⟩ := hentry
      have hk := reportFor_identifier _ _ _ _ hrep
      have hid2 : id2 = id := hk.symm.trans hkey
      subst hid2
      cases hfind : (rows.filter (fun row => row.TenantID = tenant_id ∧
          row.PluginID ∈ ids.map PluginID)).find? (fun row => row.PluginID = PluginID id2) with
      | none =>
        rw [List.find?_eq_none] at hfind
        exact absurd (by simpa using hpid) (hfind row hin)
      | some first =>
        have hfirst := (hmem first).mp (List.mem_of_find?_eq_some hfind)
        have hfp : first.PluginID = PluginID id2 := by simpa using List.find?_some hfind
        have hsame : first.PluginUniqueIdentifier = id2 :=
          (hone first hfirst.1 row hrow hfirst.2.1 htenant (hfp.trans hpid.symm)).trans hpui
        simp only [reportFor, hfind, hsame, ne_eq, not_true_eq_false, if_false] at hrep
        cases hrep

/-- The inner loop of `CheckToolExistence` finds a provider exactly when one has the
plugin id and the provider name requested. -/
theorem providerFound_iff (providerId : RequestCheckToolExistence)
    (providers : List ToolInstallation) :
    providerFound providerId providers = true ↔
      ∃ provider ∈ providers, provider.PluginID = providerId.PluginID ∧
        provider.Provider = providerId.ProviderName := by
  induction providers with
  | nil => simp [providerFound]
  | cons provider rest ih =>
    by_cases h : provider.PluginID = providerId.PluginID ∧
        provider.Provider = providerId.ProviderName
    · simp only [providerFound, if_pos h, true_iff]
      exact ⟨provider, List.mem_cons_self _ _, h⟩
    · rw [providerFound, if_neg h, ih]
      simp only [List.mem_cons, exists_eq_or_imp, h, false_or]

/-- The outer loop of `CheckToolExistence` appends one answer per request, in order. -/
theorem existenceLoop_eq (providers : List ToolInstallation)
    (providerIds : List RequestCheckToolExistence) (existence : List Bool) :
    existenceLoop providers providerIds existence =
      existence ++ providerIds.map fun providerId => providerFound providerId providers := by
  induction providerIds generalizing existence with
  | nil => simp [existenceLoop]
  | cons providerId rest ih => simp [existenceLoop, ih]

/-- C20: when the query succeeds, `CheckToolExistence` returns a list of booleans of the
length of the request list, whose i-th element is true exactly when some tool
installation fetched for the tenant has both the plugin id and the provider name of
the i-th request; an empty request list yields an empty list. -/
theorem C20_check_tool_existence (rows : List ToolInstallation) (tenantId : String)
    (providerIds : List RequestCheckToolExistence) :
    ∃ existence, CheckToolExistence (.ok rows) tenantId providerIds = .success existence ∧
      existence.length = providerIds.length ∧
      (∀ (i : Nat) (providerId : RequestCheckToolExistence), providerIds[i]? = some providerId →
        ∃ found, existence[i]? = some found ∧
          (found = true ↔
            ∃ provider ∈ dbGetAllOfTenant ToolInstallation.TenantID ToolInstallation.PluginID
                rows tenantId (providerIds.map fun id => id.PluginID),
              provider.PluginID = providerId.PluginID ∧
                provider.Provider = providerId.ProviderName)) ∧
      (providerIds = [] → existence = []) := by
  refine ⟨_, rfl, ?_, ?_, ?_⟩
  · simp [existenceLoop_eq]
  · intro i providerId hi
    refine ⟨providerFound providerId _, ?_, providerFound_iff _ _⟩
    simp [existenceLoop_eq, List.getElem?_map, hi]
  · intro h
    subst h
    rfl

/-- C20 at a tenant with one tool provider and a request naming it and another. -/
theorem C20_check_tool_existence_witness :
    ∃ existence,
      CheckToolExistence (.ok [{ TenantID := "T1", PluginID := "alice/calc", Provider := "calc" }])
        "T1" [{ PluginID := "alice/calc", ProviderName := "calc" },
              { PluginID := "alice/calc", ProviderName := "other" }] = .success existence ∧
      existence[0]? = some true ∧ existence[1]? = some false := by
  obtain ⟨existence, hresponse, _, helement, _⟩ :=
    C20_check_tool_existence [{ TenantID := "T1", PluginID := "alice/calc", Provider := "calc" }]
      "T1" [{ PluginID := "alice/calc", ProviderName := "calc" },
            { PluginID := "alice/calc", ProviderName := "other" }]
  refine ⟨existence, hresponse, ?_, ?_⟩
  · obtain ⟨found, hfound, hiff⟩ := helement 0 _ rfl
    rw [hfound, hiff.mpr
      ⟨{ TenantID := "T1", PluginID := "alice/calc", Provider := "calc" }, by decide, rfl, rfl⟩]
  · obtain ⟨found, hfound, hiff⟩ := helement 1 _ rfl
    rw [hfound]
    cases found with
    | false => rfl
    | true =>
      obtain ⟨provider, hmem, _, hname⟩ := hiff.mp rfl
      have hp : provider = { TenantID := "T1", PluginID := "alice/calc", Provider := "calc" } := by
        have := (mem_dbGetAllOfTenant _ _ _ _ _ _ hmem).1
        simpa using this
      rw [hp] at hname
      exact absurd hname (by decide)

/-- A failed query makes `CheckToolExistence` return an internal server error, also for
an empty request list. -/
theorem CheckToolExistence_of_failed_query (err : String) (tenantId : String)
    (providerIds : List RequestCheckToolExistence) :
    CheckToolExistence (.error err) tenantId providerIds = .internalServerError err :=
  rfl

/-- A tool installation of another tenant is not found. -/
theorem CheckToolExistence_of_other_tenant :
    CheckToolExistence (.ok [{ TenantID := "T2", PluginID := "alice/calc", Provider := "calc" }])
      "T1" [{ PluginID := "alice/calc", ProviderName := "calc" }] = .success [false] := by
  decide

/-! ## The running total of the size limit -/

/-- C26 fails in the code: an archive whose only entry declares `2^63` bytes passes the
limit 1000.  The conversion `int64(file.UncompressedSize64)` gives `-2^63`, the running
total is negative, no size error is returned and the decoder constructor is called,
although the exact sum of the declared sizes exceeds the limit. -/
theorem C26_entry_of_two_pow_63_passes_limit :
    wrappingEntryServices.NewReader [] = .ok wrappingEntry ∧
    (1000 : Int) < (declaredTotal wrappingEntry.File : Int) ∧
    int64OfUint64 (2 ^ 63) = -2 ^ 63 ∧
    sizeLimitExceeded 1000 wrappingEntry.File 0 = false ∧
    (NewZipPluginDecoderWithSizeLimit wrappingEntryServices [] 1000).returnedAt =
      .constructed ∧
    (NewZipPluginDecoderWithSizeLimit wrappingEntryServices [] 1000).decodersConstructed = 1 := by
  refine ⟨rfl, by decide, by decide, by decide, ?_, ?_⟩ <;>
    simp only [NewZipPluginDecoderWithSizeLimit, wrappingEntryServices,
      show sizeLimitExceeded 1000 wrappingEntry.File 0 = false by decide] <;> rfl

/-- The running total also wraps when every entry declares less than `2^63` bytes: two
entries of `2^62` bytes pass the limit `2^62`. -/
theorem running_total_wraps_on_sum :
    (∀ f ∈ wrappingSum.File, f.UncompressedSize64 < 2 ^ 63) ∧
    (2 ^ 62 : Int) < (declaredTotal wrappingSum.File : Int) ∧
    sizeLimitExceeded (2 ^ 62) wrappingSum.File 0 = false := by
  refine ⟨by decide, by decide, by decide⟩

/-! ## Success of an install worker -/

/-- A property of every element of `x :: xs`, indexed from `k`, splits into the
property of `x` at `k` and that of `xs` from `k + 1`. -/
theorem forall_getElem?_cons {α : Type} (P : Nat → α → Prop) (k : Nat) (x : α) (xs : List α) :
    (∀ (i : Nat) (y : α), (x :: xs)[i]? = some y → P (k + i) y) ↔
      P k x ∧ ∀ (i : Nat) (y : α), xs[i]? = some y → P (k + 1 + i) y := by
  constructor
  · intro h
    refine ⟨h 0 x (by simp), fun i y hy => ?_⟩
    have := h (i + 1) y (by simpa using hy)
    rwa [show k + (i + 1) = k + 1 + i by omega] at this
  · rintro ⟨h0, hs⟩ i y hy
    cases i with
    | zero =>
      simp only [List.getElem?_cons_zero, Option.some.injEq] at hy
      subst hy
      exact h0
    | succ i =>
      have := hs i y (by simpa using hy)
      rwa [show k + 1 + i = k + (i + 1) by omega] at this

/-- The stream loop ends in the success update exactly when every read gives a
message, none is an error event, and `onDone` returns no error at each done event. -/
theorem consumeStream_success_iff (onDone : InstallPluginOnDoneHandler) (w : InstallWorker)
    (meta : MetaMap) :
    ∀ (stream : List StreamRead) (k : Nat) (run : WorkerRun), Modifier.success ∉ run.updates →
      (Modifier.success ∈ (consumeStream onDone w meta k stream run).updates ↔
        ∀ (i : Nat) (read : StreamRead), stream[i]? = some read →
          ∃ message, read = .ok message ∧ message.Event ≠ .PluginInstallEventError ∧
            (message.Event = .PluginInstallEventDone →
              onDone (k + i) w.pluginUniqueIdentifier w.declaration meta = none)) := by
  intro stream
  induction stream with
  | nil =>
    intro k run _
    simp [consumeStream]
  | cons r rest ih =>
    intro k run hrun
    rw [forall_getElem?_cons
      (fun j (read : StreamRead) => ∃ message, read = .ok message ∧
        message.Event ≠ .PluginInstallEventError ∧
        (message.Event = .PluginInstallEventDone →
          onDone j w.pluginUniqueIdentifier w.declaration meta = none))]
    unfold consumeStream
    cases r with
    | error err =>
      simp [WorkerRun.fail, hrun]
    | ok message =>
      simp only
      by_cases hE : message.Event = .PluginInstallEventError
      · simp [hE, WorkerRun.fail, hrun]
      · rw [if_neg hE]
        by_cases hD : message.Event = .PluginInstallEventDone
        · rw [if_pos hD]
          cases hdone : onDone k w.pluginUniqueIdentifier w.declaration meta with
          | some err =>
            simp [WorkerRun.fail, hrun, hD, hdone]
          | none =>
            simp only
            refine Iff.trans (ih (k + 1) _ ?_) ?_
            · exact hrun
            · simp [hE, hD, hdone]
        · rw [if_neg hD]
          refine Iff.trans (ih (k + 1) _ ?_) ?_
          · exact hrun
          · simp [hE, hD]

/-- A stream loop that ends in the success update called `onDone` once for each done
event of the stream. -/
theorem consumeStream_onDoneCalls (onDone : InstallPluginOnDoneHandler) (w : InstallWorker)
    (meta : MetaMap) :
    ∀ (stream : List StreamRead) (k : Nat) (run : WorkerRun),
      Modifier.success ∈ (consumeStream onDone w meta k stream run).updates →
      Modifier.success ∉ run.updates →
      (consumeStream onDone w meta k stream run).onDoneCalls =
        run.onDoneCalls ++
          List.replicate
            (stream.filter isDoneRead).length
            (OnDoneCall.mk w.pluginUniqueIdentifier w.declaration meta) := by
  intro stream
  induction stream with
  | nil => intro k run _ _; simp [consumeStream]
  | cons r rest ih =>
    intro k run hs hrun
    unfold consumeStream at hs ⊢
    cases r with
    | error err => simp [WorkerRun.fail, hrun] at hs
    | ok message =>
      simp only at hs ⊢
      by_cases hE : message.Event = .PluginInstallEventError
      · simp [hE, WorkerRun.fail, hrun] at hs
      · rw [if_neg hE] at hs ⊢
        by_cases hD : message.Event = .PluginInstallEventDone
        · rw [if_pos hD] at hs ⊢
          cases hdone : onDone k w.pluginUniqueIdentifier w.declaration meta with
          | some err => simp [hdone, WorkerRun.fail, hrun] at hs
          | none =>
            simp only [hdone] at hs ⊢
            rw [ih (k + 1) _ hs hrun]
            simp [List.filter_cons, isDoneRead, hD, List.replicate_succ]
        · rw [if_neg hD] at hs ⊢
          rw [ih (k + 1) _ hs hrun]
          simp [List.filter_cons, isDoneRead, hD]

/-- C27, as stated, fails: a local install whose stream reports progress and is closed
without a done event makes the worker issue the success update without any call of
`onDone`, and that update stores the slot as `success` with message `Installed` and
`CompletedPlugins` incremented. -/
theorem C27_stream_without_done_marks_success :
    infoOnlyStream.filter isDoneRead = [] ∧
    startInstall installsWithoutDone localWorker = .called [] (.ok infoOnlyStream) ∧
    (runWorker installsWithoutDone onDoneOk localWorker).updates = [.running, .success] ∧
    (runWorker installsWithoutDone onDoneOk localWorker).onDoneCalls = [] ∧
    (updateTaskStatus "p" .success true
      (some { ID := "task-1", Status := .running, TenantID := "T1", TotalPlugins := 1
              CompletedPlugins := 0
              Plugins := [{ PluginUniqueIdentifier := "p", PluginID := "p", Status := .running
                            Icon := "", IconDark := "", Labels := ""
                            Message := "Installing" }] })).stored =
      some { ID := "task-1", Status := .success, TenantID := "T1", TotalPlugins := 1
             CompletedPlugins := 1
             Plugins := [{ PluginUniqueIdentifier := "p", PluginID := "p", Status := .success
                           Icon := "", IconDark := "", Labels := ""
                           Message := "Installed" }] } := by
  refine ⟨rfl, rfl, rfl, rfl, by decide⟩

/-- C27, amended: for every event stream consumed by an install worker, the worker
issues the success update if and only if the stream closes after reads that all
succeed, none of them an error event, `onDone` having returned no error for each done
event consumed; in that case `onDone` was called once per done event of the stream (so
not at all for a stream without done event); the success update is the only one that
turns a slot into `success`, and it sets the message `Installed` and increments
`CompletedPlugins`. -/
theorem C27_success_iff_stream_closes_clean (mgr : ManagerServices)
    (onDone : InstallPluginOnDoneHandler) (w : InstallWorker) (meta : MetaMap)
    (stream : List StreamRead) (hstart : startInstall mgr w = .called meta (.ok stream)) :
    (Modifier.success ∈ (runWorker mgr onDone w).updates ↔
      ∀ (i : Nat) (read : StreamRead), stream[i]? = some read →
        ∃ message, read = .ok message ∧ message.Event ≠ .PluginInstallEventError ∧
          (message.Event = .PluginInstallEventDone →
            onDone i w.pluginUniqueIdentifier w.declaration meta = none)) ∧
    (Modifier.success ∈ (runWorker mgr onDone w).updates →
      (runWorker mgr onDone w).onDoneCalls =
        List.replicate
          (stream.filter isDoneRead).length
          (OnDoneCall.mk w.pluginUniqueIdentifier w.declaration meta)) ∧
    (∀ (m : Modifier) (slot : InstallTaskPluginStatus),
      (m.onPlugin slot).Status = .success ∧ slot.Status ≠ .success → m = .success) ∧
    (∀ (slot : InstallTaskPluginStatus) (task : InstallTask),
      (Modifier.success.onPlugin slot).Status = .success ∧
      (Modifier.success.onPlugin slot).Message = "Installed" ∧
      (Modifier.success.onTask task).CompletedPlugins = task.CompletedPlugins + 1) := by
  have hrun : Modifier.success ∉
      ({ updates := [.running], consumed := 0, onDoneCalls := []
         installerMetas := [] ++ [meta], panicked := false } : WorkerRun).updates := by
    simp
  refine ⟨?_, ?_, ?_, ?_⟩
  · have h := consumeStream_success_iff onDone w meta stream 0 _ hrun
    simp only [Nat.zero_add] at h
    simpa only [runWorker, hstart, afterInstall] using h
  · intro hs
    have hs2 : Modifier.success ∈ (consumeStream onDone w meta 0 stream
        { updates := [.running], consumed := 0, onDoneCalls := []
          installerMetas := [] ++ [meta], panicked := false }).updates := by
      simpa only [runWorker, hstart, afterInstall] using hs
    have h := consumeStream_onDoneCalls onDone w meta stream 0 _ hs2 hrun
    simpa only [runWorker, hstart, afterInstall, List.nil_append] using h
  · rintro m slot ⟨hm, hslot⟩
    cases m with
    | running => simp [Modifier.onPlugin] at hm
    | failed message => simp [Modifier.onPlugin] at hm
    | success => rfl
  · intro slot task
    refine ⟨rfl, rfl, ?_⟩
    simp only [Modifier.onTask]
    split <;> rfl

/-- C27 at a local install whose stream reports progress, then done. -/
theorem C27_success_iff_stream_closes_clean_witness :
    Modifier.success ∈ (runWorker installsSucceed onDoneOk localWorker).updates ∧
    (runWorker installsSucceed onDoneOk localWorker).onDoneCalls =
      [OnDoneCall.mk "p" plainDeclaration []] :=
  have h := C27_success_iff_stream_closes_clean installsSucceed onDoneOk localWorker []
    doneStream rfl
  have hs : Modifier.success ∈ (runWorker installsSucceed onDoneOk localWorker).updates :=
    by decide
  ⟨hs, h.2.1 hs⟩

/-! ## Removing an item from an install task -/

/-- The first loop of `DeletePluginInstallationItemFromTask` keeps the slots of other
identifiers, in their order. -/
theorem keepOtherSlots_eq (identifier : String) (slots plugins : List InstallTaskPluginStatus) :
    keepOtherSlots identifier slots plugins =
      plugins ++ slots.filter fun slot => slot.PluginUniqueIdentifier ≠ identifier := by
  induction slots generalizing plugins with
  | nil => simp [keepOtherSlots]
  | cons slot rest ih =>
    by_cases h : slot.PluginUniqueIdentifier = identifier <;>
      simp [keepOtherSlots, ih, h]

/-- The success count equals the number of slots exactly when every slot is a
success. -/
theorem countSuccesses_eq_length_iff (ps : List InstallTaskPluginStatus) :
    ps.length = countSuccesses ps ↔ ∀ p ∈ ps, p.Status = .success := by
  refine ⟨fun h => countSuccesses_eq_length ps h.symm, fun h => ?_⟩
  induction ps with
  | nil => rfl
  | cons p ps ih =>
    have hp : p.Status = .success := h p (List.mem_cons_self _ _)
    have := ih fun q hq => h q (List.mem_cons_of_mem _ hq)
    simp [countSuccesses, hp, this]

/-- C29: for every stored install task and every identifier, a successful
`DeletePluginInstallationItemFromTask` found the task and either deleted its row, which
it does exactly when every slot whose identifier differs from the given one has status
success (also when no slot remains), or else stored the task with its slots replaced
by the original slots whose identifier differs from the given one, in their original
order, the other fields unchanged; when the lookup does not find the task nothing is
written and the response is an internal server error. -/
theorem C29_delete_item_from_task (db : TaskItemServices)
    (tenant_id task_id identifier : String) :
    ((DeletePluginInstallationItemFromTask db tenant_id task_id identifier).response =
        .success true →
      ∃ item, db.GetOneTask task_id tenant_id = .found item ∧
        ((∀ slot ∈ item.Plugins, slot.PluginUniqueIdentifier ≠ identifier →
            slot.Status = .success) →
          (DeletePluginInstallationItemFromTask db tenant_id task_id identifier).written =
            [.delete item]) ∧
        (¬ (∀ slot ∈ item.Plugins, slot.PluginUniqueIdentifier ≠ identifier →
            slot.Status = .success) →
          (DeletePluginInstallationItemFromTask db tenant_id task_id identifier).written =
            [.update { ID := item.ID, Status := item.Status, TenantID := item.TenantID
                       TotalPlugins := item.TotalPlugins
                       CompletedPlugins := item.CompletedPlugins
                       Plugins := item.Plugins.filter fun slot =>
                         slot.PluginUniqueIdentifier ≠ identifier }])) ∧
    ((∀ item, db.GetOneTask task_id tenant_id ≠ .found item) →
      (DeletePluginInstallationItemFromTask db tenant_id task_id identifier).written = [] ∧
      ∃ message,
        (DeletePluginInstallationItemFromTask db tenant_id task_id identifier).response =
          .internalServerError message) := by
  have hcond : ∀ item : InstallTask,
      (keepOtherSlots identifier item.Plugins []).length =
          countSuccesses (keepOtherSlots identifier item.Plugins []) ↔
        ∀ slot ∈ item.Plugins, slot.PluginUniqueIdentifier ≠ identifier →
          slot.Status = .success := by
    intro item
    rw [countSuccesses_eq_length_iff, keepOtherSlots_eq]
    simp
  constructor
  · intro hresp
    unfold DeletePluginInstallationItemFromTask at hresp ⊢
    cases hget : db.GetOneTask task_id tenant_id with
    | notFound => simp [hget] at hresp
    | failed err => simp [hget] at hresp
    | found item =>
      refine ⟨item, rfl, ?_, ?_⟩
      · intro hall
        simp only [hget, if_pos ((hcond item).mpr hall)] at hresp ⊢
        cases hdel : db.Delete item with
        | some err => simp [hdel] at hresp
        | none => rfl
      · intro hnot
        simp only [hget, if_neg (fun h => hnot ((hcond item).mp h))] at hresp ⊢
        cases hupd : db.Update { item with
            Plugins := keepOtherSlots identifier item.Plugins [] } with
        | some err => simp [hupd] at hresp
        | none => simp [keepOtherSlots_eq]
  · intro hnone
    unfold DeletePluginInstallationItemFromTask
    cases hget : db.GetOneTask task_id tenant_id with
    | notFound => exact ⟨rfl, _, rfl⟩
    | failed err => exact ⟨rfl, _, rfl⟩
    | found item => exact absurd hget (hnone item)

/-- C29 at a task of three slots from which the failed one is removed, and at a
lookup for another tenant. -/
theorem C29_delete_item_from_task_witness :
    (DeletePluginInstallationItemFromTask storeWithThreeSlotTask "T1" "task-1" "q").written =
      [.update { threeSlotTask with
        Plugins :=
          [{ PluginUniqueIdentifier := "p", PluginID := "p", Status := .success, Icon := ""
             IconDark := "", Labels := "", Message := "Installed" },
           { PluginUniqueIdentifier := "r", PluginID := "r", Status := .running, Icon := ""
             IconDark := "", Labels := "", Message := "Installing" }] }] ∧
    (DeletePluginInstallationItemFromTask storeWithThreeSlotTask "T2" "task-1" "q").written = [] := by
  obtain ⟨hsuccess, hlookup⟩ :=
    C29_delete_item_from_task storeWithThreeSlotTask "T1" "task-1" "q"
  obtain ⟨item, hitem, _, hupdate⟩ := hsuccess (by decide)
  have hfound : item = threeSlotTask := by
    have h : storeWithThreeSlotTask.GetOneTask "task-1" "T1" = .found threeSlotTask := by decide
    rw [h] at hitem
    exact (DbGet.found.inj hitem).symm
  subst hfound
  exact ⟨(hupdate (by decide)).trans (by decide), by decide⟩

/-- Removing the failed slot from a task whose only other slot is installed deletes
the row. -/
theorem delete_item_of_all_installed :
    (DeletePluginInstallationItemFromTask
      { storeWithThreeSlotTask with
        GetOneTask := fun _ _ => .found { threeSlotTask with Plugins := threeSlotTask.Plugins.take 2 } }
      "T1" "task-1" "q").written =
      [.delete { threeSlotTask with Plugins := threeSlotTask.Plugins.take 2 }] := by
  decide

/-- A failing `db.Update` gives an internal server error and writes nothing. -/
theorem delete_item_of_failed_write :
    DeletePluginInstallationItemFromTask
      { storeWithThreeSlotTask with Update := fun _ => some "database is locked" }
      "T1" "task-1" "q" =
      { response := .internalServerError "database is locked", written := [] } := by
  decide

/-! ## The Python environment of a local runtime -/

/-- A split has at least one piece. -/
theorem splitOnChar_ne_nil (sep : Char) (s : List Char) : splitOnChar sep s ≠ [] := by
  induction s with
  | nil => simp [splitOnChar]
  | cons c cs ih =>
    unfold splitOnChar
    split
    · simp
    · split <;> simp

/-- Joining the pieces of a split with the separator gives the text back. -/
theorem splitOnChar_intercalate (sep : Char) (s : List Char) :
    [sep].intercalate (splitOnChar sep s) = s := by
  induction s with
  | nil => simp [splitOnChar, List.intercalate]
  | cons c cs ih =>
    unfold splitOnChar
    by_cases h : c = sep
    · rw [if_pos h]
      cases hs : splitOnChar sep cs with
      | nil => exact absurd hs (splitOnChar_ne_nil sep cs)
      | cons piece pieces =>
        rw [hs] at ih
        rw [← ih, h]
        simp [List.intercalate, List.intersperse]
    · rw [if_neg h]
      cases hs : splitOnChar sep cs with
      | nil => exact absurd hs (splitOnChar_ne_nil sep cs)
      | cons piece pieces =>
        rw [hs] at ih
        rw [← ih]
        cases pieces <;> simp [List.intercalate, List.intersperse]

/-- No piece of a split holds the separator. -/
theorem splitOnChar_pieces (sep : Char) (s : List Char) :
    ∀ piece ∈ splitOnChar sep s, sep ∉ piece := by
  induction s with
  | nil => simp [splitOnChar]
  | cons c cs ih =>
    unfold splitOnChar
    by_cases h : c = sep
    · rw [if_pos h]
      intro piece hp
      rcases List.mem_cons.mp hp with hp | hp
      · simp [hp]
      · exact ih piece hp
    · rw [if_neg h]
      cases hs : splitOnChar sep cs with
      | nil => exact absurd hs (splitOnChar_ne_nil sep cs)
      | cons first pieces =>
        rw [hs] at ih
        intro piece hp
        rcases List.mem_cons.mp hp with hp | hp
        · subst hp
          have := ih first (List.mem_cons_self _ _)
          simp [Ne.symm h, this]
        · exact ih piece (List.mem_cons_of_mem _ hp)

/-- C23: for every builder configuration, the argument list passed to the package
installer is `install`, `--disable-pip-version-check`, followed in this order by
`--proxy` with `HttpProxy` if that is non-empty, otherwise `--proxy` with `HttpsProxy` if
that is non-empty; `-i` with the mirror if one is set; `-r`, `requirements.txt`;
`--prefer-binary` if enabled; `-vvv` if verbose; and, if the extra-arguments string is
non-empty, its split on single spaces, whose pieces hold no space and give the string
back when joined with single spaces. -/
theorem C23_pip_install_arguments (p : LocalPluginRuntime) :
    p.pipInstallArgs =
      ["install", "--disable-pip-version-check"] ++
      (if p.HttpProxy ≠ "" then ["--proxy", p.HttpProxy]
        else if p.HttpsProxy ≠ "" then ["--proxy", p.HttpsProxy] else []) ++
      (if p.pipMirrorUrl ≠ "" then ["-i", p.pipMirrorUrl] else []) ++
      ["-r", "requirements.txt"] ++
      (if p.pipPreferBinary then ["--prefer-binary"] else []) ++
      (if p.pipVerbose then ["-vvv"] else []) ++
      (if p.pipExtraArgs ≠ "" then stringsSplit p.pipExtraArgs ' ' else []) ∧
    ((stringsSplit p.pipExtraArgs ' ').map String.data =
        splitOnChar ' ' p.pipExtraArgs.data ∧
      [' '].intercalate (splitOnChar ' ' p.pipExtraArgs.data) = p.pipExtraArgs.data ∧
      ∀ piece ∈ stringsSplit p.pipExtraArgs ' ', ' ' ∉ piece.data) := by
  refine ⟨?_, ?_, splitOnChar_intercalate _ _, ?_⟩
  · unfold LocalPluginRuntime.pipInstallArgs
    by_cases h1 : p.HttpProxy = "" <;> by_cases h2 : p.HttpsProxy = "" <;>
      by_cases h3 : p.pipMirrorUrl = "" <;> by_cases h4 : p.pipExtraArgs = "" <;>
      cases p.pipPreferBinary <;> cases p.pipVerbose <;> simp [h1, h2, h3, h4]
  · simp [stringsSplit, Function.comp_def]
  · intro piece hp
    simp only [stringsSplit, List.mem_map] at hp
    obtain ⟨cs, hcs, rfl⟩ := hp
    exact splitOnChar_pieces _ _ cs hcs

/-- C23 at a runtime behind an HTTPS proxy with a mirror and extra arguments. -/
theorem C23_pip_install_arguments_witness :
    runtimeBehindProxy.pipInstallArgs =
      ["install", "--disable-pip-version-check", "--proxy", "https://proxy:3128", "-i",
       "https://mirror.example/simple", "-r", "requirements.txt", "--prefer-binary",
       "--no-cache-dir", "--retries", "3"] ∧
    ' ' ∉ "--retries".data :=
  ⟨(C23_pip_install_arguments runtimeBehindProxy).1.trans (by decide),
   (C23_pip_install_arguments runtimeBehindProxy).2.2.2 "--retries" (by decide)⟩

/-- With both proxies set only the HTTP proxy is passed. -/
theorem pip_arguments_with_both_proxies :
    ({ runtimeBehindProxy with HttpProxy := "http://proxy:3128" }).pipInstallArgs.count
      "--proxy" = 1 := by
  decide

/-- Two consecutive spaces in the extra arguments give an empty argument. -/
theorem stringsSplit_of_double_space :
    stringsSplit "--no-cache-dir  --retries" ' ' = ["--no-cache-dir", "", "--retries"] := by
  decide

/-- The group matches the longest run of class characters, when that is not empty. -/
theorem versionRun_eq_some (tail version : List Char) :
    versionRun tail = some version ↔
      version = tail.takeWhile isVersionChar ∧ version ≠ [] := by
  unfold versionRun
  split
  · rename_i h
    constructor
    · intro h2; cases h2
    · rintro ⟨rfl, hne⟩; exact absurd h hne
  · rename_i h
    constructor
    · intro h2
      cases h2
      exact ⟨rfl, h⟩
    · rintro ⟨rfl, _⟩; rfl

/-- A match at the start of `s` is `dify`, `_` or `-`, `plugin`, `~=` or `==`, and a
non-empty longest run of class characters. -/
theorem sdkPinAt_eq_some (s version : List Char) :
    sdkPinAt s = some version ↔
      ∃ (sep : Char) (op tail : List Char), (sep = '_' ∨ sep = '-') ∧
        (op = "~=".data ∨ op = "==".data) ∧
        s = "dify".data ++ sep :: ("plugin".data ++ (op ++ tail)) ∧
        version = tail.takeWhile isVersionChar ∧ version ≠ [] := by
  constructor
  · intro h
    unfold sdkPinAt at h
    split at h
    · cases h
    · cases h
    · rename_i c rest hdify
      split at h
      · rename_i hsep
        split at h
        · cases h
        · rename_i afterName hname
          split at h
          · rename_i tail hop
            obtain ⟨hv, hne⟩ := (versionRun_eq_some _ _).1 h
            refine ⟨c, "~=".data, tail, hsep, Or.inl rfl, ?_, hv, hne⟩
            rw [(dropLeading_eq_some _ _ _).1 hdify, (dropLeading_eq_some _ _ _).1 hname,
              (dropLeading_eq_some _ _ _).1 hop]
          · split at h
            · rename_i tail hop
              obtain ⟨hv, hne⟩ := (versionRun_eq_some _ _).1 h
              refine ⟨c, "==".data, tail, hsep, Or.inr rfl, ?_, hv, hne⟩
              rw [(dropLeading_eq_some _ _ _).1 hdify, (dropLeading_eq_some _ _ _).1 hname,
                (dropLeading_eq_some _ _ _).1 hop]
            · cases h
      · cases h
  · rintro ⟨sep, op, tail, hsep, hop, rfl, hv, hne⟩
    have hrun : versionRun tail = some version := (versionRun_eq_some _ _).2 ⟨hv, hne⟩
    have hdify : dropLeading "dify".data
        ("dify".data ++ sep :: ("plugin".data ++ (op ++ tail))) =
        some (sep :: ("plugin".data ++ (op ++ tail))) :=
      (dropLeading_eq_some _ _ _).2 rfl
    have hname : dropLeading "plugin".data ("plugin".data ++ (op ++ tail)) =
        some (op ++ tail) := (dropLeading_eq_some _ _ _).2 rfl
    unfold sdkPinAt
    rw [hdify]
    simp only [if_pos hsep, hname]
    rcases hop with rfl | rfl
    · have h1 : dropLeading "~=".data ("~=".data ++ tail) = some tail :=
        (dropLeading_eq_some _ _ _).2 rfl
      simp only [h1, hrun]
    · have h1 : dropLeading "~=".data ("==".data ++ tail) = none := by
        simp [dropLeading]
      have h2 : dropLeading "==".data ("==".data ++ tail) = some tail :=
        (dropLeading_eq_some _ _ _).2 rfl
      simp only [h1, h2, hrun]

/-- A match at the first character is the leftmost match. -/
theorem sdkVersionFind_of_sdkPinAt (s version : List Char)
    (h : sdkPinAt s = some version) : sdkVersionFind s = some version := by
  cases s with
  | nil => simp [sdkPinAt, dropLeading] at h
  | cons c cs => simp [sdkVersionFind, h]

/-- A result of the search comes from a match at some position. -/
theorem sdkVersionFind_eq_some (s version : List Char)
    (h : sdkVersionFind s = some version) :
    ∃ pre t, s = pre ++ t ∧ sdkPinAt t = some version := by
  induction s with
  | nil => simp [sdkVersionFind] at h
  | cons c cs ih =>
    unfold sdkVersionFind at h
    cases hpin : sdkPinAt (c :: cs) with
    | some v =>
      simp only [hpin, Option.some.injEq] at h
      subst h
      exact ⟨[], c :: cs, rfl, hpin⟩
    | none =>
      simp only [hpin] at h
      obtain ⟨pre, t, hs, ht⟩ := ih h
      exact ⟨c :: pre, t, by rw [hs]; rfl, ht⟩

/-- The longest run of a list whose elements all satisfy the test is the list. -/
theorem takeWhile_eq_self {α : Type} (p : α → Bool) (l : List α) (h : ∀ x ∈ l, p x = true) :
    l.takeWhile p = l := by
  induction l with
  | nil => rfl
  | cons x xs ih =>
    simp [List.takeWhile, h x (List.mem_cons_self _ _),
      ih fun y hy => h y (List.mem_cons_of_mem _ hy)]

/-- C24: for every non-empty version `v` made of digits, dots and lowercase letters, and
each requirements text consisting of the single pin `dify_plugin==v`, `dify-plugin==v`,
`dify_plugin~=v` or `dify-plugin~=v`, `getPluginSdkVersion` returns `v` without error;
for every requirements text without an occurrence of `dify_plugin` or `dify-plugin`
immediately followed by `==` or `~=` and at least one such character, it returns the
error `failed to find the version of the plugin sdk`. -/
theorem C24_sdk_version_extraction :
    (∀ (version : List Char), version ≠ [] → (∀ c ∈ version, isVersionChar c = true) →
      ∀ name ∈ ["dify_plugin", "dify-plugin"], ∀ op ∈ ["==", "~="],
        getPluginSdkVersion (name ++ op ++ String.mk version) = .ok (String.mk version)) ∧
    (∀ requirements : String,
      (¬ ∃ (pre post : List Char) (name op : String) (c : Char),
        name ∈ ["dify_plugin", "dify-plugin"] ∧ op ∈ ["==", "~="] ∧ isVersionChar c = true ∧
        requirements.data = pre ++ (name.data ++ (op.data ++ c :: post))) →
      getPluginSdkVersion requirements =
        .error "failed to find the version of the plugin sdk") := by
  constructor
  · intro version hne hall name hname op hop
    have htake : version.takeWhile isVersionChar = version := takeWhile_eq_self _ _ hall
    have hpin : sdkPinAt (name ++ op ++ String.mk version).data = some version := by
      rw [sdkPinAt_eq_some]
      simp only [List.mem_cons, List.mem_singleton, List.not_mem_nil, or_false] at hname hop
      rcases hname with rfl | rfl <;> rcases hop with rfl | rfl
      · exact ⟨'_', "==".data, version, Or.inl rfl, Or.inr rfl, rfl, htake.symm, hne⟩
      · exact ⟨'_', "~=".data, version, Or.inl rfl, Or.inl rfl, rfl, htake.symm, hne⟩
      · exact ⟨'-', "==".data, version, Or.inr rfl, Or.inr rfl, rfl, htake.symm, hne⟩
      · exact ⟨'-', "~=".data, version, Or.inr rfl, Or.inl rfl, rfl, htake.symm, hne⟩
    simp only [getPluginSdkVersion, sdkVersionFind_of_sdkPinAt _ _ hpin]
  · intro requirements hnone
    cases hfind : sdkVersionFind requirements.data with
    | none => simp only [getPluginSdkVersion, hfind]
    | some version =>
      exfalso
      apply hnone
      obtain ⟨pre, t, hs, ht⟩ := sdkVersionFind_eq_some _ _ hfind
      obtain ⟨sep, op, tail, hsep, hop, rfl, hv, hvne⟩ := (sdkPinAt_eq_some _ _).1 ht
      cases htail : tail with
      | nil => rw [htail] at hv; exact absurd hv hvne
      | cons c post =>
        have hc : isVersionChar c = true := by
          by_contra hc
          rw [htail] at hv
          simp [List.takeWhile, hc] at hv
          exact hvne hv
        refine ⟨pre, post, String.mk ("dify".data ++ sep :: "plugin".data), String.mk op, c,
          ?_, ?_, hc, ?_⟩
        · rcases hsep with rfl | rfl <;> decide
        · rcases hop with rfl | rfl <;> decide
        · rw [hs, htail]
          simp

/-- C24 at the pin `dify_plugin==0.0.1b69`, and the error for a text without pin. -/
theorem C24_sdk_version_extraction_witness :
    getPluginSdkVersion "dify_plugin==0.0.1b69" = .ok "0.0.1b69" ∧
    getPluginSdkVersion "requests>=2.0\ndify_plugin>=0.0.1" =
      .error "failed to find the version of the plugin sdk" :=
  ⟨C24_sdk_version_extraction.1 "0.0.1b69".data (by decide) (by decide) "dify_plugin"
      (by decide) "==" (by decide),
   rfl⟩

/-- The version returned is that of the leftmost pin, up to the first character
outside the class. -/
theorem sdk_version_of_leftmost_pin :
    getPluginSdkVersion "requests\ndify-plugin~=0.1.0,<0.2\ndify_plugin==9" = .ok "0.1.0" :=
  rfl

/-! ## Asset references and model files of a manifest -/

/-- One test is the search of an absent reference in a list of one. -/
theorem checkIcon_eq_find (assets : GoMap Bytes) (reference text : String) :
    checkIcon assets reference text =
      ([(reference, text)].find? (absentReference assets)).map Prod.snd := by
  unfold checkIcon
  by_cases h : reference = ""
  · simp [h, absentReference, List.find?]
  · cases hget : assets.get? reference <;>
      simp [h, hget, absentReference, List.find?]

/-- Two searches, the second made when the first finds nothing, are one search in the
concatenation. -/
theorem andThen_find (assets : GoMap Bytes) (first second : List (String × String)) :
    andThen ((first.find? (absentReference assets)).map Prod.snd)
        ((second.find? (absentReference assets)).map Prod.snd) =
      ((first ++ second).find? (absentReference assets)).map Prod.snd := by
  rw [List.find?_append]
  cases first.find? (absentReference assets) <;> simp [andThen]

/-- No test is the search in the empty list. -/
theorem none_eq_find (assets : GoMap Bytes) :
    (none : Option String) =
      (([] : List (String × String)).find? (absentReference assets)).map Prod.snd :=
  rfl

/-- With a manifest and an asset map, `CheckAssetsValid` returns the error text of the
first inspected reference that is absent, if there is one. -/
theorem CheckAssetsValid_eq_find (decoder : AssetsDecoder) (declaration : PluginDeclaration)
    (assets : GoMap Bytes) (hm : decoder.Manifest = .ok declaration)
    (ha : decoder.Assets = .ok assets) :
    PluginDecoderHelper.CheckAssetsValid decoder =
      (declaration.iconChecks.find? (absentReference assets)).map Prod.snd := by
  simp only [PluginDecoderHelper.CheckAssetsValid, hm, ha, PluginDeclaration.iconChecks]
  cases declaration.Tool with
  | none =>
    cases declaration.Model with
    | none =>
      simp only [checkIcon_eq_find, none_eq_find assets, andThen_find]
      rfl
    | some m =>
      dsimp only
      cases m.IconSmall <;> cases m.IconLarge <;>
        simp only [checkIcon_eq_find, none_eq_find assets, andThen_find] <;> rfl
  | some t =>
    cases declaration.Model with
    | none =>
      simp only [checkIcon_eq_find, none_eq_find assets, andThen_find]
      rfl
    | some m =>
      dsimp only
      cases m.IconSmall <;> cases m.IconLarge <;>
        simp only [checkIcon_eq_find, none_eq_find assets, andThen_find] <;> rfl

/-- A reference is absent when it is not empty and is no key of the asset map. -/
theorem absentReference_iff (assets : GoMap Bytes) (check : String × String) :
    absentReference assets check = true ↔ check.1 ≠ "" ∧ check.1 ∉ assets.keys := by
  rw [GoMap.mem_keys_iff]
  cases h : assets.get? check.1 <;> simp [absentReference, h]

/-- C21: when `Manifest()` and `Assets()` succeed, `CheckAssetsValid` returns nil if and
only if every non-empty icon reference it inspects (the model provider's small and
large icons for en_US, zh_Hans, ja_JP and pt_BR, the tool provider icon, the plugin
icon and the plugin dark icon) is a key of the asset map, and otherwise it returns the
error of the first inspected reference that is absent; it returns an error whenever
`Manifest()` or `Assets()` fails. -/
theorem C21_check_assets_valid (decoder : AssetsDecoder) :
    (∀ declaration assets, decoder.Manifest = .ok declaration → decoder.Assets = .ok assets →
      (PluginDecoderHelper.CheckAssetsValid decoder = none ↔
        ∀ check ∈ declaration.iconChecks, check.1 ≠ "" → check.1 ∈ assets.keys) ∧
      PluginDecoderHelper.CheckAssetsValid decoder =
        (declaration.iconChecks.find? fun check =>
          decide (check.1 ≠ "" ∧ check.1 ∉ assets.keys)).map Prod.snd) ∧
    (∀ err, decoder.Manifest = .error err →
      PluginDecoderHelper.CheckAssetsValid decoder =
        some (errorsJoin err "failed to get manifest")) ∧
    (∀ declaration err, decoder.Manifest = .ok declaration → decoder.Assets = .error err →
      PluginDecoderHelper.CheckAssetsValid decoder =
        some (errorsJoin err "failed to get assets")) := by
  refine ⟨?_, ?_, ?_⟩
  · intro declaration assets hm ha
    have hfun : absentReference assets =
        fun check => decide (check.1 ≠ "" ∧ check.1 ∉ assets.keys) := by
      funext check
      rw [Bool.eq_iff_iff, absentReference_iff]
      simp
    rw [CheckAssetsValid_eq_find decoder declaration assets hm ha, hfun]
    refine ⟨?_, rfl⟩
    rw [Option.map_eq_none', List.find?_eq_none]
    constructor
    · intro h check hc hne
      by_contra hnot
      exact h check hc (by simp [hne, hnot])
    · intro h check hc
      simp only [decide_eq_true_eq, not_and, not_not]
      exact h check hc
  · intro err hm
    simp only [PluginDecoderHelper.CheckAssetsValid, hm]
  · intro declaration err hm ha
    simp only [PluginDecoderHelper.CheckAssetsValid, hm, ha]

/-- C21 at a model provider whose small `zh_Hans` icon is no asset. -/
theorem C21_check_assets_valid_witness :
    PluginDecoderHelper.CheckAssetsValid decoderWithoutZhIcon =
      some "model icon small zh_Hans not found" :=
  ((C21_check_assets_valid decoderWithoutZhIcon).1 modelProviderDeclaration
    [("icon.svg", [60]), ("icon_s_en.svg", [60])] rfl rfl).2.trans (by decide)

/-- A package that holds every referenced icon is valid. -/
theorem CheckAssetsValid_of_present_assets :
    PluginDecoderHelper.CheckAssetsValid
      { decoderWithoutZhIcon with
        Assets := .ok [("icon.svg", [60]), ("icon_s_en.svg", [60]), ("icon_s_zh.svg", [60])] } =
      none := by
  decide

/-- A failing `Manifest()` gives the joined error. -/
theorem CheckAssetsValid_of_failed_manifest :
    PluginDecoderHelper.CheckAssetsValid
      { decoderWithoutZhIcon with Manifest := .error "open manifest.yaml: file does not exist" } =
      some "open manifest.yaml: file does not exist\nfailed to get manifest" := by
  decide

/-- The pattern loop reads and parses only the file it is given, and when it ends
without error it loaded the file once for every pattern that matches. -/
theorem modelPatternLoop_spec (sv : ModelWalkServices) (decoder : PluginDecoder)
    (name : String) :
    ∀ (patterns : List String) (st : ModelWalk),
      (∃ n, (modelPatternLoop sv decoder name patterns st).1.read =
        st.read ++ List.replicate n name) ∧
      (∃ n, (modelPatternLoop sv decoder name patterns st).1.parsed =
        st.parsed ++ List.replicate n name) ∧
      ((modelPatternLoop sv decoder name patterns st).2 = none →
        (modelPatternLoop sv decoder name patterns st).1.read =
          st.read ++ (patterns.filter (patternMatches sv name)).map (fun _ => name) ∧
        (modelPatternLoop sv decoder name patterns st).1.parsed =
          st.parsed ++ (patterns.filter (patternMatches sv name)).map (fun _ => name) ∧
        (modelPatternLoop sv decoder name patterns st).1.Models.length =
          st.Models.length + (patterns.filter (patternMatches sv name)).length) := by
  intro patterns
  induction patterns with
  | nil =>
    intro st
    exact ⟨⟨0, by simp [modelPatternLoop]⟩, ⟨0, by simp [modelPatternLoop]⟩,
      fun _ => by simp [modelPatternLoop]⟩
  | cons pattern rest ih =>
    intro st
    unfold modelPatternLoop
    cases hmatch : sv.Match pattern name with
    | error err =>
      exact ⟨⟨0, by simp⟩, ⟨0, by simp⟩, fun h => by simp at h⟩
    | ok matched =>
      cases matched with
      | false =>
        obtain ⟨h1, h2, h3⟩ := ih st
        simp only [Bool.false_eq_true, if_false]
        refine ⟨h1, h2, fun h => ?_⟩
        have := h3 h
        simpa [List.filter_cons, patternMatches, hmatch] using this
      | true =>
        simp only [if_true]
        cases hread : decoder.ReadFile name with
        | error err =>
          exact ⟨⟨1, by simp⟩, ⟨0, by simp⟩, fun h => by simp at h⟩
        | ok modelFile =>
          cases hparse : sv.UnmarshalModel modelFile with
          | error err =>
            simp only [hparse]
            exact ⟨⟨1, by simp⟩, ⟨1, by simp⟩, fun h => by simp at h⟩
          | ok modelDec =>
            simp only [hparse]
            obtain ⟨⟨n, h1⟩, ⟨m, h2⟩, h3⟩ := ih
              { Models := st.Models ++ [modelDec], read := st.read ++ [name]
                parsed := st.parsed ++ [name] }
            refine ⟨⟨n + 1, ?_⟩, ⟨m + 1, ?_⟩, fun h => ?_⟩
            · simp only [h1, List.append_assoc, List.singleton_append]
              rw [List.replicate_succ]
            · simp only [h2, List.append_assoc, List.singleton_append]
              rw [List.replicate_succ]
            · obtain ⟨g1, g2, g3⟩ := h3 h
              refine ⟨?_, ?_, ?_⟩
              · simp only [g1]
                simp [List.filter_cons, patternMatches, hmatch]
              · simp only [g2]
                simp [List.filter_cons, patternMatches, hmatch]
              · simp only [g3]
                simp [List.filter_cons, patternMatches, hmatch]
                omega

/-- The walk function reads and parses no path that ends in `_position.yaml`. -/
theorem modelWalkFn_spec (sv : ModelWalkServices) (decoder : PluginDecoder)
    (patterns : List String) (filename dir : String) (st : ModelWalk) :
    (∃ extra, (modelWalkFn sv decoder patterns filename dir st).1.read = st.read ++ extra ∧
      ∀ name ∈ extra, HasSuffix name "_position.yaml" = false) ∧
    (∃ extra, (modelWalkFn sv decoder patterns filename dir st).1.parsed = st.parsed ++ extra ∧
      ∀ name ∈ extra, HasSuffix name "_position.yaml" = false) ∧
    ((modelWalkFn sv decoder patterns filename dir st).2 = none →
      (modelWalkFn sv decoder patterns filename dir st).1.read =
        st.read ++ expectedLoads sv patterns [(filename, dir)] ∧
      (modelWalkFn sv decoder patterns filename dir st).1.parsed =
        st.parsed ++ expectedLoads sv patterns [(filename, dir)] ∧
      (modelWalkFn sv decoder patterns filename dir st).1.Models.length =
        st.Models.length + (expectedLoads sv patterns [(filename, dir)]).length) := by
  unfold modelWalkFn
  by_cases hpos : HasSuffix (sv.Join dir filename) "_position.yaml" = true
  · simp only [hpos, if_true]
    exact ⟨⟨[], by simp⟩, ⟨[], by simp⟩, fun _ => by simp [expectedLoads, hpos]⟩
  · simp only [hpos, Bool.false_eq_true, if_false]
    have hfalse : HasSuffix (sv.Join dir filename) "_position.yaml" = false := by
      simpa using hpos
    obtain ⟨⟨n, h1⟩, ⟨m, h2⟩, h3⟩ :=
      modelPatternLoop_spec sv decoder (sv.Join dir filename) patterns st
    refine ⟨⟨_, h1, ?_⟩, ⟨_, h2, ?_⟩, fun h => ?_⟩
    · intro name hname
      rw [(List.mem_replicate.mp hname).2]; exact hfalse
    · intro name hname
      rw [(List.mem_replicate.mp hname).2]; exact hfalse
    · obtain ⟨g1, g2, g3⟩ := h3 h
      simp only [expectedLoads, hfalse, Bool.false_eq_true, if_false, List.append_nil,
        List.length_map]
      exact ⟨g1, g2, g3⟩

/-- The expected loads of a walk, entry by entry. -/
theorem expectedLoads_cons (sv : ModelWalkServices) (patterns : List String)
    (entry : String × String) (rest : List (String × String)) :
    expectedLoads sv patterns (entry :: rest) =
      expectedLoads sv patterns [entry] ++ expectedLoads sv patterns rest := by
  obtain ⟨filename, dir⟩ := entry
  simp [expectedLoads]

/-- The model walk reads and parses no path that ends in `_position.yaml`, and a walk
without error made exactly the expected loads. -/
theorem Walk_modelWalkFn_spec (sv : ModelWalkServices) (decoder : PluginDecoder)
    (patterns : List String) :
    ∀ (entries : List (String × String)) (st : ModelWalk),
      (∃ extra, (Walk (modelWalkFn sv decoder patterns) entries st).1.read = st.read ++ extra ∧
        ∀ name ∈ extra, HasSuffix name "_position.yaml" = false) ∧
      (∃ extra, (Walk (modelWalkFn sv decoder patterns) entries st).1.parsed =
          st.parsed ++ extra ∧
        ∀ name ∈ extra, HasSuffix name "_position.yaml" = false) ∧
      ((Walk (modelWalkFn sv decoder patterns) entries st).2 = none →
        (Walk (modelWalkFn sv decoder patterns) entries st).1.read =
          st.read ++ expectedLoads sv patterns entries ∧
        (Walk (modelWalkFn sv decoder patterns) entries st).1.parsed =
          st.parsed ++ expectedLoads sv patterns entries ∧
        (Walk (modelWalkFn sv decoder patterns) entries st).1.Models.length =
          st.Models.length + (expectedLoads sv patterns entries).length) := by
  intro entries
  induction entries with
  | nil =>
    intro st
    exact ⟨⟨[], by simp [Walk]⟩, ⟨[], by simp [Walk]⟩, fun _ => by simp [Walk, expectedLoads]⟩
  | cons entry rest ih =>
    intro st
    obtain ⟨filename, dir⟩ := entry
    obtain ⟨⟨e1, h1, p1⟩, ⟨e2, h2, p2⟩, h3⟩ :=
      modelWalkFn_spec sv decoder patterns filename dir st
    unfold Walk
    cases hfn : modelWalkFn sv decoder patterns filename dir st with
    | mk st1 err =>
      rw [hfn] at h1 h2 h3
      cases err with
      | some err =>
        exact ⟨⟨e1, h1, p1⟩, ⟨e2, h2, p2⟩, fun h => by simp at h⟩
      | none =>
        obtain ⟨⟨f1, k1, q1⟩, ⟨f2, k2, q2⟩, k3⟩ := ih st1
        obtain ⟨g1, g2, g3⟩ := h3 rfl
        simp only at h1 h2 g1 g2 g3 ⊢
        refine ⟨⟨e1 ++ f1, ?_, ?_⟩, ⟨e2 ++ f2, ?_, ?_⟩, fun h => ?_⟩
        · rw [k1, h1, List.append_assoc]
        · intro name hname
          rcases List.mem_append.mp hname with hn | hn
          · exact p1 name hn
          · exact q1 name hn
        · rw [k2, h2, List.append_assoc]
        · intro name hname
          rcases List.mem_append.mp hname with hn | hn
          · exact p2 name hn
          · exact q2 name hn
        · obtain ⟨r1, r2, r3⟩ := k3 h
          rw [expectedLoads_cons]
          refine ⟨?_, ?_, ?_⟩
          · rw [r1, g1, List.append_assoc]
          · rw [r2, g2, List.append_assoc]
          · rw [r3, g3, List.length_append]; omega

/-- A path is among the expected loads when it is the path of a walked file, does not
end in `_position.yaml` and matches a pattern. -/
theorem mem_expectedLoads (sv : ModelWalkServices) (patterns : List String)
    (entries : List (String × String)) (name : String) :
    name ∈ expectedLoads sv patterns entries ↔
      ∃ filename dir, (filename, dir) ∈ entries ∧ sv.Join dir filename = name ∧
        HasSuffix name "_position.yaml" = false ∧
        ∃ pattern ∈ patterns, sv.Match pattern name = .ok true := by
  induction entries with
  | nil => simp [expectedLoads]
  | cons entry rest ih =>
    obtain ⟨filename, dir⟩ := entry
    have hpat : ∀ pattern, patternMatches sv (sv.Join dir filename) pattern = true ↔
        sv.Match pattern (sv.Join dir filename) = .ok true := by
      intro pattern
      unfold patternMatches
      split <;> simp_all
    simp only [expectedLoads, List.mem_append, ih, List.mem_cons, Prod.mk.injEq]
    constructor
    · rintro (h | ⟨f, d, hmem, hrest⟩)
      · by_cases hpos : HasSuffix (sv.Join dir filename) "_position.yaml" = true
        · simp [hpos] at h
        · simp only [hpos, Bool.false_eq_true, if_false, List.mem_map, List.mem_filter] at h
          obtain ⟨pattern, ⟨hp, hm⟩, rfl⟩ := h
          exact ⟨filename, dir, Or.inl ⟨rfl, rfl⟩, rfl, by simpa using hpos, pattern, hp,
            (hpat pattern).1 hm⟩
      · exact ⟨f, d, Or.inr hmem, hrest⟩
    · rintro ⟨f, d, (⟨rfl, rfl⟩ | hmem), hjoin, hpos, pattern, hp, hm⟩
      · left
        subst hjoin
        simp only [hpos, Bool.false_eq_true, if_false, List.mem_map, List.mem_filter]
        exact ⟨pattern, ⟨hp, (hpat pattern).2 hm⟩, trivial⟩
      · exact Or.inr ⟨f, d, hmem, hjoin, hpos, pattern, hp, hm⟩

/-- C22: during manifest resolution, for every model provider and every package, no path
(directory joined with file name) that ends in `_position.yaml` is read or parsed as a
model declaration, whatever the patterns; and when the walk ends without error, every
other walked file was loaded as a model declaration exactly when it matches at least
one of the patterns (once for each pattern it matches), every file read was parsed and
appended to the models. -/
theorem C22_position_files_are_not_models (sv : ModelWalkServices) (decoder : PluginDecoder)
    (entries : List (String × String)) (pluginDec : ModelProviderDeclaration) :
    (∀ name ∈ (readModels sv decoder entries pluginDec).1.read,
      HasSuffix name "_position.yaml" = false) ∧
    (∀ name ∈ (readModels sv decoder entries pluginDec).1.parsed,
      HasSuffix name "_position.yaml" = false) ∧
    ((readModels sv decoder entries pluginDec).2 = none →
      (readModels sv decoder entries pluginDec).1.read =
        expectedLoads sv pluginDec.ModelFiles entries ∧
      (readModels sv decoder entries pluginDec).1.parsed =
        (readModels sv decoder entries pluginDec).1.read ∧
      (readModels sv decoder entries pluginDec).1.Models.length =
        pluginDec.Models.length + (readModels sv decoder entries pluginDec).1.read.length ∧
      ∀ filename dir, (filename, dir) ∈ entries →
        HasSuffix (sv.Join dir filename) "_position.yaml" = false →
        (sv.Join dir filename ∈ (readModels sv decoder entries pluginDec).1.read ↔
          ∃ pattern ∈ pluginDec.ModelFiles,
            sv.Match pattern (sv.Join dir filename) = .ok true)) := by
  obtain ⟨⟨e1, h1, p1⟩, ⟨e2, h2, p2⟩, h3⟩ :=
    Walk_modelWalkFn_spec sv decoder pluginDec.ModelFiles entries
      { Models := pluginDec.Models, read := [], parsed := [] }
  simp only [List.nil_append] at h1 h2 h3
  refine ⟨?_, ?_, fun h => ?_⟩
  · intro name hname
    exact p1 name (by rw [← h1]; exact hname)
  · intro name hname
    exact p2 name (by rw [← h2]; exact hname)
  · obtain ⟨g1, g2, g3⟩ := h3 h
    have hr : (readModels sv decoder entries pluginDec).1.read =
        expectedLoads sv pluginDec.ModelFiles entries := g1
    refine ⟨hr, g2.trans hr.symm, by rw [hr]; exact g3, ?_⟩
    intro filename dir hmem hpos
    rw [hr, mem_expectedLoads]
    constructor
    · rintro ⟨_, _, _, _, _, hp⟩
      exact hp
    · intro hp
      exact ⟨filename, dir, hmem, rfl, hpos, hp⟩

/-- C22 at a package whose position file matches the pattern `models/llm/*.yaml`. -/
theorem C22_position_files_are_not_models_witness :
    (readModels slashServices packageWithPositionFile
      [("_position.yaml", "models/llm"), ("gpt.yaml", "models/llm"), ("main.py", "")]
      { IconSmall := none, IconLarge := none, ModelFiles := ["models/llm/*.yaml"] }).1.read =
      ["models/llm/gpt.yaml"] ∧
    slashServices.Match "models/llm/*.yaml" "models/llm/_position.yaml" = .ok true :=
  ⟨((C22_position_files_are_not_models slashServices packageWithPositionFile
      [("_position.yaml", "models/llm"), ("gpt.yaml", "models/llm"), ("main.py", "")]
      { IconSmall := none, IconLarge := none, ModelFiles := ["models/llm/*.yaml"] }).2.2
      rfl).1.trans (by decide),
   rfl⟩

/-- A file that matches two patterns is appended twice. -/
theorem model_file_of_two_patterns_loaded_twice :
    (readModels slashServices packageWithPositionFile [("gpt.yaml", "models/llm")]
      { IconSmall := none, IconLarge := none
        ModelFiles := ["models/llm/*.yaml", "models/llm/gpt.yaml"] }).1.Models =
      [{ Model := "gpt" }, { Model := "gpt" }] := by
  decide

/-! ## The profile form of the scaffolding command -/

/-- A sequence of two calls that returns a value: both calls returned one. -/
theorem CallResult.bind_eq_ok {α β : Type} (r : CallResult α) (f : α → CallResult β) (y : β)
    (h : r.bind f = .ok y) : ∃ x, r = .ok x ∧ f x = .ok y := by
  cases r with
  | ok x => exact ⟨x, rfl, h⟩
  | error err => simp [CallResult.bind] at h
  | panic reason => simp [CallResult.bind] at h

/-- With four inputs, a cursor between 0 and 3 indexes an input. -/
theorem inputValueAtCursor_ok (p : profile) (hlen : p.inputs.length = 4)
    (h0 : 0 ≤ p.cursor) (h3 : p.cursor ≤ 3) : ∃ value, p.inputValueAtCursor = .ok value := by
  unfold profile.inputValueAtCursor
  rw [if_neg (by omega)]
  have hlt : p.cursor.toNat < p.inputs.length := by omega
  rw [List.getElem?_eq_getElem hlt]
  exact ⟨_, rfl⟩

/-- With four inputs `checkRule` does not panic, whatever the cursor, and changes only
the warning. -/
theorem checkRule_spec (sv : ProfileServices) (p : profile) (hlen : p.inputs.length = 4) :
    ∃ warning passed, p.checkRule sv = .ok ({ p with warning := warning }, passed) := by
  by_cases hrange : 0 ≤ p.cursor ∧ p.cursor ≤ 3
  · obtain ⟨value, hv⟩ := inputValueAtCursor_ok p hlen hrange.1 hrange.2
    simp only [profile.checkRule, hv, CallResult.bind]
    split_ifs <;> exact ⟨_, _, rfl⟩
  · simp only [profile.checkRule]
    split_ifs <;> first | exact ⟨_, _, rfl⟩ | (exfalso; omega)

/-- Giving the focus keeps the number of inputs. -/
theorem focusInputs_length (cursor : Int) (i : Nat) (inputs : List TextInput) :
    (focusInputs cursor i inputs).length = inputs.length := by
  induction inputs generalizing i with
  | nil => rfl
  | cons input rest ih => simp [focusInputs, ih]

/-- The part of `Update` after the `switch` changes only the inputs, not their
number, and returns the event `SUB_MENU_EVENT_NONE`. -/
theorem finishUpdate_fields (sv : ProfileServices) (msg : Msg) (p : profile) :
    (finishUpdate sv msg p).menu.cursor = p.cursor ∧
    (finishUpdate sv msg p).menu.inputs.length = p.inputs.length ∧
    (finishUpdate sv msg p).menu.enableI18nReadme = p.enableI18nReadme ∧
    (finishUpdate sv msg p).menu.languageChoices = p.languageChoices ∧
    (finishUpdate sv msg p).menu.languageSection = p.languageSection ∧
    (finishUpdate sv msg p).event = .SUB_MENU_EVENT_NONE := by
  unfold finishUpdate
  simp only
  split_ifs <;> simp [focusInputs_length]

/-- A profile in range has four language choices. -/
theorem inRange_choices_length (p : profile) (h : p.InRange) : p.languageChoices.length = 4 := by
  have := congrArg List.length h.2.1
  simpa [choiceKinds] using this

/-- Being in range depends on the number of inputs, the choices, the section and
the cursor only. -/
theorem inRange_of_fields (p q : profile) (h : p.InRange)
    (hinputs : q.inputs.length = p.inputs.length)
    (hchoices : q.languageChoices = p.languageChoices)
    (hsection : q.languageSection = p.languageSection) (hcursor : q.cursor = p.cursor) :
    q.InRange := by
  unfold profile.InRange at h ⊢
  rw [hinputs, hchoices, hsection, hcursor]
  exact h

/-- The part of `Update` after the `switch` keeps a profile in range. -/
theorem finishUpdate_inRange (sv : ProfileServices) (msg : Msg) (p : profile) (h : p.InRange) :
    (finishUpdate sv msg p).menu.InRange := by
  obtain ⟨h1, h2, _, h4, h5, _⟩ := finishUpdate_fields sv msg p
  exact inRange_of_fields p _ h h2 h4 h5 h1

/-- Toggling the checkbox keeps a profile in range and moves neither the cursor nor
the section. -/
theorem toggleI18nReadme_inRange (p : profile) (h : p.InRange) :
    (toggleI18nReadme p).InRange ∧ (toggleI18nReadme p).cursor = p.cursor ∧
      (toggleI18nReadme p).languageSection = p.languageSection := by
  unfold toggleI18nReadme
  simp only
  split
  · refine ⟨?_, rfl, rfl⟩
    obtain ⟨h1, h2, h3, h4, h5⟩ := h
    refine ⟨h1, ?_, ?_, h4, ?_⟩
    · simpa [choiceKinds, Function.comp_def] using h2
    · intro choice hc
      simp only [List.mem_map] at hc
      obtain ⟨c, _, rfl⟩ := hc
      simp
    · simpa using h5
  · exact ⟨h, rfl, rfl⟩

/-- In the language-selection section of a profile in range the toggled index is
within bounds, and the toggle keeps the profile in range. -/
theorem toggleLanguage_inRange (p : profile) (h : p.InRange) (hsection : p.languageSection = true) :
    ∃ q, toggleLanguage p = .ok q ∧ q.InRange ∧ q.cursor = p.cursor ∧
      q.languageSection = p.languageSection ∧ q.enableI18nReadme = p.enableI18nReadme := by
  obtain ⟨h1, h2, h3, h4, h5⟩ := h
  have hc := h5 hsection
  unfold toggleLanguage
  rw [if_neg (by omega)]
  have hlt : p.cursor.toNat < p.languageChoices.length := by omega
  rw [List.getElem?_eq_getElem hlt]
  simp only
  split
  · rename_i hreq
    refine ⟨_, rfl, ⟨h1, ?_, ?_, h4, ?_⟩, rfl, rfl, rfl⟩
    · have hreq2 : (p.languageChoices[p.cursor.toNat]).required = false := by simpa using hreq
      rw [← h2]
      apply List.ext_getElem
      · simp [choiceKinds]
      · intro i hi1 hi2
        simp only [choiceKinds, List.getElem_map, List.getElem_set]
        split
        · rename_i heq
          subst heq
          rfl
        · rfl
    · intro choice hmem hr
      rcases List.mem_or_eq_of_mem_set hmem with hm | hm
      · exact h3 choice hm hr
      · subst hm
        simp at hreq hr
        rw [hreq] at hr
        cases hr
    · intro hs
      simpa using h5 hs
  · exact ⟨_, rfl, ⟨h1, h2, h3, h4, h5⟩, rfl, rfl, rfl⟩

/-- A profile in range stays in range when its cursor and section are set to values
that fit together. -/
theorem inRange_set (p : profile) (h : p.InRange) (cursor : Int) (languageSection : Bool)
    (warning : String)
    (hc : (languageSection = false → 0 ≤ cursor ∧ cursor ≤ 4) ∧
      (languageSection = true → 0 ≤ cursor ∧ cursor < 4)) :
    ({ p with cursor := cursor, languageSection := languageSection, warning := warning } :
      profile).InRange := by
  have hlen := inRange_choices_length p h
  obtain ⟨h1, h2, h3, _, _⟩ := h
  refine ⟨h1, h2, h3, hc.1, fun hs => ?_⟩
  have := hc.2 hs
  simp only [hlen]
  omega

/-- The rule test followed by `next` returns a value with a property that holds both
for the early return and for the values of `next`. -/
theorem guardRule_ok (sv : ProfileServices) (p : profile)
    (next : profile → CallResult UpdateReturn) (Good : UpdateReturn → Prop)
    (hlen : p.inputs.length = 4)
    (hearly : ∀ warning,
      Good { menu := { p with warning := warning }, event := .SUB_MENU_EVENT_NONE, quit := false })
    (hnext : ∀ warning, ∃ r, next { p with warning := warning } = .ok r ∧ Good r) :
    ∃ r, guardRule sv p next = .ok r ∧ Good r := by
  unfold guardRule
  split
  · obtain ⟨warning, passed, hc⟩ := checkRule_spec sv p hlen
    rw [hc]
    simp only [CallResult.bind]
    cases passed with
    | false => exact ⟨_, rfl, hearly warning⟩
    | true => exact hnext warning
  · exact hnext p.warning

/-- The final part of `Update` returns a profile in range that keeps the link between
the section and the option. -/
theorem finishUpdate_good (sv : ProfileServices) (msg : Msg) (p q : profile) (hq : q.InRange)
    (hl : p.SectionNeedsI18n → q.SectionNeedsI18n) :
    ∃ r, CallResult.ok (finishUpdate sv msg q) = .ok r ∧ r.menu.InRange ∧
      (p.SectionNeedsI18n → r.menu.SectionNeedsI18n) := by
  refine ⟨_, rfl, finishUpdate_inRange sv msg q hq, fun hp => ?_⟩
  obtain ⟨_, _, h3, _, h5, _⟩ := finishUpdate_fields sv msg q
  unfold profile.SectionNeedsI18n
  rw [h3, h5]
  exact hl hp

/-- On a profile in range `Update` does not panic and returns a profile in range; if
the section was open only with the option enabled, it still is. -/
theorem Update_inRange (sv : ProfileServices) (msg : Msg) (p : profile) (h : p.InRange) :
    ∃ r, p.Update sv msg = .ok r ∧ r.menu.InRange ∧
      (p.SectionNeedsI18n → r.menu.SectionNeedsI18n) := by
  have hlen : p.inputs.length = 4 := h.1
  have hmain := h.2.2.2.1
  have hsect := h.2.2.2.2
  have hchoices := inRange_choices_length p h
  cases msg with
  | other => exact finishUpdate_good sv _ p p h id
  | KeyMsg key =>
    unfold profile.Update
    simp only
    by_cases hk1 : key = "ctrl+c"
    · rw [if_pos hk1]
      exact ⟨_, rfl, h, id⟩
    rw [if_neg hk1]
    by_cases hs : p.languageSection = true
    · have hc := hsect hs
      rw [hchoices] at hc
      by_cases hk2 : key = "down"
      · rw [if_pos hk2, if_pos hs]
        simp only [hchoices]
        split_ifs
        · refine finishUpdate_good sv _ p _ ?_ (fun hp hq => hp hq)
          refine inRange_set p h _ _ _ ⟨fun hx => ?_, fun hx => ?_⟩
          · rw [hs] at hx; cases hx
          · omega
        · refine finishUpdate_good sv _ p _ ?_ (fun hp hq => hp hq)
          refine inRange_set p h _ _ _ ⟨fun hx => ?_, fun hx => ?_⟩
          · rw [hs] at hx; cases hx
          · omega
      rw [if_neg hk2]
      by_cases hk3 : key = "up"
      · rw [if_pos hk3, if_pos hs]
        try dsimp only
        split_ifs
        · refine finishUpdate_good sv _ p _ ?_ (fun _ hq => by cases hq)
          refine inRange_set p h _ _ _ ⟨fun hx => ?_, fun hx => ?_⟩
          · omega
          · cases hx
        · refine finishUpdate_good sv _ p _ ?_ (fun hp hq => hp hq)
          refine inRange_set p h _ _ _ ⟨fun hx => ?_, fun hx => ?_⟩
          · rw [hs] at hx; cases hx
          · omega
      rw [if_neg hk3]
      by_cases hk4 : key = "enter"
      · rw [if_pos hk4, if_pos hs]
        exact ⟨_, rfl, h, id⟩
      rw [if_neg hk4]
      split_ifs
      · obtain ⟨q, hq, hqr, _, hqs, hqe⟩ := toggleLanguage_inRange p h hs
        rw [hq]
        simp only [CallResult.bind]
        refine finishUpdate_good sv _ p q hqr ?_
        intro hp
        unfold profile.SectionNeedsI18n
        rw [hqs, hqe]
        exact hp
      · exact finishUpdate_good sv _ p p h id
    · have hsf : p.languageSection = false := by simpa using hs
      have hc := hmain hsf
      by_cases hk2 : key = "down"
      · rw [if_pos hk2, if_neg hs]
        refine guardRule_ok sv p _ _ hlen (fun warning => ⟨h, id⟩) ?_
        intro warning
        try dsimp only
        split_ifs with ha hb
        · refine finishUpdate_good sv _ p _ ?_ (fun _ _ => ha.1)
          refine inRange_set p h _ _ _ ⟨fun hx => ?_, fun hx => ?_⟩
          · cases hx
          · omega
        · refine finishUpdate_good sv _ p _ ?_ (fun hp hq => hp hq)
          refine inRange_set p h _ _ _ ⟨fun hx => ?_, fun hx => ?_⟩
          · omega
          · rw [hsf] at hx; cases hx
        · refine finishUpdate_good sv _ p _ ?_ (fun hp hq => hp hq)
          refine inRange_set p h _ _ _ ⟨fun hx => ?_, fun hx => ?_⟩
          · omega
          · rw [hsf] at hx; cases hx
      rw [if_neg hk2]
      by_cases hk3 : key = "up"
      · rw [if_pos hk3, if_neg hs]
        refine guardRule_ok sv p _ _ hlen (fun warning => ⟨h, id⟩) ?_
        intro warning
        simp only [hchoices]
        split_ifs with ha hb
        · refine finishUpdate_good sv _ p _ ?_ (fun _ _ => hb)
          refine inRange_set p h _ _ _ ⟨fun hx => ?_, fun hx => ?_⟩
          · cases hx
          · omega
        · refine finishUpdate_good sv _ p _ ?_ (fun hp hq => hp hq)
          refine inRange_set p h _ _ _ ⟨fun hx => ?_, fun hx => ?_⟩
          · omega
          · rw [hsf] at hx; cases hx
        · refine finishUpdate_good sv _ p _ ?_ (fun hp hq => hp hq)
          refine inRange_set p h _ _ _ ⟨fun hx => ?_, fun hx => ?_⟩
          · omega
          · rw [hsf] at hx; cases hx
      rw [if_neg hk3]
      by_cases hk4 : key = "enter"
      · rw [if_pos hk4, if_neg hs]
        split_ifs with h4
        · obtain ⟨ht, _, hts⟩ := toggleI18nReadme_inRange p h
          refine ⟨_, rfl, ht, fun _ hq => ?_⟩
          rw [hts, hsf] at hq
          cases hq
        · refine guardRule_ok sv p _ _ hlen (fun warning => ⟨h, id⟩) ?_
          intro warning
          try dsimp only
          split_ifs with h3
          · obtain ⟨value, hv⟩ := inputValueAtCursor_ok { p with warning := warning } hlen
              (by simp only; omega) (by simp only; omega)
            rw [hv]
            simp only [CallResult.bind, ite_self]
            refine ⟨_, rfl, ?_, fun hp hq => hp hq⟩
            refine inRange_set p h _ _ _ ⟨fun hx => ?_, fun hx => ?_⟩
            · omega
            · rw [hsf] at hx; cases hx
          · refine finishUpdate_good sv _ p _ ?_ (fun hp hq => hp hq)
            refine inRange_set p h _ _ _ ⟨fun hx => ?_, fun hx => ?_⟩
            · omega
            · rw [hsf] at hx; cases hx
      rw [if_neg hk4]
      split_ifs with hk5 h4
      · obtain ⟨ht, _, hts⟩ := toggleI18nReadme_inRange p h
        refine finishUpdate_good sv _ p _ ht ?_
        intro _ hq
        rw [hts, hsf] at hq
        cases hq
      · exact finishUpdate_good sv _ p p h id
      · exact finishUpdate_good sv _ p p h id

/-- The rule test followed by a `next` that returns `SUB_MENU_EVENT_NONE` returns that
event. -/
theorem guardRule_event (sv : ProfileServices) (p : profile)
    (next : profile → CallResult UpdateReturn) (r : UpdateReturn)
    (hnext : ∀ q ret, next q = .ok ret → ret.event = .SUB_MENU_EVENT_NONE)
    (h : guardRule sv p next = .ok r) : r.event = .SUB_MENU_EVENT_NONE := by
  unfold guardRule at h
  split at h
  · obtain ⟨checked, _, hc⟩ := CallResult.bind_eq_ok _ _ _ h
    split at hc
    · cases hc; rfl
    · exact hnext _ _ hc
  · exact hnext _ _ h

/-- The final `return` of `Update` carries `SUB_MENU_EVENT_NONE`. -/
theorem finishUpdate_event (sv : ProfileServices) (msg : Msg) (p : profile) (r : UpdateReturn)
    (h : CallResult.ok (finishUpdate sv msg p) = .ok r) : r.event = .SUB_MENU_EVENT_NONE := by
  cases h
  exact (finishUpdate_fields sv msg p).2.2.2.2.2

/-- The event `SUB_MENU_EVENT_NEXT` comes from the enter key in the language-selection
section, the profile being returned unchanged. -/
theorem Update_next (sv : ProfileServices) (msg : Msg) (p : profile) (r : UpdateReturn)
    (h : p.Update sv msg = .ok r) (hnext : r.event = .SUB_MENU_EVENT_NEXT) :
    msg = .KeyMsg "enter" ∧ p.languageSection = true ∧ r.menu = p := by
  have hnone : r.event ≠ .SUB_MENU_EVENT_NONE := by rw [hnext]; decide
  have hfin : ∀ (m : Msg) (q : profile), CallResult.ok (finishUpdate sv m q) = .ok r → False :=
    fun m q hq => hnone (finishUpdate_event sv m q r hq)
  have hguard : ∀ next : profile → CallResult UpdateReturn,
      (∀ q ret, next q = .ok ret → ret.event = .SUB_MENU_EVENT_NONE) →
      guardRule sv p next = .ok r → False :=
    fun next hn hg => hnone (guardRule_event sv p next r hn hg)
  cases msg with
  | other => exact (hfin _ _ h).elim
  | KeyMsg key =>
    unfold profile.Update at h
    simp only at h
    by_cases hk1 : key = "ctrl+c"
    · rw [if_pos hk1] at h
      cases h
      cases hnext
    rw [if_neg hk1] at h
    by_cases hk2 : key = "down"
    · rw [if_pos hk2] at h
      by_cases hs : p.languageSection = true
      · rw [if_pos hs] at h
        exact (hfin _ _ h).elim
      · rw [if_neg hs] at h
        exact (hguard _ (fun q ret hq => finishUpdate_event sv _ _ ret hq) h).elim
    rw [if_neg hk2] at h
    by_cases hk3 : key = "up"
    · rw [if_pos hk3] at h
      by_cases hs : p.languageSection = true
      · rw [if_pos hs] at h
        exact (hfin _ _ h).elim
      · rw [if_neg hs] at h
        exact (hguard _ (fun q ret hq => finishUpdate_event sv _ _ ret hq) h).elim
    rw [if_neg hk3] at h
    by_cases hk4 : key = "enter"
    · rw [if_pos hk4] at h
      by_cases hs : p.languageSection = true
      · rw [if_pos hs] at h
        cases h
        exact ⟨by rw [hk4], hs, rfl⟩
      · rw [if_neg hs] at h
        by_cases h4 : p.cursor = 4
        · rw [if_pos h4] at h
          cases h
          cases hnext
        · rw [if_neg h4] at h
          refine (hguard _ ?_ h).elim
          intro q ret hq
          split at hq
          · obtain ⟨value, _, hv⟩ := CallResult.bind_eq_ok _ _ _ hq
            split at hv <;> (cases hv; rfl)
          · exact finishUpdate_event sv _ _ ret hq
    rw [if_neg hk4] at h
    by_cases hk5 : key = " " ∨ key = "tab"
    · rw [if_pos hk5] at h
      by_cases hs : p.languageSection = true
      · rw [if_pos hs] at h
        obtain ⟨q, _, hq⟩ := CallResult.bind_eq_ok _ _ _ h
        exact (hfin _ _ hq).elim
      · rw [if_neg hs] at h
        by_cases h4 : p.cursor = 4
        · rw [if_pos h4] at h
          exact (hfin _ _ h).elim
        · rw [if_neg h4] at h
          exact (hfin _ _ h).elim
    · rw [if_neg hk5] at h
      exact (hfin _ _ h).elim

/-- The profile of `newProfile()` is in range. -/
theorem newProfile_inRange : newProfile.InRange := by
  refine ⟨rfl, rfl, ?_, fun _ => ⟨by decide, by decide⟩, fun h => by cases h⟩
  decide

/-- Every profile reachable by `Update` is in range and has its section open only
with the option enabled. -/
theorem reachable_inRange (sv : ProfileServices) (p : profile) (h : p.Reachable sv) :
    p.InRange ∧ p.SectionNeedsI18n := by
  induction h with
  | start => exact ⟨newProfile_inRange, fun h => by cases h⟩
  | update msg p r _ hr ih =>
    obtain ⟨r2, h2, hin, hsec⟩ := Update_inRange sv msg p ih.1
    rw [hr] at h2
    cases h2
    exact ⟨hin, hsec ih.2⟩

/-- Handling a list of messages leads from reachable profiles to reachable ones. -/
theorem runUpdates_reachable (sv : ProfileServices) (msgs : List Msg) :
    ∀ p q : profile, p.Reachable sv → runUpdates sv msgs p = .ok q → q.Reachable sv := by
  induction msgs with
  | nil =>
    intro p q hp h
    cases h
    exact hp
  | cons msg rest ih =>
    intro p q hp h
    unfold runUpdates at h
    obtain ⟨r, hr, hrest⟩ := CallResult.bind_eq_ok _ _ _ h
    exact ih r.menu q (profile.Reachable.update msg p r hp hr) hrest

/-- The profile after a list of messages is reachable. -/
theorem profileAfter_reachable (sv : ProfileServices) (msgs : List Msg) :
    (profileAfter sv msgs).Reachable sv := by
  unfold profileAfter
  split
  · rename_i p hp
    exact runUpdates_reachable sv msgs newProfile p profile.Reachable.start hp
  · exact profile.Reachable.start

/-- Selecting a language keeps the codes and the required flags, and the required
choices selected. -/
theorem selectFirst_spec (lang : String) (choices : List languageChoice)
    (h : ∀ choice ∈ choices, choice.required = true → choice.selected = true) :
    choiceKinds (selectFirst lang choices) = choiceKinds choices ∧
      ∀ choice ∈ selectFirst lang choices, choice.required = true → choice.selected = true := by
  induction choices with
  | nil => exact ⟨rfl, h⟩
  | cons c rest ih =>
    unfold selectFirst
    split
    · refine ⟨by simp [choiceKinds], ?_⟩
      intro choice hc hr
      rcases List.mem_cons.mp hc with rfl | hc
      · rfl
      · exact h choice (List.mem_cons_of_mem _ hc) hr
    · obtain ⟨ih1, ih2⟩ := ih fun choice hc => h choice (List.mem_cons_of_mem _ hc)
      refine ⟨?_, ?_⟩
      · simp only [choiceKinds, List.map_cons] at ih1 ⊢
        rw [ih1]
      · intro choice hc hr
        rcases List.mem_cons.mp hc with rfl | hc
        · exact h choice (List.mem_cons_self _ _) hr
        · exact ih2 choice hc hr

/-- The outer loop of `SetSelectedLanguages` keeps a profile in range. -/
theorem selectAll_inRange (languages : List String) :
    ∀ p : profile, p.InRange →
      (languages.foldl
        (fun p lang => { p with languageChoices := selectFirst lang p.languageChoices })
        p).InRange := by
  induction languages with
  | nil => intro p h; exact h
  | cons lang rest ih =>
    intro p h
    simp only [List.foldl_cons]
    apply ih
    obtain ⟨h1, h2, h3, h4, h5⟩ := h
    obtain ⟨s1, s2⟩ := selectFirst_spec lang p.languageChoices h3
    refine ⟨h1, by rw [← h2]; exact s1, s2, h4, fun hs => ?_⟩
    have hl : (selectFirst lang p.languageChoices).length = p.languageChoices.length := by
      have := congrArg List.length s1
      simpa [choiceKinds] using this
    simp only [hl]
    exact h5 hs

/-- The method `SetSelectedLanguages` keeps a profile in range. -/
theorem SetSelectedLanguages_inRange (p : profile) (languages : List String) (h : p.InRange) :
    (p.SetSelectedLanguages languages).InRange := by
  unfold profile.SetSelectedLanguages
  apply selectAll_inRange
  obtain ⟨h1, h2, h3, h4, h5⟩ := h
  refine ⟨h1, ?_, ?_, h4, ?_⟩
  · rw [← h2]
    simp only [choiceKinds, List.map_map]
    apply List.map_congr_left
    intro c _
    simp only [Function.comp]
    split <;> rfl
  · intro choice hc hr
    simp only [List.mem_map] at hc
    obtain ⟨c, hcm, rfl⟩ := hc
    split at hr
    · rename_i hnot
      simp at hnot hr
      rw [hnot] at hr
      cases hr
    · rename_i hreq
      simp only [hreq]
      exact h3 c hcm hr
  · simpa using h5

/-- Every profile reachable by `Update` and the two setters is in range. -/
theorem reachableWithSetters_inRange (sv : ProfileServices) (p : profile)
    (h : p.ReachableWithSetters sv) : p.InRange := by
  induction h with
  | start => exact newProfile_inRange
  | update msg p r _ hr ih =>
    obtain ⟨r2, h2, hin, _⟩ := Update_inRange sv msg p ih
    rw [hr] at h2
    cases h2
    exact hin
  | setEnableI18nReadme enable p _ ih => exact ih
  | setSelectedLanguages languages p _ ih => exact SetSelectedLanguages_inRange p languages ih

/-- In a profile in range the choice `en` is required and selected, and
`SelectedLanguages()` holds `en`. -/
theorem inRange_english (p : profile) (h : p.InRange) :
    (∃ choice ∈ p.languageChoices,
      choice.code = "en" ∧ choice.required = true ∧ choice.selected = true) ∧
    "en" ∈ p.SelectedLanguages ∧
    (p.enableI18nReadme = false → p.SelectedLanguages = ["en"]) := by
  obtain ⟨_, h2, h3, _, _⟩ := h
  have hfirst : ∃ choice ∈ p.languageChoices,
      choice.code = "en" ∧ choice.required = true ∧ choice.selected = true := by
    cases hc : p.languageChoices with
    | nil => rw [hc] at h2; simp [choiceKinds] at h2
    | cons c rest =>
      rw [hc] at h2 h3
      simp only [choiceKinds, List.map_cons, List.cons.injEq, Prod.mk.injEq] at h2
      exact ⟨c, List.mem_cons_self _ _, h2.1.1, h2.1.2,
        h3 c (List.mem_cons_self _ _) h2.1.2⟩
  refine ⟨hfirst, ?_, ?_⟩
  · unfold profile.SelectedLanguages
    split
    · simp
    · obtain ⟨choice, hm, hcode, _, hsel⟩ := hfirst
      simp only [List.mem_map, List.mem_filter]
      exact ⟨choice, ⟨hm, hsel⟩, hcode⟩
  · intro he
    simp [profile.SelectedLanguages, he]

/-- C25: in every profile reachable from `newProfile()` by `Update` messages and calls of
`SetEnableI18nReadme` and `SetSelectedLanguages`, the required language choice `en` is
selected (as is every required choice), `SelectedLanguages()` contains `en`, and it is
exactly `["en"]` when the multilingual README option is disabled. -/
theorem C25_english_always_selected (sv : ProfileServices) (p : profile)
    (h : p.ReachableWithSetters sv) :
    (∃ choice ∈ p.languageChoices,
      choice.code = "en" ∧ choice.required = true ∧ choice.selected = true) ∧
    (∀ choice ∈ p.languageChoices, choice.required = true → choice.selected = true) ∧
    "en" ∈ p.SelectedLanguages ∧
    (p.enableI18nReadme = false → p.SelectedLanguages = ["en"]) := by
  have hin := reachableWithSetters_inRange sv p h
  obtain ⟨h1, h2, h3⟩ := inRange_english p hin
  exact ⟨h1, hin.2.2.1, h2, h3⟩

/-- C25 at the profile in which Japanese was selected and the option enabled. -/
theorem C25_english_always_selected_witness :
    ((newProfile.SetSelectedLanguages ["ja_JP"]).SetEnableI18nReadme true).SelectedLanguages =
      ["en", "ja_JP"] ∧
    "en" ∈
      ((newProfile.SetSelectedLanguages ["ja_JP"]).SetEnableI18nReadme true).SelectedLanguages :=
  ⟨by decide,
   (C25_english_always_selected typingServices
    ((newProfile.SetSelectedLanguages ["ja_JP"]).SetEnableI18nReadme true)
    (profile.ReachableWithSetters.setEnableI18nReadme true _
      (profile.ReachableWithSetters.setSelectedLanguages ["ja_JP"] _
        profile.ReachableWithSetters.start))).2.2.1⟩

/-- C28: `Update` returns `SUB_MENU_EVENT_NEXT` only for the enter key while the profile is
in the language-selection section; in every profile reachable from `newProfile()` by
`Update` messages alone that section implies that the multilingual README option is
enabled; so whenever `Update` returns `SUB_MENU_EVENT_NEXT` on a reachable profile the
option is enabled, before and after. -/
theorem C28_next_only_from_language_section (sv : ProfileServices) :
    (∀ (p : profile) (msg : Msg) (r : UpdateReturn), p.Update sv msg = .ok r →
      r.event = .SUB_MENU_EVENT_NEXT → msg = .KeyMsg "enter" ∧ p.languageSection = true) ∧
    (∀ p : profile, p.Reachable sv → p.languageSection = true → p.enableI18nReadme = true) ∧
    (∀ (p : profile) (msg : Msg) (r : UpdateReturn), p.Reachable sv → p.Update sv msg = .ok r →
      r.event = .SUB_MENU_EVENT_NEXT →
      p.enableI18nReadme = true ∧ r.menu.enableI18nReadme = true) := by
  refine ⟨?_, ?_, ?_⟩
  · intro p msg r h hnext
    obtain ⟨h1, h2, _⟩ := Update_next sv msg p r h hnext
    exact ⟨h1, h2⟩
  · intro p hp
    exact (reachable_inRange sv p hp).2
  · intro p msg r hp h hnext
    obtain ⟨_, h2, h3⟩ := Update_next sv msg p r h hnext
    have he := (reachable_inRange sv p hp).2 h2
    exact ⟨he, by rw [h3]; exact he⟩

/-- C28 at the profile reached by filling the form, enabling the option and moving
into the language-selection section, where the enter key finishes. -/
theorem C28_next_only_from_language_section_witness :
    (profileAfter typingServices keysToLanguageSection).languageSection = true ∧
    (profileAfter typingServices keysToLanguageSection).enableI18nReadme = true ∧
    ((profileAfter typingServices keysToLanguageSection).Update typingServices
      (.KeyMsg "enter")).bind (fun r => .ok r.event) = .ok .SUB_MENU_EVENT_NEXT :=
  ⟨rfl,
   (C28_next_only_from_language_section typingServices).2.1
    (profileAfter typingServices keysToLanguageSection)
    (profileAfter_reachable typingServices keysToLanguageSection) rfl,
   rfl⟩

/-- C30: in every profile reachable from `newProfile()` by `Update` messages the cursor
is between 0 and 4 in the main form and a valid index of the language choices in the
language-selection section; there are four inputs, so the indexes of `checkRule` and of
the submit branch are within bounds, as is the index of the toggle branch; and `Update`
does not panic on any message. -/
theorem C30_cursor_in_range (sv : ProfileServices) (p : profile) (h : p.Reachable sv) :
    (p.languageSection = false → 0 ≤ p.cursor ∧ p.cursor ≤ 4) ∧
    (p.languageSection = true → 0 ≤ p.cursor ∧ p.cursor < p.languageChoices.length) ∧
    p.inputs.length = 4 ∧
    (∃ warning passed, p.checkRule sv = .ok ({ p with warning := warning }, passed)) ∧
    (p.languageSection = false → p.cursor = 3 → ∃ value, p.inputValueAtCursor = .ok value) ∧
    (p.languageSection = true → ∃ q, toggleLanguage p = .ok q) ∧
    (∀ msg, ∃ r, p.Update sv msg = .ok r) := by
  have hin := (reachable_inRange sv p h).1
  refine ⟨hin.2.2.2.1, hin.2.2.2.2, hin.1, checkRule_spec sv p hin.1, ?_, ?_, ?_⟩
  · intro _ h3
    exact inputValueAtCursor_ok p hin.1 (by omega) (by omega)
  · intro hs
    obtain ⟨q, hq, _⟩ := toggleLanguage_inRange p hin hs
    exact ⟨q, hq⟩
  · intro msg
    obtain ⟨r, hr, _⟩ := Update_inRange sv msg p hin
    exact ⟨r, hr⟩

/-- C30 at the profile that entered the language-selection section, and the cursor
after leaving it upwards. -/
theorem C30_cursor_in_range_witness :
    (profileAfter typingServices (keysToLanguageSection ++ [.KeyMsg "up", .KeyMsg "up"])).cursor =
      3 ∧
    0 ≤ (profileAfter typingServices keysToLanguageSection).cursor ∧
    (profileAfter typingServices keysToLanguageSection).cursor <
      (profileAfter typingServices keysToLanguageSection).languageChoices.length :=
  ⟨rfl,
   (C30_cursor_in_range typingServices (profileAfter typingServices keysToLanguageSection)
    (profileAfter_reachable typingServices keysToLanguageSection)).2.1 rfl⟩

/-- With the option disabled the cursor wraps from the checkbox to the name, and a
move is refused while the name is empty. -/
theorem cursor_wraps_in_main_form :
    (profileAfter typingServices
      [.KeyMsg "a", .KeyMsg "down", .KeyMsg "b", .KeyMsg "down", .KeyMsg "c", .KeyMsg "down",
       .KeyMsg "down", .KeyMsg "down"]).cursor = 0 ∧
    (profileAfter typingServices [.KeyMsg "up"]).warning =
      "Name, author and description cannot be empty" :=
  ⟨rfl, rfl⟩

/-- The enter key on the checkbox toggles the option and returns
`SUB_MENU_EVENT_NONE`. -/
theorem enter_in_main_form_never_finishes :
    ((profileAfter typingServices
      [.KeyMsg "a", .KeyMsg "down", .KeyMsg "b", .KeyMsg "down", .KeyMsg "c", .KeyMsg "down",
       .KeyMsg "enter"]).Update typingServices (.KeyMsg "enter")).bind
        (fun r => .ok (r.event, r.menu.enableI18nReadme)) =
      .ok (.SUB_MENU_EVENT_NONE, true) :=
  rfl

end DifyPluginDaemon
